import Mathlib

/-!
NFractal: transform and point-set engine (src/main.c)

Shallow embedding of the engine state of `src/main.c` and of its mutators.

Modelling conventions
* C `float` and `double` values are rationals and their arithmetic is exact,
  except in the functions named `..._f32`, which follow the same source lines
  with every operation rounded to binary32 (see the section on binary32).
* C `int` values are integers; every `int` computation below stays far from the
  32-bit range on the states considered, so no wrap-around is modelled.
  `size_t` is 64 bits wide and wraps modulo `2^64`.
* Fixed-size C arrays are functions on `Fin n`.  An access through a computed
  index is checked: outside the array the C behaviour is undefined and the
  embedded function returns `none`.
* The buffer bound to `GL_UNIFORM_BUFFER` is a word-addressed store (one cell per
  4 bytes) that is carried in the state as the field `ubo`.
* The window object behind `state->window` is external; what the code reads from
  it (framebuffer size, left mouse button) is passed in as a `GLFWwindow` record.
* The fragment shader `FRAG_SHADER_SRC` is embedded over the uniform block it
  declares. GLSL leaves the result of a division by zero and of an array read
  outside the array undefined; the embedded shader stops there and reports the
  place. `determinant` and the product of a `mat3` with a `vec3` are the
  determinant and the matrix-vector product of Mathlib.
-/

namespace NFractal

/-! ## Constants -/

def MAX_POINTS : Int := 20
def POINT_RADIUS : Int := 20

/-- The constant `1.1`. -/
def ZOOM_COEFF : ℚ := 11 / 10

def DEFAULT_WINDOW_WIDTH : Int := 640
def DEFAULT_WINDOW_HEIGHT : Int := 480

def TRANSFORM_MATRIX_OFFSET : Int := 0
def WINDOW_SIZE_OFFSET : Int := 48
def SELECTED_POINT_OFFSET : Int := 56
def POINTS_COUNT_OFFSET : Int := 60
def POINTS_ARRAY_OFFSET : Int := 64

/-- Value of `GLFW_PRESS` in the GLFW headers. -/
def GLFW_PRESS : Int := 1
/-- Value of `GLFW_KEY_EQUAL` in the GLFW headers. -/
def GLFW_KEY_EQUAL : Int := 61
/-- Value of `GLFW_KEY_MINUS` in the GLFW headers. -/
def GLFW_KEY_MINUS : Int := 45

/-- Size in bytes of a C `float`. -/
def sizeof_float : Int := 4

/-- Number of values of `size_t`. -/
def SIZE_MAX_SUCC : Int := 2 ^ 64

/-! ## The uniform buffer -/

/-- One 4-byte word of the uniform buffer. -/
inductive Cell where
  | undef : Cell
  | f32 (v : ℚ) : Cell
  | i32 (v : Int) : Cell
deriving DecidableEq, Repr

/-- Buffer object bound to `GL_UNIFORM_BUFFER`: its size in bytes and its words. -/
structure GLBuffer where
  size : Int
  mem : Nat → Cell

/-- The words found at a pointer to an array of floats. -/
def floats {n : Nat} (a : Fin n → ℚ) : Nat → Cell :=
  fun w => if h : w < n then Cell.f32 (a ⟨w, h⟩) else Cell.undef

/-- The words found at a pointer to a single `int`. -/
def int_at (v : Int) : Nat → Cell :=
  fun w => if w = 0 then Cell.i32 v else Cell.undef

/-- Call `glBufferData(GL_UNIFORM_BUFFER, size, NULL, GL_DYNAMIC_DRAW)`:
a fresh store of `size` bytes with unspecified contents. -/
def glBufferData (size : Int) : GLBuffer :=
  { size := size, mem := fun _ => Cell.undef }

/-- Call `glBufferSubData(GL_UNIFORM_BUFFER, offset, size, data)`: the bytes
`offset .. offset + size - 1` are replaced by the bytes at `data`; a range that
does not fit the store raises `GL_INVALID_VALUE` and writes nothing. -/
def glBufferSubData (b : GLBuffer) (offset size : Int) (data : Nat → Cell) : GLBuffer :=
  if offset < 0 ∨ size < 0 ∨ b.size < offset + size then b
  else
    { b with
      mem := fun w =>
        if offset ≤ 4 * (w : Int) ∧ 4 * (w : Int) < offset + size
        then data (w - (offset / 4).toNat) else b.mem w }

/-! ## Engine state -/

/-- What the code reads from the GLFW window object. -/
structure GLFWwindow where
  framebuffer_width : Int
  framebuffer_height : Int
  mouse_button_left : Int

/-- The record `struct State` (its `window` pointer left out) together with the
uniform buffer the mutators write through to. -/
structure State where
  points_count : Int
  selected_point : Int
  points : Fin 80 → ℚ
  transform_mat : Fin 12 → ℚ
  prev_mouse_pos : Fin 2 → ℚ
  ubo : GLBuffer

/-- Checked read `a[i]`. -/
def load {n : Nat} (a : Fin n → ℚ) (i : Int) : Option ℚ :=
  if h : 0 ≤ i ∧ i < n then some (a ⟨i.toNat, by omega⟩) else none

/-- Checked write `a[i] = v`. -/
def store {n : Nat} (a : Fin n → ℚ) (i : Int) (v : ℚ) : Option (Fin n → ℚ) :=
  if h : 0 ≤ i ∧ i < n then some (Function.update a ⟨i.toNat, by omega⟩ v) else none

def IDENTITY_MATRIX : Fin 12 → ℚ :=
  ![1, 0, 0, 0,
    0, 1, 0, 0,
    0, 0, 1, 0]

/-- Function `state_init`. -/
def state_init : State :=
  let points_count : Int := 0
  let points : Fin 80 → ℚ := fun _ => 0
  let prev_mouse_pos : Fin 2 → ℚ := fun _ => 0
  let selected_point : Int := -1
  let transform_mat := IDENTITY_MATRIX
  let dims : Fin 2 → ℚ := ![(DEFAULT_WINDOW_WIDTH : ℚ), (DEFAULT_WINDOW_HEIGHT : ℚ)]
  let ubo := glBufferData (POINTS_ARRAY_OFFSET + 4 * sizeof_float * MAX_POINTS)
  let ubo := glBufferSubData ubo TRANSFORM_MATRIX_OFFSET (12 * sizeof_float) (floats transform_mat)
  let ubo := glBufferSubData ubo WINDOW_SIZE_OFFSET (2 * sizeof_float) (floats dims)
  let ubo := glBufferSubData ubo SELECTED_POINT_OFFSET 4 (int_at selected_point)
  let ubo := glBufferSubData ubo POINTS_COUNT_OFFSET 4 (int_at points_count)
  let ubo := glBufferSubData ubo POINTS_ARRAY_OFFSET (4 * sizeof_float * points_count) (floats points)
  { points_count := points_count
    selected_point := selected_point
    points := points
    transform_mat := transform_mat
    prev_mouse_pos := prev_mouse_pos
    ubo := ubo }

/-- Function `state_adjust_transform_matrix`.  The argument `result` is the
content of the local array `result` before the nine assignments: entries 3, 7
and 11 are never assigned and are copied into the transform as they are. -/
def state_adjust_transform_matrix (s : State)
    (a1 a2 a3 a4 a5 a6 a7 a8 a9 : ℚ) (result : Fin 12 → ℚ) : State :=
  let t := s.transform_mat
  let result := Function.update result 0 (t 0 * a1 + t 4 * a4 + t 8 * a7)
  let result := Function.update result 1 (t 1 * a1 + t 5 * a4 + t 9 * a7)
  let result := Function.update result 2 (t 2 * a1 + t 6 * a4 + t 10 * a7)
  let result := Function.update result 4 (t 0 * a2 + t 4 * a5 + t 8 * a8)
  let result := Function.update result 5 (t 1 * a2 + t 5 * a5 + t 9 * a8)
  let result := Function.update result 6 (t 2 * a2 + t 6 * a5 + t 10 * a8)
  let result := Function.update result 8 (t 0 * a3 + t 4 * a6 + t 8 * a9)
  let result := Function.update result 9 (t 1 * a3 + t 5 * a6 + t 9 * a9)
  let result := Function.update result 10 (t 2 * a3 + t 6 * a6 + t 10 * a9)
  { s with
    transform_mat := result
    ubo := glBufferSubData s.ubo TRANSFORM_MATRIX_OFFSET (12 * sizeof_float) (floats result) }

/-- Function `state_get_transform_matrix_det`, its arithmetic taken exactly;
`state_get_transform_matrix_det_f32` is the same function in binary32, where the
products can underflow to zero. -/
def state_get_transform_matrix_det (s : State) : ℚ :=
  let t := s.transform_mat
  t 0 * t 5 * t 10 +
  t 4 * t 9 * t 2 +
  t 8 * t 1 * t 6 -
  t 8 * t 5 * t 2 -
  t 4 * t 1 * t 10 -
  t 0 * t 9 * t 6

/-- Function `state_map_point`; the result is the array `out`. -/
def state_map_point (s : State) (x y z : ℚ) : Fin 3 → ℚ :=
  let t := s.transform_mat
  ![t 0 * x + t 4 * y + t 8 * z,
    t 1 * x + t 5 * y + t 9 * z,
    t 2 * x + t 6 * y + t 10 * z]

/-- Function `state_push_point`: the return value and the state afterwards. -/
def state_push_point (s : State) : Option (Int × State) :=
  if s.points_count ≥ MAX_POINTS then some (1, s)
  else do
    let points ← store s.points (4 * s.points_count) 0
    let points ← store points (4 * s.points_count + 1) 0
    let points_count := s.points_count + 1
    let ubo := glBufferSubData s.ubo POINTS_ARRAY_OFFSET
      (4 * sizeof_float * points_count) (floats points)
    let ubo := glBufferSubData ubo POINTS_COUNT_OFFSET 4 (int_at points_count)
    some (0, { s with points := points, points_count := points_count, ubo := ubo })

/-- Function `state_pop_point`: the return value and the state afterwards. -/
def state_pop_point (s : State) : Int × State :=
  if s.points_count ≤ 0 then (1, s)
  else
    let s1 : State :=
      if s.selected_point ≥ s.points_count - 1 then
        { s with
          selected_point := -1
          ubo := glBufferSubData s.ubo SELECTED_POINT_OFFSET 4 (int_at (-1)) }
      else s
    let points_count := s1.points_count - 1
    (0, { s1 with
          points_count := points_count
          ubo := glBufferSubData s1.ubo POINTS_COUNT_OFFSET 4 (int_at points_count) })

/-- Function `state_move_point`; `idx` is a `size_t`, and so is `4 * idx`. -/
def state_move_point (s : State) (idx : Int) (dx dy : ℚ) : Option State := do
  let adj_pos := state_map_point s dx dy 0
  let i0 := (4 * idx) % SIZE_MAX_SUCC
  let i1 := (4 * idx + 1) % SIZE_MAX_SUCC
  let v0 ← load s.points i0
  let points ← store s.points i0 (v0 + adj_pos 0)
  let v1 ← load points i1
  let points ← store points i1 (v1 + adj_pos 1)
  some { s with
         points := points
         ubo := glBufferSubData s.ubo POINTS_ARRAY_OFFSET
           (4 * sizeof_float * s.points_count) (floats points) }

/-- The scan loop of `state_recompute_selected_point`, entered at index `i` with
`n` indices left below `points_count`; the result is the value `selected_point`
holds when the loop is left (it is `-1` when the loop is entered). -/
def recompute_scan (points : Fin 80 → ℚ) (adj_pos : Fin 3 → ℚ) (radius_sq : ℚ) :
    Nat → Int → Option Int
  | 0, _ => some (-1)
  | n + 1, i => do
      let px ← load points (4 * i)
      let point_dx := px - adj_pos 0
      let py ← load points (4 * i + 1)
      let point_dy := py - adj_pos 1
      if point_dx * point_dx + point_dy * point_dy ≤ radius_sq then some i
      else recompute_scan points adj_pos radius_sq n (i + 1)

/-- Function `state_recompute_selected_point`; `window` is the window behind
`state->window`. -/
def state_recompute_selected_point (window : GLFWwindow) (s : State) (x y : ℚ) :
    Option State := do
  let width := window.framebuffer_width
  let height := window.framebuffer_height
  let adj_pos := state_map_point s (x - (width : ℚ) / 2) ((height : ℚ) / 2 - y) 1
  let radius_sq : ℚ :=
    ((POINT_RADIUS * POINT_RADIUS : Int) : ℚ) * |state_get_transform_matrix_det s|
  let selected_point ←
    recompute_scan s.points adj_pos radius_sq s.points_count.toNat 0
  some { s with
         selected_point := selected_point
         ubo := glBufferSubData s.ubo SELECTED_POINT_OFFSET 4 (int_at selected_point) }

/-- Function `on_window_resize` (the call `glViewport` has no effect on the
state). -/
def on_window_resize (s : State) (width height : Int) : State :=
  let dims : Fin 2 → ℚ := ![(width : ℚ), (height : ℚ)]
  { s with ubo := glBufferSubData s.ubo WINDOW_SIZE_OFFSET (2 * sizeof_float) (floats dims) }

/-- Function `on_keyboard_input`. -/
def on_keyboard_input (s : State) (key _scancode action _mods : Int) : Option State :=
  if action = GLFW_PRESS then
    if key = GLFW_KEY_EQUAL then (state_push_point s).map Prod.snd
    else if key = GLFW_KEY_MINUS then some (state_pop_point s).2
    else some s
  else some s

/-- Conversion `(size_t) v` of an `int`. -/
def to_size_t (v : Int) : Int := v % SIZE_MAX_SUCC

/-- Function `on_mouse_move`; `result` is the uninitialised local array of
`state_adjust_transform_matrix`, should that function be called. -/
def on_mouse_move (window : GLFWwindow) (s : State) (x y : ℚ) (result : Fin 12 → ℚ) :
    Option State := do
  let s1 ←
    if window.mouse_button_left = GLFW_PRESS then
      let dx := s.prev_mouse_pos 0 - x
      let dy := y - s.prev_mouse_pos 1
      if s.selected_point ≠ -1 then
        state_move_point s (to_size_t s.selected_point) (-dx) (-dy)
      else
        some (state_adjust_transform_matrix s
          1 0 dx
          0 1 dy
          0 0 1 result)
    else
      state_recompute_selected_point window s x y
  some { s1 with prev_mouse_pos := ![x, y] }

/-- Function `on_mouse_scroll`; `pow` is the C library function of that name. -/
def on_mouse_scroll (pow : ℚ → ℚ → ℚ) (s : State) (_x y : ℚ) (result : Fin 12 → ℚ) :
    State :=
  let k := pow ZOOM_COEFF y
  state_adjust_transform_matrix s
    k 0 0
    0 k 0
    0 0 1 result

/-- An event delivered by GLFW to one of the registered callbacks, with the
window contents at that moment. -/
inductive Event where
  | key (key scancode action mods : Int) : Event
  | mouse_move (window : GLFWwindow) (x y : ℚ) (result : Fin 12 → ℚ) : Event
  | mouse_scroll (x y : ℚ) (result : Fin 12 → ℚ) : Event
  | resize (width height : Int) : Event

/-- Dispatch of one event to its callback. -/
def Event.handle (pow : ℚ → ℚ → ℚ) (s : State) : Event → Option State
  | Event.key k sc a m => on_keyboard_input s k sc a m
  | Event.mouse_move w x y r => on_mouse_move w s x y r
  | Event.mouse_scroll x y r => some (on_mouse_scroll pow s x y r)
  | Event.resize w h => some (on_window_resize s w h)

/-- The callbacks run on a sequence of events, in order. -/
def run_events (pow : ℚ → ℚ → ℚ) : State → List Event → Option State
  | s, [] => some s
  | s, e :: es => (Event.handle pow s e).bind (fun s1 => run_events pow s1 es)

/-- A short session: two presses of the "add point" key, then a move of the
pointer, no button held, to the centre of a 640x480 framebuffer. -/
def two_points_session : List Event :=
  [Event.key GLFW_KEY_EQUAL 0 GLFW_PRESS 0,
   Event.key GLFW_KEY_EQUAL 0 GLFW_PRESS 0,
   Event.mouse_move
     { framebuffer_width := 640, framebuffer_height := 480, mouse_button_left := 0 }
     320 240 (fun _ => 0)]

/-- The state the session `two_points_session` ends in, from `state_init`. -/
def two_points_state : State :=
  (run_events (fun _ _ => 1) state_init two_points_session).getD state_init

/-- The data-model invariant of the point set. -/
def State.valid (s : State) : Prop :=
  0 ≤ s.points_count ∧ s.points_count ≤ MAX_POINTS ∧
  -1 ≤ s.selected_point ∧ s.selected_point < s.points_count

/-- Calls of `state_push_point` repeated `n` times: the return values in order
and the last state. -/
def push_many : Nat → State → Option (List Int × State)
  | 0, s => some ([], s)
  | n + 1, s => do
      let (r, s1) ← state_push_point s
      let (rs, s2) ← push_many n s1
      some (r :: rs, s2)

/-- The 3x3 matrix that the twelve floats of a transform stand for: column `c`
is stored at indices `4c, 4c+1, 4c+2` (the layout drawn in the comments of
`state_adjust_transform_matrix`). -/
def toMatrix (t : Fin 12 → ℚ) : Matrix (Fin 3) (Fin 3) ℚ :=
  !![t 0, t 4, t 8;
     t 1, t 5, t 9;
     t 2, t 6, t 10]

/-- Third row of the matrix of a transform. -/
def row3 (t : Fin 12 → ℚ) : ℚ × ℚ × ℚ := (t 2, t 6, t 10)

/-- Compose with a delta given as a matrix: its entries are passed row-major
as `a1 .. a9`. -/
def compose (s : State) (step : Matrix (Fin 3) (Fin 3) ℚ × (Fin 12 → ℚ)) : State :=
  state_adjust_transform_matrix s
    (step.1 0 0) (step.1 0 1) (step.1 0 2)
    (step.1 1 0) (step.1 1 1) (step.1 1 2)
    (step.1 2 0) (step.1 2 1) (step.1 2 2) step.2

/-- A pan or zoom step, with the matrix arguments that `on_mouse_move` and
`on_mouse_scroll` pass to `state_adjust_transform_matrix`. -/
inductive PanZoom where
  | pan (dx dy : ℚ) (result : Fin 12 → ℚ) : PanZoom
  | zoom (k : ℚ) (result : Fin 12 → ℚ) : PanZoom

/-- Apply one pan or zoom step. -/
def PanZoom.apply (s : State) : PanZoom → State
  | PanZoom.pan dx dy result =>
      state_adjust_transform_matrix s 1 0 dx 0 1 dy 0 0 1 result
  | PanZoom.zoom k result =>
      state_adjust_transform_matrix s k 0 0 0 k 0 0 0 1 result

/-- Zoom factor of a step (1 for a pan). -/
def PanZoom.factor : PanZoom → ℚ
  | PanZoom.pan _ _ _ => 1
  | PanZoom.zoom k _ => k

/-! ## Points, cursor and hit radius -/

/-- Point `i` of the point set: the two live floats of its 4-float record. -/
def State.point (s : State) (i : Fin 20) : ℚ × ℚ :=
  (s.points ⟨4 * i.val, by omega⟩, s.points ⟨4 * i.val + 1, by omega⟩)

/-- Squared Euclidean distance of two points of the plane. -/
def dist_sq (p q : ℚ × ℚ) : ℚ := (p.1 - q.1) ^ 2 + (p.2 - q.2) ^ 2

/-- First two coordinates of `MapPoint(x, y, z)`. -/
def State.map_xy (s : State) (x y z : ℚ) : ℚ × ℚ :=
  (state_map_point s x y z 0, state_map_point s x y z 1)

/-- Fractal-space position of the cursor `(px, py)`:
`MapPoint(px - w/2, h/2 - py, 1)` for the framebuffer size `(w, h)`. -/
def State.cursor (window : GLFWwindow) (s : State) (px py : ℚ) : ℚ × ℚ :=
  s.map_xy (px - (window.framebuffer_width : ℚ) / 2)
    ((window.framebuffer_height : ℚ) / 2 - py) 1

/-- The threshold `POINT_RADIUS² · |det(T)|`. -/
def State.hit_radius_sq (s : State) : ℚ :=
  (POINT_RADIUS : ℚ) ^ 2 * |state_get_transform_matrix_det s|

/-- Point `i` is within the hit radius of the position `c`. -/
def State.hits (s : State) (c : ℚ × ℚ) (i : Fin 20) : Prop :=
  dist_sq (s.point i) c ≤ s.hit_radius_sq

/-- The transform is the pan/zoom matrix `[[k,0,tx],[0,k,ty],[0,0,1]]`. -/
def is_pan_zoom (t : Fin 12 → ℚ) (k tx ty : ℚ) : Prop :=
  t 0 = k ∧ t 4 = 0 ∧ t 8 = tx ∧
  t 1 = 0 ∧ t 5 = k ∧ t 9 = ty ∧
  t 2 = 0 ∧ t 6 = 0 ∧ t 10 = 1

/-- A window with a 640x480 framebuffer and no button held. -/
def default_window : GLFWwindow :=
  { framebuffer_width := 640, framebuffer_height := 480, mouse_button_left := 0 }

/-- Index of the 4-byte word at a byte offset. -/
def word (offset : Int) : Nat := (offset / 4).toNat

/-- The uniform buffer mirrors the state: it has 384 bytes, and at the
documented offsets it holds the transform, the window size `window_size`, the
selection, the count and the floats of the points `0 .. count-1`. -/
def State.mirrored (s : State) (window_size : ℚ × ℚ) : Prop :=
  s.ubo.size = 384 ∧
  (∀ k : Fin 12,
    s.ubo.mem (word TRANSFORM_MATRIX_OFFSET + k) = Cell.f32 (s.transform_mat k)) ∧
  s.ubo.mem (word WINDOW_SIZE_OFFSET) = Cell.f32 window_size.1 ∧
  s.ubo.mem (word WINDOW_SIZE_OFFSET + 1) = Cell.f32 window_size.2 ∧
  s.ubo.mem (word SELECTED_POINT_OFFSET) = Cell.i32 s.selected_point ∧
  s.ubo.mem (word POINTS_COUNT_OFFSET) = Cell.i32 s.points_count ∧
  (∀ k : Fin 80, ((k : Nat) : Int) < 4 * s.points_count →
    s.ubo.mem (word POINTS_ARRAY_OFFSET + k) = Cell.f32 (s.points k))

/-- A call of one of the mutators of the state. -/
inductive Mutator where
  | compose (a1 a2 a3 a4 a5 a6 a7 a8 a9 : ℚ) (result : Fin 12 → ℚ) : Mutator
  | push : Mutator
  | pop : Mutator
  | move (idx : Int) (dx dy : ℚ) : Mutator
  | recompute (window : GLFWwindow) (x y : ℚ) : Mutator
  | resize (width height : Int) : Mutator

/-- The state after a mutator call (return values dropped). -/
def Mutator.apply (s : State) : Mutator → Option State
  | Mutator.compose a1 a2 a3 a4 a5 a6 a7 a8 a9 r =>
      some (state_adjust_transform_matrix s a1 a2 a3 a4 a5 a6 a7 a8 a9 r)
  | Mutator.push => (state_push_point s).map Prod.snd
  | Mutator.pop => some (state_pop_point s).2
  | Mutator.move idx dx dy => state_move_point s idx dx dy
  | Mutator.recompute w x y => state_recompute_selected_point w s x y
  | Mutator.resize w h => some (on_window_resize s w h)

/-- Mutator calls run one after another. -/
def run_mutators : State → List Mutator → Option State
  | s, [] => some s
  | s, m :: ms => (Mutator.apply s m).bind (fun s1 => run_mutators s1 ms)

/-- A move names a slot of the point array; any other call passes. -/
def Mutator.in_array : Mutator → Prop
  | Mutator.move idx _ _ => 0 ≤ idx ∧ idx < MAX_POINTS
  | _ => True

/-- The window size last published: that of the last resize, or the given one. -/
def window_size_after : ℚ × ℚ → List Mutator → ℚ × ℚ
  | d, [] => d
  | _, Mutator.resize w h :: ms => window_size_after ((w : ℚ), (h : ℚ)) ms
  | d, _ :: ms => window_size_after d ms

/-- The window size last published by the callbacks: that of the last resize
event, or the given one. -/
def window_size_after_events : ℚ × ℚ → List Event → ℚ × ℚ
  | d, [] => d
  | _, Event.resize w h :: es => window_size_after_events ((w : ℚ), (h : ℚ)) es
  | d, _ :: es => window_size_after_events d es

/-! ## The fragment shader -/

def MAX_ITERS : Nat := 100

/-- The constant `0.0001`. -/
def EPSILON_SQ : ℚ := 1 / 10000

/-- The uniform block `SharedState` as the shader declares it; `mat3` is a
matrix whose column `c` lies at the floats `4c .. 4c+2` of the block, and
element `i` of `points_arr` lies at the floats `16 + 4i, 16 + 4i + 1`. -/
structure SharedState where
  transform_mat : Matrix (Fin 3) (Fin 3) ℚ
  window_size : ℚ × ℚ
  selected_point : Int
  points_count : Int
  points_arr : Fin 20 → ℚ × ℚ

/-- The block value `u` is one the shader can read from the buffer `b`: every
word of `b` that holds a value of the declared type gives the field its value;
words with unspecified contents leave the field free. -/
def GLBuffer.reads (b : GLBuffer) (u : SharedState) : Prop :=
  (∀ (r c : Fin 3) (v : ℚ),
    b.mem (word TRANSFORM_MATRIX_OFFSET + 4 * c.val + r.val) = Cell.f32 v →
      u.transform_mat r c = v) ∧
  (∀ v : ℚ, b.mem (word WINDOW_SIZE_OFFSET) = Cell.f32 v → u.window_size.1 = v) ∧
  (∀ v : ℚ, b.mem (word WINDOW_SIZE_OFFSET + 1) = Cell.f32 v → u.window_size.2 = v) ∧
  (∀ v : Int, b.mem (word SELECTED_POINT_OFFSET) = Cell.i32 v → u.selected_point = v) ∧
  (∀ v : Int, b.mem (word POINTS_COUNT_OFFSET) = Cell.i32 v → u.points_count = v) ∧
  (∀ (i : Fin 20) (v : ℚ),
    b.mem (word POINTS_ARRAY_OFFSET + 4 * i.val) = Cell.f32 v → (u.points_arr i).1 = v) ∧
  (∀ (i : Fin 20) (v : ℚ),
    b.mem (word POINTS_ARRAY_OFFSET + 4 * i.val + 1) = Cell.f32 v → (u.points_arr i).2 = v)

/-- The float a word stands for, 0 where its contents are not a float. -/
def Cell.float : Cell → ℚ
  | Cell.f32 v => v
  | _ => 0

/-- The integer a word stands for, 0 where its contents are not an integer. -/
def Cell.int : Cell → Int
  | Cell.i32 v => v
  | _ => 0

/-- One block value the shader can read from the buffer `b`: the words decoded
at the offsets of the fields, with 0 for unspecified contents. -/
def GLBuffer.block (b : GLBuffer) : SharedState :=
  { transform_mat := fun r c => (b.mem (word TRANSFORM_MATRIX_OFFSET + 4 * c.val + r.val)).float
    window_size := ((b.mem (word WINDOW_SIZE_OFFSET)).float,
      (b.mem (word WINDOW_SIZE_OFFSET + 1)).float)
    selected_point := (b.mem (word SELECTED_POINT_OFFSET)).int
    points_count := (b.mem (word POINTS_COUNT_OFFSET)).int
    points_arr := fun i => ((b.mem (word POINTS_ARRAY_OFFSET + 4 * i.val)).float,
      (b.mem (word POINTS_ARRAY_OFFSET + 4 * i.val + 1)).float) }

/-- Places where the evaluation of the shader leaves defined behaviour. -/
inductive Fault where
  | index_out_of_range : Fault
  | div_zero_length_sq : Fault
  | div_zero_reciprocal_sum : Fault
deriving DecidableEq, Repr

/-- GLSL `dot` on `vec2`. -/
def dot (a b : ℚ × ℚ) : ℚ := a.1 * b.1 + a.2 * b.2

/-- Division of a `vec2` by a float; the result of a division by zero is
undefined in GLSL, and the evaluation stops there with the given fault. -/
def vec2_div (site : Fault) (v : ℚ × ℚ) (d : ℚ) : Except Fault (ℚ × ℚ) :=
  if d = 0 then Except.error site else Except.ok (v.1 / d, v.2 / d)

/-- Read `points_arr[i]`. -/
def points_arr_at (u : SharedState) (i : Int) : Except Fault (ℚ × ℚ) :=
  if h : 0 ≤ i ∧ i < 20 then Except.ok (u.points_arr ⟨i.toNat, by omega⟩)
  else Except.error Fault.index_out_of_range

/-- The value of `radius_sq`. -/
def frag_radius_sq (u : SharedState) : ℚ :=
  ((POINT_RADIUS * POINT_RADIUS : Int) : ℚ) * |Matrix.det u.transform_mat|

/-- The initial value of `frag_coord` for the pixel at `gl_FragCoord.xy`. -/
def frag_coord_of (u : SharedState) (gl_FragCoord : ℚ × ℚ) : ℚ × ℚ :=
  let v := Matrix.mulVec u.transform_mat
    ![gl_FragCoord.1 - u.window_size.1 / 2, gl_FragCoord.2 - u.window_size.2 / 2, 1]
  (v 0, v 1)

/-- The anchor overlay loop, entered at index `i` with `n` indices left below
`points_count`: the index at which the loop body returns, or `none` when the
loop runs to its end. -/
def overlay_loop (u : SharedState) (frag_coord : ℚ × ℚ) (radius_sq : ℚ) :
    Nat → Int → Except Fault (Option Int)
  | 0, _ => Except.ok none
  | n + 1, i => do
      let p ← points_arr_at u i
      let frag_dist := frag_coord - p
      if dot frag_dist frag_dist ≤ radius_sq then Except.ok (some i)
      else overlay_loop u frag_coord radius_sq n (i + 1)

/-- The colour the overlay loop emits when it returns at index `i`. -/
def marker_color (u : SharedState) (i : Int) : ℚ × ℚ × ℚ × ℚ :=
  if i = u.selected_point then (4 / 5, 4 / 5, 4 / 5, 1) else (1, 1, 1, 1)

/-- The colour the convergence loop emits when it returns at index `j`. -/
def root_color (u : SharedState) (j : Int) : ℚ × ℚ × ℚ × ℚ :=
  (0, 0, ((j : ℚ) + 1) / (u.points_count : ℚ), 1)

/-- The inner loop of the convergence iteration, entered at index `j` with `n`
indices left and the partial sum `reciprocal_sum`: the index at which the loop
body returns (left), or the finished sum (right). -/
def reciprocal_loop (u : SharedState) (frag_coord : ℚ × ℚ) :
    Nat → Int → ℚ × ℚ → Except Fault (Int ⊕ ℚ × ℚ)
  | 0, _, reciprocal_sum => Except.ok (Sum.inr reciprocal_sum)
  | n + 1, j, reciprocal_sum => do
      let p ← points_arr_at u j
      let frag_diff := frag_coord - p
      let length_sq := dot frag_diff frag_diff
      if length_sq ≤ EPSILON_SQ then Except.ok (Sum.inl j)
      else do
        let q ← vec2_div Fault.div_zero_length_sq frag_diff length_sq
        reciprocal_loop u frag_coord n (j + 1) (reciprocal_sum + q)

/-- The convergence iteration with `n` of its `MAX_ITERS` rounds left. -/
def newton_loop (u : SharedState) : Nat → ℚ × ℚ → Except Fault (ℚ × ℚ × ℚ × ℚ)
  | 0, _ => Except.ok (0, 0, 0, 1)
  | n + 1, frag_coord => do
      let r ← reciprocal_loop u frag_coord u.points_count.toNat 0 (0, 0)
      match r with
      | Sum.inl j => Except.ok (root_color u j)
      | Sum.inr reciprocal_sum => do
          let d ← vec2_div Fault.div_zero_reciprocal_sum reciprocal_sum
            (dot reciprocal_sum reciprocal_sum)
          newton_loop u n (frag_coord - d)

/-- Function `main` of the fragment shader: the value of `gl_FragColor`. -/
def frag_main (u : SharedState) (gl_FragCoord : ℚ × ℚ) : Except Fault (ℚ × ℚ × ℚ × ℚ) := do
  let radius_sq := frag_radius_sq u
  let frag_coord := frag_coord_of u gl_FragCoord
  let r ← overlay_loop u frag_coord radius_sq u.points_count.toNat 0
  match r with
  | some i => Except.ok (marker_color u i)
  | none => newton_loop u MAX_ITERS frag_coord

/-- The block with the identity transform, a 640x480 window and two anchors at
the origin, the first one selected. -/
def two_points_block : SharedState :=
  { transform_mat := 1
    window_size := (640, 480)
    selected_point := 0
    points_count := 2
    points_arr := fun _ => (0, 0) }

/-- The block with the identity transform, a 640x480 window and the two
anchors `(-50, 0)` and `(50, 0)`. -/
def anchors_block (selected_point : Int) : SharedState :=
  { transform_mat := 1
    window_size := (640, 480)
    selected_point := selected_point
    points_count := 2
    points_arr := fun i => if i = 0 then (-50, 0) else if i = 1 then (50, 0) else (0, 0) }

/-! ## Binary32 arithmetic

The functions above take the arithmetic of the C code exactly.  The
definitions of this section follow the same source lines with every `float`
operation rounded to binary32 (round to nearest, ties to even, with subnormal
numbers), each operation on its own, and every `double` operation rounded to
binary64.  A result outside the finite range is not followed further: the
functions then return `none`. -/

/-- Nearest integer, ties to the even one. -/
def round_half_even (x : ℚ) : Int :=
  let f := ⌊x⌋
  let r := x - f
  if r < 1 / 2 then f
  else if 1 / 2 < r then f + 1
  else if f % 2 = 0 then f else f + 1

/-- Exponent of the binade of `q`, not below the least normal exponent. -/
def fp_exponent (emin : Int) (q : ℚ) : Int := max (Int.log 2 |q|) emin

/-- Rounding to the binary format with `prec` significant bits and normal
exponents `emin .. emax`; `none` when the rounded value leaves the finite
range. -/
def fp_round (prec : Nat) (emin emax : Int) (q : ℚ) : Option ℚ :=
  let quantum : ℚ := 2 ^ (fp_exponent emin q - ((prec : Int) - 1))
  let r : ℚ := (round_half_even (q / quantum) : ℚ) * quantum
  if |r| < 2 ^ (emax + 1) then some r else none

/-- Rounding to binary32. -/
def f32_round (q : ℚ) : Option ℚ := fp_round 24 (-126) 127 q

/-- Rounding to binary64. -/
def f64_round (q : ℚ) : Option ℚ := fp_round 53 (-1022) 1023 q

/-- Product of two floats. -/
def f32_mul (a b : ℚ) : Option ℚ := f32_round (a * b)

/-- Sum of two floats. -/
def f32_add (a b : ℚ) : Option ℚ := f32_round (a + b)

/-- Difference of two floats. -/
def f32_sub (a b : ℚ) : Option ℚ := f32_round (a - b)

/-- The float expression `x1 * y1 + x2 * y2 + x3 * y3`. -/
def f32_dot3 (x1 y1 x2 y2 x3 y3 : ℚ) : Option ℚ := do
  let p1 ← f32_mul x1 y1
  let p2 ← f32_mul x2 y2
  let s1 ← f32_add p1 p2
  let p3 ← f32_mul x3 y3
  f32_add s1 p3

/-- The float expression `x * y * z`. -/
def f32_mul3 (x y z : ℚ) : Option ℚ := do
  let p ← f32_mul x y
  f32_mul p z

/-- Function `state_adjust_transform_matrix` in binary32. -/
def state_adjust_transform_matrix_f32 (s : State)
    (a1 a2 a3 a4 a5 a6 a7 a8 a9 : ℚ) (result : Fin 12 → ℚ) : Option State := do
  let t := s.transform_mat
  let r0 ← f32_dot3 (t 0) a1 (t 4) a4 (t 8) a7
  let r1 ← f32_dot3 (t 1) a1 (t 5) a4 (t 9) a7
  let r2 ← f32_dot3 (t 2) a1 (t 6) a4 (t 10) a7
  let r4 ← f32_dot3 (t 0) a2 (t 4) a5 (t 8) a8
  let r5 ← f32_dot3 (t 1) a2 (t 5) a5 (t 9) a8
  let r6 ← f32_dot3 (t 2) a2 (t 6) a5 (t 10) a8
  let r8 ← f32_dot3 (t 0) a3 (t 4) a6 (t 8) a9
  let r9 ← f32_dot3 (t 1) a3 (t 5) a6 (t 9) a9
  let r10 ← f32_dot3 (t 2) a3 (t 6) a6 (t 10) a9
  let result := Function.update result 0 r0
  let result := Function.update result 1 r1
  let result := Function.update result 2 r2
  let result := Function.update result 4 r4
  let result := Function.update result 5 r5
  let result := Function.update result 6 r6
  let result := Function.update result 8 r8
  let result := Function.update result 9 r9
  let result := Function.update result 10 r10
  some { s with
         transform_mat := result
         ubo := glBufferSubData s.ubo TRANSFORM_MATRIX_OFFSET (12 * sizeof_float)
           (floats result) }

/-- Function `state_get_transform_matrix_det` in binary32. -/
def state_get_transform_matrix_det_f32 (s : State) : Option ℚ := do
  let t := s.transform_mat
  let m1 ← f32_mul3 (t 0) (t 5) (t 10)
  let m2 ← f32_mul3 (t 4) (t 9) (t 2)
  let m3 ← f32_mul3 (t 8) (t 1) (t 6)
  let m4 ← f32_mul3 (t 8) (t 5) (t 2)
  let m5 ← f32_mul3 (t 4) (t 1) (t 10)
  let m6 ← f32_mul3 (t 0) (t 9) (t 6)
  let a1 ← f32_add m1 m2
  let a2 ← f32_add a1 m3
  let a3 ← f32_sub a2 m4
  let a4 ← f32_sub a3 m5
  f32_sub a4 m6

/-- Function `state_map_point` in binary32. -/
def state_map_point_f32 (s : State) (x y z : ℚ) : Option (Fin 3 → ℚ) := do
  let t := s.transform_mat
  let o0 ← f32_dot3 (t 0) x (t 4) y (t 8) z
  let o1 ← f32_dot3 (t 1) x (t 5) y (t 9) z
  let o2 ← f32_dot3 (t 2) x (t 6) y (t 10) z
  some ![o0, o1, o2]

/-- The scan loop of `state_recompute_selected_point` in binary32. -/
def recompute_scan_f32 (points : Fin 80 → ℚ) (adj_pos : Fin 3 → ℚ) (radius_sq : ℚ) :
    Nat → Int → Option Int
  | 0, _ => some (-1)
  | n + 1, i => do
      let px ← load points (4 * i)
      let point_dx ← f32_sub px (adj_pos 0)
      let py ← load points (4 * i + 1)
      let point_dy ← f32_sub py (adj_pos 1)
      let xx ← f32_mul point_dx point_dx
      let yy ← f32_mul point_dy point_dy
      let d ← f32_add xx yy
      if d ≤ radius_sq then some i
      else recompute_scan_f32 points adj_pos radius_sq n (i + 1)

/-- Function `state_recompute_selected_point` in binary32.  The arguments
`x - width / 2.0` and `height / 2.0 - y` and the product with `fabs` are
`double` expressions narrowed to `float`. -/
def state_recompute_selected_point_f32 (window : GLFWwindow) (s : State) (x y : ℚ) :
    Option State := do
  let width := window.framebuffer_width
  let height := window.framebuffer_height
  let ax ← (f64_round (x - (width : ℚ) / 2)).bind f32_round
  let ay ← (f64_round ((height : ℚ) / 2 - y)).bind f32_round
  let adj_pos ← state_map_point_f32 s ax ay 1
  let det ← state_get_transform_matrix_det_f32 s
  let radius_sq ←
    (f64_round (((POINT_RADIUS * POINT_RADIUS : Int) : ℚ) * |det|)).bind f32_round
  let selected_point ←
    recompute_scan_f32 s.points adj_pos radius_sq s.points_count.toNat 0
  some { s with
         selected_point := selected_point
         ubo := glBufferSubData s.ubo SELECTED_POINT_OFFSET 4 (int_at selected_point) }

/-- Apply one pan or zoom step in binary32. -/
def PanZoom.apply_f32 (s : State) : PanZoom → Option State
  | PanZoom.pan dx dy result =>
      state_adjust_transform_matrix_f32 s 1 0 dx 0 1 dy 0 0 1 result
  | PanZoom.zoom k result =>
      state_adjust_transform_matrix_f32 s k 0 0 0 k 0 0 0 1 result

/-- Pan and zoom steps in binary32, one after another. -/
def run_pan_zoom_f32 : State → List PanZoom → Option State
  | s, [] => some s
  | s, st :: sts => (PanZoom.apply_f32 s st).bind (fun s1 => run_pan_zoom_f32 s1 sts)

/-- A state with one point, under the zoom `diag(2^-76, 2^-76, 1)`, the point
lying at `MapPoint(16, 0, 1) = (2^-72, 0)`. -/
def zoomed_out_state : State :=
  { state_init with
    points_count := 1
    points := fun j => if j = 0 then 2 ^ (-72 : Int) else 0
    transform_mat := fun j =>
      if j = 0 ∨ j = 5 then 2 ^ (-76 : Int) else if j = 10 then 1 else 0 }

/-- A state with one point, under the pan/zoom transform
`[[2,0,3],[0,2,5],[0,0,1]]`, the point lying at `MapPoint(10, 0, 1) = (23, 5)`. -/
def pan_zoom_state : State :=
  { state_init with
    points_count := 1
    points := fun j => if j = 0 then 23 else if j = 1 then 5 else 0
    transform_mat := fun j =>
      if j = 0 ∨ j = 5 then 2 else if j = 8 then 3 else if j = 9 then 5
      else if j = 10 then 1 else 0 }

/-! ## Entries of the identity transform -/

@[simp]
lemma identity_mat_0 : IDENTITY_MATRIX 0 = 1 := rfl
@[simp]
lemma identity_mat_1 : IDENTITY_MATRIX 1 = 0 := rfl
@[simp]
lemma identity_mat_2 : IDENTITY_MATRIX 2 = 0 := rfl
@[simp]
lemma identity_mat_3 : IDENTITY_MATRIX 3 = 0 := rfl
@[simp]
lemma identity_mat_4 : IDENTITY_MATRIX 4 = 0 := rfl
@[simp]
lemma identity_mat_5 : IDENTITY_MATRIX 5 = 1 := rfl
@[simp]
lemma identity_mat_6 : IDENTITY_MATRIX 6 = 0 := rfl
@[simp]
lemma identity_mat_7 : IDENTITY_MATRIX 7 = 0 := rfl
@[simp]
lemma identity_mat_8 : IDENTITY_MATRIX 8 = 0 := rfl
@[simp]
lemma identity_mat_9 : IDENTITY_MATRIX 9 = 0 := rfl
@[simp]
lemma identity_mat_10 : IDENTITY_MATRIX 10 = 1 := rfl
@[simp]
lemma identity_mat_11 : IDENTITY_MATRIX 11 = 0 := rfl

@[simp]
lemma state_init_transform_mat : state_init.transform_mat = IDENTITY_MATRIX := rfl

/-! ## Entries of the transform after `state_adjust_transform_matrix` -/

section adjust_entries

variable (s : State) (a1 a2 a3 a4 a5 a6 a7 a8 a9 : ℚ) (result : Fin 12 → ℚ)

@[simp]
lemma adjust_mat_0 :
    (state_adjust_transform_matrix s a1 a2 a3 a4 a5 a6 a7 a8 a9 result).transform_mat 0 =
      s.transform_mat 0 * a1 + s.transform_mat 4 * a4 + s.transform_mat 8 * a7 := by
  simp [state_adjust_transform_matrix, Function.update]

@[simp]
lemma adjust_mat_1 :
    (state_adjust_transform_matrix s a1 a2 a3 a4 a5 a6 a7 a8 a9 result).transform_mat 1 =
      s.transform_mat 1 * a1 + s.transform_mat 5 * a4 + s.transform_mat 9 * a7 := by
  simp [state_adjust_transform_matrix, Function.update]

@[simp]
lemma adjust_mat_2 :
    (state_adjust_transform_matrix s a1 a2 a3 a4 a5 a6 a7 a8 a9 result).transform_mat 2 =
      s.transform_mat 2 * a1 + s.transform_mat 6 * a4 + s.transform_mat 10 * a7 := by
  simp [state_adjust_transform_matrix, Function.update]

@[simp]
lemma adjust_mat_4 :
    (state_adjust_transform_matrix s a1 a2 a3 a4 a5 a6 a7 a8 a9 result).transform_mat 4 =
      s.transform_mat 0 * a2 + s.transform_mat 4 * a5 + s.transform_mat 8 * a8 := by
  simp [state_adjust_transform_matrix, Function.update]

@[simp]
lemma adjust_mat_5 :
    (state_adjust_transform_matrix s a1 a2 a3 a4 a5 a6 a7 a8 a9 result).transform_mat 5 =
      s.transform_mat 1 * a2 + s.transform_mat 5 * a5 + s.transform_mat 9 * a8 := by
  simp [state_adjust_transform_matrix, Function.update]

@[simp]
lemma adjust_mat_6 :
    (state_adjust_transform_matrix s a1 a2 a3 a4 a5 a6 a7 a8 a9 result).transform_mat 6 =
      s.transform_mat 2 * a2 + s.transform_mat 6 * a5 + s.transform_mat 10 * a8 := by
  simp [state_adjust_transform_matrix, Function.update]

@[simp]
lemma adjust_mat_8 :
    (state_adjust_transform_matrix s a1 a2 a3 a4 a5 a6 a7 a8 a9 result).transform_mat 8 =
      s.transform_mat 0 * a3 + s.transform_mat 4 * a6 + s.transform_mat 8 * a9 := by
  simp [state_adjust_transform_matrix, Function.update]

@[simp]
lemma adjust_mat_9 :
    (state_adjust_transform_matrix s a1 a2 a3 a4 a5 a6 a7 a8 a9 result).transform_mat 9 =
      s.transform_mat 1 * a3 + s.transform_mat 5 * a6 + s.transform_mat 9 * a9 := by
  simp [state_adjust_transform_matrix, Function.update]

@[simp]
lemma adjust_mat_10 :
    (state_adjust_transform_matrix s a1 a2 a3 a4 a5 a6 a7 a8 a9 result).transform_mat 10 =
      s.transform_mat 2 * a3 + s.transform_mat 6 * a6 + s.transform_mat 10 * a9 := by
  simp [state_adjust_transform_matrix, Function.update]

@[simp]
lemma adjust_points_count :
    (state_adjust_transform_matrix s a1 a2 a3 a4 a5 a6 a7 a8 a9 result).points_count =
      s.points_count := rfl

@[simp]
lemma adjust_selected_point :
    (state_adjust_transform_matrix s a1 a2 a3 a4 a5 a6 a7 a8 a9 result).selected_point =
      s.selected_point := rfl

@[simp]
lemma adjust_points :
    (state_adjust_transform_matrix s a1 a2 a3 a4 a5 a6 a7 a8 a9 result).points =
      s.points := rfl

end adjust_entries

/-- The transform after a call, as a matrix product. -/
lemma toMatrix_adjust (s : State) (a1 a2 a3 a4 a5 a6 a7 a8 a9 : ℚ) (result : Fin 12 → ℚ) :
    toMatrix (state_adjust_transform_matrix s a1 a2 a3 a4 a5 a6 a7 a8 a9 result).transform_mat =
      toMatrix s.transform_mat * !![a1, a2, a3; a4, a5, a6; a7, a8, a9] := by
  ext i j
  fin_cases i <;> fin_cases j <;>
    simp [toMatrix, Matrix.mul_apply, Fin.sum_univ_three]

/-- Claim C1: for every current transform `T` (the state `s`) and every matrix
`A = (a1..a9)` given row-major, `state_adjust_transform_matrix` replaces `T` by
the matrix product `T * A`: the nine matrix entries of the new transform are
those of the product. -/
theorem C1_adjust_transform_matrix_product (s : State)
    (a1 a2 a3 a4 a5 a6 a7 a8 a9 : ℚ) (result : Fin 12 → ℚ) :
    ∀ i j : Fin 3,
      toMatrix (state_adjust_transform_matrix s a1 a2 a3 a4 a5 a6 a7 a8 a9 result).transform_mat
          i j =
        (toMatrix s.transform_mat * !![a1, a2, a3; a4, a5, a6; a7, a8, a9]) i j := by
  intro i j
  rw [toMatrix_adjust]

/-- Third row of the transform after a call, when it was `(0,0,1)` before. -/
lemma row3_adjust (s : State) (a1 a2 a3 a4 a5 a6 a7 a8 a9 : ℚ) (result : Fin 12 → ℚ)
    (hT : row3 s.transform_mat = (0, 0, 1)) :
    row3 (state_adjust_transform_matrix s a1 a2 a3 a4 a5 a6 a7 a8 a9 result).transform_mat =
      (a7, a8, a9) := by
  simp only [row3, Prod.mk.injEq] at hT
  obtain ⟨h2, h6, h10⟩ := hT
  simp [row3, h2, h6, h10]

/-- Claim C2, as stated, fails: from the identity transform, whose third row is
`(0,0,1)`, the call with `A = diag(1,1,2)` leaves the third row `(0,0,2)`. -/
theorem C2_row3_altered :
    row3 state_init.transform_mat = (0, 0, 1) ∧
    row3 (state_adjust_transform_matrix state_init 1 0 0 0 1 0 0 0 2
      (fun _ => 0)).transform_mat = (0, 0, 2) ∧
    ((0, 0, 2) : ℚ × ℚ × ℚ) ≠ (0, 0, 1) := by
  have h : row3 state_init.transform_mat = (0, 0, 1) := by
    simp [row3]
  refine ⟨h, ?_, by decide⟩
  rw [row3_adjust _ _ _ _ _ _ _ _ _ _ _ h]

/-- Claim C2, amended: all nine entries are recomputed; for a transform whose
third row is `(0,0,1)` the third row after the call is the third row
`(a7,a8,a9)` of the supplied matrix, hence still `(0,0,1)` whenever the supplied
matrix has third row `(0,0,1)`, as every pan and zoom step has. -/
theorem C2_row3_preserved_affine (s : State)
    (a1 a2 a3 a4 a5 a6 a7 a8 a9 : ℚ) (result : Fin 12 → ℚ)
    (hT : row3 s.transform_mat = (0, 0, 1)) :
    row3 (state_adjust_transform_matrix s a1 a2 a3 a4 a5 a6 a7 a8 a9 result).transform_mat =
      (a7, a8, a9) ∧
    ((a7, a8, a9) = ((0, 0, 1) : ℚ × ℚ × ℚ) →
      row3 (state_adjust_transform_matrix s a1 a2 a3 a4 a5 a6 a7 a8 a9 result).transform_mat =
        (0, 0, 1)) := by
  have h := row3_adjust s a1 a2 a3 a4 a5 a6 a7 a8 a9 result hT
  exact ⟨h, fun hA => h.trans hA⟩

/-- Witness of C2 (amended): a pan step applied to the identity transform. -/
theorem C2_row3_preserved_affine_witness :
    row3 state_init.transform_mat = (0, 0, 1) ∧
    row3 (state_adjust_transform_matrix state_init 1 0 3 0 1 (-7) 0 0 1
      (fun _ => 5)).transform_mat = (0, 0, 1) :=
  have h : row3 state_init.transform_mat = (0, 0, 1) := by
    simp [row3]
  ⟨h, (C2_row3_preserved_affine state_init 1 0 3 0 1 (-7) 0 0 1 (fun _ => 5) h).2 rfl⟩

/-- Folding `compose` multiplies the deltas onto the transform from the right. -/
lemma toMatrix_foldl_compose (steps : List (Matrix (Fin 3) (Fin 3) ℚ × (Fin 12 → ℚ)))
    (s : State) :
    toMatrix (steps.foldl compose s).transform_mat =
      (steps.map Prod.fst).foldl (· * ·) (toMatrix s.transform_mat) := by
  induction steps generalizing s with
  | nil => rfl
  | cons a as ih =>
    have hstep : toMatrix (compose s a).transform_mat = toMatrix s.transform_mat * a.1 := by
      unfold compose
      rw [toMatrix_adjust]
      congr 1
      ext i j
      fin_cases i <;> fin_cases j <;> rfl
    simp only [List.foldl_cons, List.map_cons]
    rw [ih, hstep]

lemma toMatrix_identity : toMatrix IDENTITY_MATRIX = 1 := by
  ext i j
  fin_cases i <;> fin_cases j <;> rfl

/-- Claim C3: deltas `A1 .. An` applied one after another with Compose, starting
from a state whose transform is the identity, give the transform
`I * A1 * A2 * ... * An`, the product taken in the order of application. -/
theorem C3_compose_sequence_product (s : State)
    (steps : List (Matrix (Fin 3) (Fin 3) ℚ × (Fin 12 → ℚ)))
    (hI : s.transform_mat = IDENTITY_MATRIX) :
    toMatrix (steps.foldl compose s).transform_mat =
      (steps.map Prod.fst).foldl (· * ·) 1 ∧
    toMatrix (steps.foldl compose s).transform_mat = (steps.map Prod.fst).prod := by
  have h := toMatrix_foldl_compose steps s
  rw [hI, toMatrix_identity] at h
  exact ⟨h, by rw [h, List.prod_eq_foldl]⟩

/-- Witness of C3: a zoom by 2 followed by a pan by (3,5) from the initial state. -/
theorem C3_compose_sequence_product_witness :
    state_init.transform_mat = IDENTITY_MATRIX ∧
    toMatrix (([(!![2, 0, 0; 0, 2, 0; 0, 0, 1], fun _ => 0),
        (!![1, 0, 3; 0, 1, 5; 0, 0, 1], fun _ => 0)] :
        List (Matrix (Fin 3) (Fin 3) ℚ × (Fin 12 → ℚ))).foldl compose
          state_init).transform_mat =
      (1 : Matrix (Fin 3) (Fin 3) ℚ) * !![2, 0, 0; 0, 2, 0; 0, 0, 1] *
        !![1, 0, 3; 0, 1, 5; 0, 0, 1] :=
  ⟨rfl, (C3_compose_sequence_product state_init _ rfl).1⟩

/-- Determinant after a zoom step. -/
lemma det_zoom (s : State) (k : ℚ) (result : Fin 12 → ℚ) :
    state_get_transform_matrix_det
        (state_adjust_transform_matrix s k 0 0 0 k 0 0 0 1 result) =
      k ^ 2 * state_get_transform_matrix_det s := by
  simp only [state_get_transform_matrix_det, adjust_mat_0, adjust_mat_1, adjust_mat_2,
    adjust_mat_4, adjust_mat_5, adjust_mat_6, adjust_mat_8, adjust_mat_9, adjust_mat_10]
  ring

/-- Determinant after a pan step. -/
lemma det_pan (s : State) (dx dy : ℚ) (result : Fin 12 → ℚ) :
    state_get_transform_matrix_det
        (state_adjust_transform_matrix s 1 0 dx 0 1 dy 0 0 1 result) =
      state_get_transform_matrix_det s := by
  simp only [state_get_transform_matrix_det, adjust_mat_0, adjust_mat_1, adjust_mat_2,
    adjust_mat_4, adjust_mat_5, adjust_mat_6, adjust_mat_8, adjust_mat_9, adjust_mat_10]
  ring

/-- Claim C4, amended: with the arithmetic taken exactly (no rounding, underflow
or overflow), for every transform, after composing the zoom step `diag(k,k,1)`
the determinant returned by `state_get_transform_matrix_det` has absolute value
`k^2` times the previous absolute value, and after composing a pure translation
step it is unchanged. -/
theorem C4_det_zoom_and_pan (s : State) (k dx dy : ℚ) (result : Fin 12 → ℚ) :
    |state_get_transform_matrix_det
        (state_adjust_transform_matrix s k 0 0 0 k 0 0 0 1 result)| =
      k ^ 2 * |state_get_transform_matrix_det s| ∧
    state_get_transform_matrix_det
        (state_adjust_transform_matrix s 1 0 dx 0 1 dy 0 0 1 result) =
      state_get_transform_matrix_det s := by
  refine ⟨?_, det_pan s dx dy result⟩
  rw [det_zoom, abs_mul, abs_of_nonneg (sq_nonneg k)]

/-- Determinant after a sequence of pan and zoom steps. -/
lemma det_foldl_panzoom (steps : List PanZoom) (s : State) :
    state_get_transform_matrix_det (steps.foldl PanZoom.apply s) =
      state_get_transform_matrix_det s * (steps.map (fun st => st.factor ^ 2)).prod := by
  induction steps generalizing s with
  | nil => simp
  | cons a as ih =>
    simp only [List.foldl_cons, List.map_cons, List.prod_cons]
    rw [ih]
    cases a with
    | pan dx dy r => simp only [PanZoom.apply, PanZoom.factor, det_pan]; ring
    | zoom k r => simp only [PanZoom.apply, PanZoom.factor, det_zoom]; ring

lemma det_identity (s : State) (hI : s.transform_mat = IDENTITY_MATRIX) :
    state_get_transform_matrix_det s = 1 := by
  simp [state_get_transform_matrix_det, hI]

/-- Claim C5, amended: with the arithmetic taken exactly (no rounding, underflow
or overflow), after any finite sequence of pan steps (any `dx`, `dy`) and zoom
steps (any factor `k ≠ 0`) applied to the identity transform,
`state_get_transform_matrix_det` returns the product of the squared zoom
factors, which is not zero. -/
theorem C5_det_nonzero_under_pan_zoom (s : State) (steps : List PanZoom)
    (hI : s.transform_mat = IDENTITY_MATRIX)
    (hk : ∀ st ∈ steps, st.factor ≠ 0) :
    state_get_transform_matrix_det (steps.foldl PanZoom.apply s) =
      (steps.map (fun st => st.factor ^ 2)).prod ∧
    state_get_transform_matrix_det (steps.foldl PanZoom.apply s) ≠ 0 := by
  have h := det_foldl_panzoom steps s
  rw [det_identity s hI, one_mul] at h
  refine ⟨h, ?_⟩
  rw [h]
  apply List.prod_ne_zero
  intro h0
  rw [List.mem_map] at h0
  obtain ⟨st, hst, h2⟩ := h0
  exact hk st hst (pow_eq_zero_iff (two_ne_zero) |>.mp h2)

/-- Witness of C5: zoom by 11/10, pan by (4,-2), zoom by 10/11 from the initial
state. -/
theorem C5_det_nonzero_under_pan_zoom_witness :
    state_init.transform_mat = IDENTITY_MATRIX ∧
    state_get_transform_matrix_det
      ([PanZoom.zoom (11 / 10) (fun _ => 0), PanZoom.pan 4 (-2) (fun _ => 0),
        PanZoom.zoom (10 / 11) (fun _ => 0)].foldl PanZoom.apply state_init) ≠ 0 :=
  ⟨rfl, (C5_det_nonzero_under_pan_zoom state_init _ rfl (by
    intro st hst
    simp only [List.mem_cons, List.mem_singleton, List.not_mem_nil, or_false] at hst
    rcases hst with h | h | h <;> subst h <;> simp [PanZoom.factor])).2⟩

/-! ## Checked array accesses -/

lemma load_eq_some {n : Nat} (a : Fin n → ℚ) (i : Int) (h0 : 0 ≤ i) (h1 : i < n) :
    load a i = some (a ⟨i.toNat, by omega⟩) := by
  unfold load
  rw [dif_pos ⟨h0, h1⟩]

lemma store_eq_some {n : Nat} (a : Fin n → ℚ) (i : Int) (v : ℚ) (h0 : 0 ≤ i) (h1 : i < n) :
    store a i v = some (Function.update a ⟨i.toNat, by omega⟩ v) := by
  unfold store
  rw [dif_pos ⟨h0, h1⟩]

/-- A write inside the array succeeds, is read back, and leaves the other
entries alone. -/
lemma store_spec {n : Nat} (a : Fin n → ℚ) (i : Int) (v : ℚ) (h0 : 0 ≤ i) (h1 : i < n) :
    ∃ b, store a i v = some b ∧ load b i = some v ∧
      ∀ j : Fin n, ((j : Nat) : Int) ≠ i → b j = a j := by
  refine ⟨_, store_eq_some a i v h0 h1, ?_, ?_⟩
  · rw [load_eq_some _ i h0 h1]
    simp
  · intro j hj
    apply Function.update_noteq
    intro hji
    apply hj
    rw [hji]
    simp [Int.toNat_of_nonneg h0]

/-! ## `state_push_point` -/

lemma state_push_point_full (s : State) (h : MAX_POINTS ≤ s.points_count) :
    state_push_point s = some (1, s) := by
  unfold state_push_point
  rw [if_pos h]

/-- Below capacity, and with a count that is not negative, the push returns 0
and changes the state as described. -/
lemma state_push_point_ok (s : State) (h0 : 0 ≤ s.points_count)
    (h1 : s.points_count < MAX_POINTS) :
    ∃ s1, state_push_point s = some (0, s1) ∧
      s1.points_count = s.points_count + 1 ∧
      load s1.points (4 * s.points_count) = some 0 ∧
      load s1.points (4 * s.points_count + 1) = some 0 ∧
      (∀ j : Fin 80, ((j : Nat) : Int) ≠ 4 * s.points_count →
        ((j : Nat) : Int) ≠ 4 * s.points_count + 1 → s1.points j = s.points j) ∧
      s1.selected_point = s.selected_point ∧
      s1.transform_mat = s.transform_mat ∧
      s1.prev_mouse_pos = s.prev_mouse_pos := by
  have hM : s.points_count < 20 := h1
  obtain ⟨b1, e1, r1, k1⟩ :=
    store_spec s.points (4 * s.points_count) 0 (by omega) (by push_cast; omega)
  obtain ⟨b2, e2, r2, k2⟩ :=
    store_spec b1 (4 * s.points_count + 1) 0 (by omega) (by push_cast; omega)
  refine ⟨{ s with
      points := b2
      points_count := s.points_count + 1
      ubo := glBufferSubData
        (glBufferSubData s.ubo POINTS_ARRAY_OFFSET
          (4 * sizeof_float * (s.points_count + 1)) (floats b2))
        POINTS_COUNT_OFFSET 4 (int_at (s.points_count + 1)) },
    ?_, rfl, ?_, r2, ?_, rfl, rfl, rfl⟩
  · unfold state_push_point
    rw [if_neg (not_le.mpr h1)]
    simp only [e1, e2, Option.bind_eq_bind, Option.some_bind]
  · show load b2 (4 * s.points_count) = some 0
    rw [load_eq_some b2 _ (by omega) (by push_cast; omega)]
    rw [load_eq_some b1 _ (by omega) (by push_cast; omega)] at r1
    rw [k2 _ (by simp; omega)]
    exact r1
  · intro j hj0 hj1
    show b2 j = s.points j
    rw [k2 j hj1, k1 j hj0]

/-- Pushes from a count `c ≥ 0` succeed as long as the capacity is not reached. -/
lemma push_many_ok (n : Nat) (s : State) (h0 : 0 ≤ s.points_count)
    (h1 : s.points_count + n ≤ MAX_POINTS) :
    ∃ s1, push_many n s = some (List.replicate n 0, s1) ∧
      s1.points_count = s.points_count + n := by
  induction n generalizing s with
  | zero => exact ⟨s, rfl, by simp⟩
  | succ n ih =>
    have hM : s.points_count + ((n + 1 : Nat) : Int) ≤ 20 := h1
    obtain ⟨s1, e1, c1, -⟩ := state_push_point_ok s h0 (by
      show s.points_count < 20
      push_cast at hM
      omega)
    obtain ⟨s2, e2, c2⟩ := ih s1 (by omega) (by
      show s1.points_count + (n : Int) ≤ 20
      push_cast at hM
      omega)
    refine ⟨s2, ?_, ?_⟩
    · simp only [push_many, e1, e2, Option.bind_eq_bind, Option.some_bind, List.replicate_succ]
    · rw [c2, c1]
      push_cast
      ring

/-- Claim C6: on a state whose count is not negative, `state_push_point`
returns; it returns 0 exactly when `count < MAX_POINTS`.  On success the count
grows by one, the new last point is `(0,0)`, and every other float of the point
array, `selected`, the transform and the stored mouse position are unchanged; on
failure it returns 1 and the state is unchanged.  From an empty point set,
`MAX_POINTS` pushes all succeed, the next one fails and the count stays
`MAX_POINTS`. -/
theorem C6_state_push_point (s : State) (h0 : 0 ≤ s.points_count) :
    (∃ r s1, state_push_point s = some (r, s1) ∧
      (r = 0 ↔ s.points_count < MAX_POINTS) ∧
      (r = 0 →
        s1.points_count = s.points_count + 1 ∧
        load s1.points (4 * s.points_count) = some 0 ∧
        load s1.points (4 * s.points_count + 1) = some 0 ∧
        (∀ j : Fin 80, ((j : Nat) : Int) ≠ 4 * s.points_count →
          ((j : Nat) : Int) ≠ 4 * s.points_count + 1 → s1.points j = s.points j) ∧
        s1.selected_point = s.selected_point ∧
        s1.transform_mat = s.transform_mat ∧
        s1.prev_mouse_pos = s.prev_mouse_pos) ∧
      (r ≠ 0 → r = 1 ∧ s1 = s)) ∧
    (s.points_count = 0 →
      ∃ s20, push_many 20 s = some (List.replicate 20 0, s20) ∧
        s20.points_count = MAX_POINTS ∧
        state_push_point s20 = some (1, s20)) := by
  constructor
  · by_cases h1 : s.points_count < MAX_POINTS
    · obtain ⟨s1, e, hs⟩ := state_push_point_ok s h0 h1
      exact ⟨0, s1, e, by simp [h1], fun _ => hs, fun h => absurd rfl h⟩
    · refine ⟨1, s, state_push_point_full s (not_lt.mp h1), ?_, ?_, fun _ => ⟨rfl, rfl⟩⟩
      · simp [h1]
      · intro h
        exact absurd h one_ne_zero
  · intro hc
    obtain ⟨s20, e, c⟩ := push_many_ok 20 s h0 (by rw [hc]; decide)
    have c20 : s20.points_count = MAX_POINTS := by rw [c, hc]; rfl
    exact ⟨s20, e, c20, state_push_point_full s20 (le_of_eq c20.symm)⟩

/-- Witness of C6: the initial state, whose count is 0; twenty pushes succeed
and the twenty-first fails. -/
theorem C6_state_push_point_witness :
    0 ≤ state_init.points_count ∧
    ∃ s20, push_many 20 state_init = some (List.replicate 20 0, s20) ∧
      s20.points_count = MAX_POINTS ∧
      state_push_point s20 = some (1, s20) :=
  ⟨by decide, (C6_state_push_point state_init (by decide)).2 rfl⟩

/-! ## `state_pop_point` -/

lemma state_pop_point_empty (s : State) (h : s.points_count ≤ 0) :
    state_pop_point s = (1, s) := by
  unfold state_pop_point
  rw [if_pos h]

/-- On a non-empty point set the pop returns 0, lowers the count by one, and
clears the selection exactly when `selected ≥ count - 1` for the count found on
entry. -/
lemma state_pop_point_ok (s : State) (h : 0 < s.points_count) :
    (state_pop_point s).1 = 0 ∧
    (state_pop_point s).2.points_count = s.points_count - 1 ∧
    (state_pop_point s).2.selected_point =
      (if s.selected_point ≥ s.points_count - 1 then -1 else s.selected_point) ∧
    (state_pop_point s).2.points = s.points ∧
    (state_pop_point s).2.transform_mat = s.transform_mat ∧
    (state_pop_point s).2.prev_mouse_pos = s.prev_mouse_pos := by
  unfold state_pop_point
  rw [if_neg (not_le.mpr h)]
  by_cases hs : s.selected_point ≥ s.points_count - 1
  · simp [hs]
  · simp [hs]

/-- Claim C7: on a state whose count is not negative, `state_pop_point` returns
1 exactly when the count is 0, and then the state is unchanged; otherwise it
returns 0, the count drops by exactly one, and the point array (so the
coordinates of points `0 .. count-2`), the transform and the stored mouse
position are unchanged. -/
theorem C7_state_pop_point (s : State) (h0 : 0 ≤ s.points_count) :
    ((state_pop_point s).1 = 1 ↔ s.points_count = 0) ∧
    (s.points_count = 0 → state_pop_point s = (1, s)) ∧
    (s.points_count ≠ 0 →
      (state_pop_point s).1 = 0 ∧
      (state_pop_point s).2.points_count = s.points_count - 1 ∧
      (state_pop_point s).2.points = s.points ∧
      (state_pop_point s).2.transform_mat = s.transform_mat ∧
      (state_pop_point s).2.prev_mouse_pos = s.prev_mouse_pos) := by
  have hpos : s.points_count ≠ 0 → 0 < s.points_count := fun h => by omega
  refine ⟨⟨fun h => ?_, fun h => ?_⟩, fun h => ?_, fun h => ?_⟩
  · by_contra hne
    rw [(state_pop_point_ok s (hpos hne)).1] at h
    exact absurd h (by decide)
  · rw [state_pop_point_empty s (le_of_eq h)]
  · exact state_pop_point_empty s (le_of_eq h)
  · obtain ⟨r, c, -, p, t, m⟩ := state_pop_point_ok s (hpos h)
    exact ⟨r, c, p, t, m⟩

/-- Witness of C7: the initial state, whose count is 0; the pop fails and
changes nothing. -/
theorem C7_state_pop_point_witness :
    0 ≤ state_init.points_count ∧ state_pop_point state_init = (1, state_init) :=
  ⟨by decide, (C7_state_pop_point state_init (by decide)).2.1 rfl⟩

/-- Claim C8 (selection invalidation): when the point set is not empty and the
last point is the selected one, `state_pop_point` succeeds and leaves
`selected = -1`. -/
theorem C8_pop_clears_selected_last (s : State) (h : 0 < s.points_count)
    (hsel : s.selected_point = s.points_count - 1) :
    (state_pop_point s).1 = 0 ∧ (state_pop_point s).2.selected_point = -1 := by
  obtain ⟨r, -, sel, -⟩ := state_pop_point_ok s h
  refine ⟨r, ?_⟩
  rw [sel, if_pos (le_of_eq hsel.symm)]

/-- The session `two_points_session` runs to its end; it leaves two points, the
first one selected, and the pop that follows returns 0 and leaves one point,
still selected. -/
lemma two_points_session_run :
    (run_events (fun _ _ => 1) state_init two_points_session).isSome = true ∧
    two_points_state.points_count = 2 ∧
    two_points_state.selected_point = 0 ∧
    (state_pop_point two_points_state).1 = 0 ∧
    (state_pop_point two_points_state).2.points_count = 1 ∧
    (state_pop_point two_points_state).2.selected_point = 0 := by
  norm_num [two_points_state, run_events, two_points_session, Event.handle, on_keyboard_input,
    state_push_point, store, load, state_init, MAX_POINTS, GLFW_PRESS, GLFW_KEY_EQUAL,
    on_mouse_move, state_recompute_selected_point, recompute_scan, state_map_point,
    state_get_transform_matrix_det, POINT_RADIUS, state_pop_point, Function.update]

/-- Claim C9, as stated, fails: after two pushes and a pointer move that selects
point 0 the count is 2 and `selected` is 0; the pop leaves the count 1, so that
`selected ≥ 1 - 1` holds for the count after the decrement, and yet `selected`
is still 0 and not -1. -/
theorem C9_selected_not_cleared :
    run_events (fun _ _ => 1) state_init two_points_session = some two_points_state ∧
    0 < two_points_state.points_count ∧
    two_points_state.selected_point ≥
      (state_pop_point two_points_state).2.points_count - 1 ∧
    (state_pop_point two_points_state).2.selected_point ≠ -1 := by
  obtain ⟨h, c, sel, -, c1, sel1⟩ := two_points_session_run
  refine ⟨?_, ?_, ?_, ?_⟩
  · obtain ⟨v, hv⟩ := Option.isSome_iff_exists.mp h
    simp [two_points_state, hv]
  · rw [c]; decide
  · rw [sel, c1]; decide
  · rw [sel1]; decide

/-- Claim C9, amended: on a non-empty point set, with `count1` the count after
the decrement, `state_pop_point` clears `selected` to -1 if `selected ≥ count1`
(that is, `selected ≥ count - 1` for the count before the decrement) and leaves
`selected` unchanged otherwise. -/
theorem C9_pop_selected_rule (s : State) (h : 0 < s.points_count) :
    (s.selected_point ≥ (state_pop_point s).2.points_count →
      (state_pop_point s).2.selected_point = -1) ∧
    (s.selected_point < (state_pop_point s).2.points_count →
      (state_pop_point s).2.selected_point = s.selected_point) := by
  obtain ⟨-, c, sel, -⟩ := state_pop_point_ok s h
  rw [c, sel]
  constructor
  · intro hge
    rw [if_pos hge]
  · intro hlt
    rw [if_neg (not_le.mpr hlt)]

/-- Witness of C9 (amended): the state with two points, the first selected. -/
theorem C9_pop_selected_rule_witness :
    0 < two_points_state.points_count ∧
    (two_points_state.selected_point < (state_pop_point two_points_state).2.points_count →
      (state_pop_point two_points_state).2.selected_point =
        two_points_state.selected_point) :=
  have h : 0 < two_points_state.points_count := by
    rw [two_points_session_run.2.1]; decide
  ⟨h, (C9_pop_selected_rule two_points_state h).2⟩

/-- Witness of C8: the state with one point left, which is the selected one. -/
theorem C8_pop_clears_selected_last_witness :
    0 < (state_pop_point two_points_state).2.points_count ∧
    (state_pop_point (state_pop_point two_points_state).2).1 = 0 ∧
    (state_pop_point (state_pop_point two_points_state).2).2.selected_point = -1 :=
  have hc : (state_pop_point two_points_state).2.points_count = 1 :=
    two_points_session_run.2.2.2.2.1
  have hs : (state_pop_point two_points_state).2.selected_point = 0 :=
    two_points_session_run.2.2.2.2.2
  have h : 0 < (state_pop_point two_points_state).2.points_count := by rw [hc]; decide
  ⟨h, C8_pop_clears_selected_last (state_pop_point two_points_state).2 h (by rw [hc, hs]; rfl)⟩

/-! ## The state invariant -/

lemma valid_state_init : state_init.valid := by
  unfold State.valid
  decide

lemma valid_of_fields {s s1 : State} (h : s.valid)
    (hc : s1.points_count = s.points_count) (hs : s1.selected_point = s.selected_point) :
    s1.valid := by
  unfold State.valid at *
  rw [hc, hs]
  exact h

lemma valid_push (s : State) (h : s.valid) :
    ∃ r s1, state_push_point s = some (r, s1) ∧ s1.valid := by
  obtain ⟨h0, h1, h2, h3⟩ := h
  by_cases hc : s.points_count < MAX_POINTS
  · obtain ⟨s1, e, c, -, -, -, sel, -⟩ := state_push_point_ok s h0 hc
    refine ⟨0, s1, e, ?_⟩
    unfold State.valid
    rw [c, sel]
    have hM : s.points_count < 20 := hc
    refine ⟨by omega, ?_, h2, by omega⟩
    show s.points_count + 1 ≤ 20
    omega
  · exact ⟨1, s, state_push_point_full s (not_lt.mp hc), h0, h1, h2, h3⟩

lemma valid_pop (s : State) (h : s.valid) : (state_pop_point s).2.valid := by
  obtain ⟨h0, h1, h2, h3⟩ := h
  by_cases hc : s.points_count ≤ 0
  · rw [state_pop_point_empty s hc]
    exact ⟨h0, h1, h2, h3⟩
  · obtain ⟨-, c, sel, -⟩ := state_pop_point_ok s (not_le.mp hc)
    unfold State.valid
    rw [c, sel]
    have hM : s.points_count ≤ 20 := h1
    refine ⟨by omega, ?_, ?_, ?_⟩
    · show s.points_count - 1 ≤ 20
      omega
    · split_ifs <;> omega
    · split_ifs <;> omega

/-- Moving a point with an index below `MAX_POINTS` succeeds and touches neither
the count, the selection nor the transform. -/
lemma state_move_point_ok (s : State) (idx : Int) (dx dy : ℚ)
    (h0 : 0 ≤ idx) (h1 : idx < MAX_POINTS) :
    ∃ s1, state_move_point s idx dx dy = some s1 ∧
      s1.points_count = s.points_count ∧ s1.selected_point = s.selected_point ∧
      s1.transform_mat = s.transform_mat := by
  have hM : idx < 20 := h1
  have e0 : (4 * idx) % SIZE_MAX_SUCC = 4 * idx := by
    unfold SIZE_MAX_SUCC
    omega
  have e1 : (4 * idx + 1) % SIZE_MAX_SUCC = 4 * idx + 1 := by
    unfold SIZE_MAX_SUCC
    omega
  obtain ⟨b1, s1, -, -⟩ := store_spec s.points (4 * idx)
    (s.points ⟨(4 * idx).toNat, by omega⟩ + state_map_point s dx dy 0 0)
    (by omega) (by push_cast; omega)
  obtain ⟨b2, s2, -, -⟩ := store_spec b1 (4 * idx + 1)
    (b1 ⟨(4 * idx + 1).toNat, by omega⟩ + state_map_point s dx dy 0 1)
    (by omega) (by push_cast; omega)
  refine ⟨{ s with
      points := b2
      ubo := glBufferSubData s.ubo POINTS_ARRAY_OFFSET
        (4 * sizeof_float * s.points_count) (floats b2) }, ?_, rfl, rfl, rfl⟩
  unfold state_move_point
  simp only [e0, e1, load_eq_some s.points (4 * idx) (by omega) (by push_cast; omega),
    load_eq_some b1 (4 * idx + 1) (by omega) (by push_cast; omega), s1, s2,
    Option.bind_eq_bind, Option.some_bind]

/-- Case split on a conditional that yields an optional value. -/
lemma exists_ite_some {α : Type} (c : Prop) [Decidable c] (a b : Option α) (P : α → Prop)
    (ha : c → ∃ r, a = some r ∧ P r) (hb : ¬c → ∃ r, b = some r ∧ P r) :
    ∃ r, (if c then a else b) = some r ∧ P r := by
  by_cases h : c
  · rw [if_pos h]
    exact ha h
  · rw [if_neg h]
    exact hb h

/-- The scan over at most `MAX_POINTS` points returns, with `-1` or an index it
has visited. -/
lemma recompute_scan_ok (points : Fin 80 → ℚ) (adj_pos : Fin 3 → ℚ) (radius_sq : ℚ)
    (n : Nat) (i : Int) (h0 : 0 ≤ i) (h1 : i + n ≤ MAX_POINTS) :
    ∃ r, recompute_scan points adj_pos radius_sq n i = some r ∧
      (r = -1 ∨ (i ≤ r ∧ r < i + n)) := by
  induction n generalizing i with
  | zero => exact ⟨-1, rfl, Or.inl rfl⟩
  | succ n ih =>
    have hM : i + ((n + 1 : Nat) : Int) ≤ 20 := h1
    push_cast at hM
    unfold recompute_scan
    simp only [load_eq_some points (4 * i) (by omega) (by push_cast; omega),
      load_eq_some points (4 * i + 1) (by omega) (by push_cast; omega),
      Option.bind_eq_bind, Option.some_bind]
    refine exists_ite_some _ _ _ _ (fun _ => ?_) (fun _ => ?_)
    · exact ⟨i, rfl, Or.inr ⟨le_refl _, by push_cast; omega⟩⟩
    · obtain ⟨r, e, hr⟩ := ih (i + 1) (by omega) (by
        show i + 1 + (n : Int) ≤ 20
        omega)
      refine ⟨r, e, ?_⟩
      rcases hr with hr | ⟨ha, hb⟩
      · exact Or.inl hr
      · exact Or.inr ⟨by omega, by push_cast; omega⟩

lemma valid_recompute (window : GLFWwindow) (s : State) (x y : ℚ) (h : s.valid) :
    ∃ s1, state_recompute_selected_point window s x y = some s1 ∧ s1.valid := by
  obtain ⟨h0, h1, -, -⟩ := h
  obtain ⟨r, e, hr⟩ := recompute_scan_ok s.points
    (state_map_point s (x - (window.framebuffer_width : ℚ) / 2)
      ((window.framebuffer_height : ℚ) / 2 - y) 1)
    (((POINT_RADIUS * POINT_RADIUS : Int) : ℚ) * |state_get_transform_matrix_det s|)
    s.points_count.toNat 0 (le_refl _) (by
      rw [Int.toNat_of_nonneg h0, zero_add]
      exact h1)
  refine ⟨{ s with
      selected_point := r
      ubo := glBufferSubData s.ubo SELECTED_POINT_OFFSET 4 (int_at r) }, ?_, ?_⟩
  · unfold state_recompute_selected_point
    simp only [e, Option.bind_eq_bind, Option.some_bind]
  · refine ⟨h0, h1, ?_, ?_⟩
    · show -1 ≤ r
      rcases hr with hr | ⟨ha, -⟩ <;> omega
    · show r < s.points_count
      rw [Int.toNat_of_nonneg h0] at hr
      rcases hr with hr | ⟨-, hb⟩ <;> omega

lemma valid_on_keyboard_input (s : State) (key scancode action mods : Int) (h : s.valid) :
    ∃ s1, on_keyboard_input s key scancode action mods = some s1 ∧ s1.valid := by
  unfold on_keyboard_input
  split_ifs
  · obtain ⟨r, s1, e, v⟩ := valid_push s h
    exact ⟨s1, by rw [e]; rfl, v⟩
  · exact ⟨_, rfl, valid_pop s h⟩
  · exact ⟨s, rfl, h⟩
  · exact ⟨s, rfl, h⟩

lemma valid_on_mouse_move (window : GLFWwindow) (s : State) (x y : ℚ)
    (result : Fin 12 → ℚ) (h : s.valid) :
    ∃ s1, on_mouse_move window s x y result = some s1 ∧ s1.valid := by
  unfold on_mouse_move
  split_ifs with hp hsel
  · obtain ⟨h0, h1, h2, h3⟩ := h
    have hM : s.points_count ≤ 20 := h1
    have hidx : to_size_t s.selected_point = s.selected_point := by
      unfold to_size_t SIZE_MAX_SUCC
      omega
    obtain ⟨s1, e, c, sel, -⟩ := state_move_point_ok s (to_size_t s.selected_point)
      (-(s.prev_mouse_pos 0 - x)) (-(y - s.prev_mouse_pos 1))
      (by rw [hidx]; omega) (by rw [hidx]; show s.selected_point < 20; omega)
    refine ⟨{ s1 with prev_mouse_pos := ![x, y] }, ?_, ?_⟩
    · simp only [e, Option.bind_eq_bind, Option.some_bind]
    · exact valid_of_fields ⟨h0, h1, h2, h3⟩ c sel
  · exact ⟨_, rfl, valid_of_fields h rfl rfl⟩
  · obtain ⟨s1, e, v⟩ := valid_recompute window s x y h
    refine ⟨{ s1 with prev_mouse_pos := ![x, y] }, ?_, valid_of_fields v rfl rfl⟩
    simp only [e, Option.bind_eq_bind, Option.some_bind]

lemma valid_handle (pow : ℚ → ℚ → ℚ) (s : State) (e : Event) (h : s.valid) :
    ∃ s1, Event.handle pow s e = some s1 ∧ s1.valid := by
  cases e with
  | key k sc a m => exact valid_on_keyboard_input s k sc a m h
  | mouse_move w x y r => exact valid_on_mouse_move w s x y r h
  | mouse_scroll x y r => exact ⟨_, rfl, valid_of_fields h rfl rfl⟩
  | resize w hh => exact ⟨_, rfl, valid_of_fields h rfl rfl⟩

lemma valid_run_events (pow : ℚ → ℚ → ℚ) (events : List Event) (s : State) (h : s.valid) :
    ∃ s1, run_events pow s events = some s1 ∧ s1.valid := by
  induction events generalizing s with
  | nil => exact ⟨s, rfl, h⟩
  | cons e es ih =>
    obtain ⟨s1, e1, v1⟩ := valid_handle pow s e h
    obtain ⟨s2, e2, v2⟩ := ih s1 v1
    exact ⟨s2, by simp only [run_events, e1, Option.some_bind, e2], v2⟩

/-- Claim C10 (state invariant): every sequence of events (key presses that push
or pop, pointer moves that drag the selected point, recompute the selection or
pan, scrolls that zoom, resizes) run by the callbacks from `state_init` runs to
its end without an out-of-bounds access, and the state it reaches has
`0 ≤ count ≤ MAX_POINTS` and `-1 ≤ selected < count`. -/
theorem C10_state_invariant (pow : ℚ → ℚ → ℚ) (events : List Event) :
    ∃ s, run_events pow state_init events = some s ∧
      0 ≤ s.points_count ∧ s.points_count ≤ MAX_POINTS ∧
      -1 ≤ s.selected_point ∧ s.selected_point < s.points_count :=
  valid_run_events pow events state_init valid_state_init

/-! ## `state_recompute_selected_point` -/

lemma load_cast {n : Nat} (a : Fin n → ℚ) (k : Nat) (h : k < n) :
    load a (k : Int) = some (a ⟨k, h⟩) := by
  rw [load_eq_some a (k : Int) (by omega) (by omega)]
  simp

/-- The scan returns the first index of its range whose point passes the
distance test, and `-1` when no index of the range passes. -/
lemma recompute_scan_first (points : Fin 80 → ℚ) (adj_pos : Fin 3 → ℚ) (radius_sq : ℚ)
    (n i : Nat) (h : i + n ≤ 20) :
    ∃ r, recompute_scan points adj_pos radius_sq n (i : Int) = some r ∧
      ((r = -1 ∧ ∀ j : Fin 20, i ≤ j.val → j.val < i + n →
          ¬ dist_sq (points ⟨4 * j.val, by omega⟩, points ⟨4 * j.val + 1, by omega⟩)
              (adj_pos 0, adj_pos 1) ≤ radius_sq) ∨
       (∃ k : Fin 20, r = (k.val : Int) ∧ i ≤ k.val ∧ k.val < i + n ∧
          dist_sq (points ⟨4 * k.val, by omega⟩, points ⟨4 * k.val + 1, by omega⟩)
              (adj_pos 0, adj_pos 1) ≤ radius_sq ∧
          ∀ j : Fin 20, i ≤ j.val → j.val < k.val →
            ¬ dist_sq (points ⟨4 * j.val, by omega⟩, points ⟨4 * j.val + 1, by omega⟩)
                (adj_pos 0, adj_pos 1) ≤ radius_sq)) := by
  induction n generalizing i with
  | zero =>
    refine ⟨-1, rfl, Or.inl ⟨rfl, ?_⟩⟩
    intro j h1 h2
    omega
  | succ n ih =>
    have hi : i < 20 := by omega
    have e0 : (4 * (i : Int)) = ((4 * i : Nat) : Int) := by push_cast; ring
    have e1 : (4 * (i : Int) + 1) = ((4 * i + 1 : Nat) : Int) := by push_cast; ring
    have e2 : ((i : Int) + 1) = ((i + 1 : Nat) : Int) := by push_cast; ring
    unfold recompute_scan
    rw [e1, e0, load_cast points (4 * i) (by omega), load_cast points (4 * i + 1) (by omega)]
    simp only [Option.bind_eq_bind, Option.some_bind]
    by_cases hit : dist_sq (points ⟨4 * i, by omega⟩, points ⟨4 * i + 1, by omega⟩)
        (adj_pos 0, adj_pos 1) ≤ radius_sq
    · have hc := hit
      simp only [dist_sq, sq] at hc
      rw [if_pos hc]
      refine ⟨(i : Int), rfl, Or.inr ⟨⟨i, hi⟩, rfl, le_refl _, by simp only; omega, hit, ?_⟩⟩
      intro j h1 h2
      simp only at h2
      omega
    · have hc := hit
      simp only [dist_sq, sq] at hc
      rw [if_neg hc, e2]
      obtain ⟨r, er, hr⟩ := ih (i + 1) (by omega)
      refine ⟨r, er, ?_⟩
      have first : ∀ j : Fin 20, i ≤ j.val → j.val < i + 1 →
          ¬ dist_sq (points ⟨4 * j.val, by omega⟩, points ⟨4 * j.val + 1, by omega⟩)
              (adj_pos 0, adj_pos 1) ≤ radius_sq := by
        intro j h1 h2
        have hj : j = ⟨i, hi⟩ := Fin.ext (by simp only; omega)
        rw [hj]
        exact hit
      rcases hr with ⟨hr, hall⟩ | ⟨k, hk, hk1, hk2, hk3, hall⟩
      · refine Or.inl ⟨hr, ?_⟩
        intro j h1 h2
        by_cases hj : j.val < i + 1
        · exact first j h1 hj
        · exact hall j (by omega) (by omega)
      · refine Or.inr ⟨k, hk, by omega, by omega, hk3, ?_⟩
        intro j h1 h2
        by_cases hj : j.val < i + 1
        · exact first j h1 hj
        · exact hall j (by omega) h2

/-- The threshold of the selection scan is `POINT_RADIUS² · |det(T)|`. -/
lemma hit_radius_sq_eq (s : State) :
    ((POINT_RADIUS * POINT_RADIUS : Int) : ℚ) * |state_get_transform_matrix_det s| =
      s.hit_radius_sq := by
  unfold State.hit_radius_sq
  push_cast
  ring

/-- Result of `state_recompute_selected_point` on a state with at most
`MAX_POINTS` points. -/
lemma state_recompute_selected_point_spec (window : GLFWwindow) (s : State) (px py : ℚ)
    (hc : s.points_count ≤ MAX_POINTS) :
    ∃ s1, state_recompute_selected_point window s px py = some s1 ∧
      s1.points = s.points ∧ s1.points_count = s.points_count ∧
      s1.transform_mat = s.transform_mat ∧ s1.prev_mouse_pos = s.prev_mouse_pos ∧
      ((s1.selected_point = -1 ∧
          ∀ j : Fin 20, (j.val : Int) < s.points_count →
            ¬ s.hits (s.cursor window px py) j) ∨
       (∃ i : Fin 20, s1.selected_point = (i.val : Int) ∧ (i.val : Int) < s.points_count ∧
          s.hits (s.cursor window px py) i ∧
          ∀ j : Fin 20, j < i → ¬ s.hits (s.cursor window px py) j)) := by
  have hM : s.points_count ≤ 20 := hc
  obtain ⟨r, er, hr⟩ := recompute_scan_first s.points
    (state_map_point s (px - (window.framebuffer_width : ℚ) / 2)
      ((window.framebuffer_height : ℚ) / 2 - py) 1)
    (((POINT_RADIUS * POINT_RADIUS : Int) : ℚ) * |state_get_transform_matrix_det s|)
    s.points_count.toNat 0 (by omega)
  rw [hit_radius_sq_eq] at hr
  refine ⟨{ s with
      selected_point := r
      ubo := glBufferSubData s.ubo SELECTED_POINT_OFFSET 4 (int_at r) }, ?_,
    rfl, rfl, rfl, rfl, ?_⟩
  · unfold state_recompute_selected_point
    simp only [Nat.cast_zero] at er
    simp only [er, Option.bind_eq_bind, Option.some_bind]
  · rcases hr with ⟨hr, hall⟩ | ⟨k, hk, -, hk2, hk3, hall⟩
    · refine Or.inl ⟨hr, ?_⟩
      intro j hj
      exact hall j (Nat.zero_le _) (by omega)
    · refine Or.inr ⟨k, hk, by omega, hk3, ?_⟩
      intro j hj
      exact hall j (Nat.zero_le _) hj

/-- Fields of the state with two points: both points lie at the origin and the
transform is the identity. -/
lemma two_points_state_fields :
    two_points_state.points_count = 2 ∧
    two_points_state.selected_point = 0 ∧
    two_points_state.points = (fun _ => 0) ∧
    two_points_state.transform_mat = IDENTITY_MATRIX := by
  norm_num [two_points_state, run_events, two_points_session, Event.handle, on_keyboard_input,
    state_push_point, store, load, state_init, MAX_POINTS, GLFW_PRESS, GLFW_KEY_EQUAL,
    on_mouse_move, state_recompute_selected_point, recompute_scan, state_map_point,
    state_get_transform_matrix_det, POINT_RADIUS, Function.update]

/-- Under a pan/zoom transform with scale `k ≠ 0`, the point at `MapPoint(d, 1)`
is within the hit radius of `MapPoint(c, 1)` exactly when `d` and `c` are at
most `POINT_RADIUS` apart. -/
lemma hits_pan_zoom (s : State) (k tx ty : ℚ) (d c : ℚ × ℚ) (i : Fin 20)
    (hT : is_pan_zoom s.transform_mat k tx ty) (hk : k ≠ 0)
    (hp : s.point i = s.map_xy d.1 d.2 1) :
    s.hits (s.map_xy c.1 c.2 1) i ↔ dist_sq d c ≤ (POINT_RADIUS : ℚ) ^ 2 := by
  obtain ⟨h0, h4, h8, h1, h5, h9, h2, h6, h10⟩ := hT
  have hk2 : 0 < k ^ 2 := by positivity
  have hdet : state_get_transform_matrix_det s = k ^ 2 := by
    simp only [state_get_transform_matrix_det, h0, h4, h8, h1, h5, h9, h2, h6, h10]
    ring
  have hdist : dist_sq (s.map_xy d.1 d.2 1) (s.map_xy c.1 c.2 1) = k ^ 2 * dist_sq d c := by
    simp only [dist_sq, State.map_xy, state_map_point, h0, h4, h8, h1, h5, h9,
      Matrix.cons_val_zero, Matrix.cons_val_one, Matrix.head_cons]
    ring
  unfold State.hits State.hit_radius_sq
  rw [hp, hdist, hdet, abs_of_pos hk2, mul_comm ((POINT_RADIUS : ℚ) ^ 2) (k ^ 2)]
  exact mul_le_mul_left hk2

/-- One round of the scan at index `i` returns `i` exactly when point `i` is
within the hit radius of the mapped position. -/
lemma recompute_scan_one (s : State) (x y : ℚ) (i : Fin 20) :
    recompute_scan s.points (state_map_point s x y 1)
        (((POINT_RADIUS * POINT_RADIUS : Int) : ℚ) * |state_get_transform_matrix_det s|)
        1 (i.val : Int) = some (i.val : Int) ↔
      s.hits (s.map_xy x y 1) i := by
  obtain ⟨r, er, hr⟩ := recompute_scan_first s.points (state_map_point s x y 1)
    (((POINT_RADIUS * POINT_RADIUS : Int) : ℚ) * |state_get_transform_matrix_det s|)
    1 i.val (by omega)
  rw [hit_radius_sq_eq] at hr
  rw [er]
  rcases hr with ⟨hr, hall⟩ | ⟨k, hk, hk1, hk2, hk3, -⟩
  · constructor
    · intro h
      rw [hr] at h
      have h2 := Option.some.inj h
      omega
    · intro h
      exact absurd h (hall i (le_refl _) (by omega))
  · have hki : k = i := Fin.ext (by omega)
    rw [hki] at hk hk3
    constructor
    · intro _
      exact hk3
    · intro _
      rw [hk]

/-- Claim C13, amended: with the arithmetic taken exactly (no rounding,
underflow or overflow), under a pan/zoom transform `[[k,0,tx],[0,k,ty],[0,0,1]]`
with `k ≠ 0`, the point located at `MapPoint(d, 1)` passes the hit test of
`state_recompute_selected_point` against the cursor whose device offset is
`c = (px - w/2, h/2 - py)` if and only if `|d - c|² ≤ POINT_RADIUS² = 400`,
whatever `k`, `tx`, `ty` are; when no point before it passes, it is the point
selected if and only if `|d - c|² ≤ 400`. -/
theorem C13_hit_radius_constant_in_device_pixels (window : GLFWwindow) (s : State)
    (k tx ty px py : ℚ) (d : ℚ × ℚ) (i : Fin 20)
    (hT : is_pan_zoom s.transform_mat k tx ty) (hk : k ≠ 0)
    (hc : s.points_count ≤ MAX_POINTS) (hi : (i.val : Int) < s.points_count)
    (hp : s.point i = s.map_xy d.1 d.2 1) :
    (recompute_scan s.points
        (state_map_point s (px - (window.framebuffer_width : ℚ) / 2)
          ((window.framebuffer_height : ℚ) / 2 - py) 1)
        (((POINT_RADIUS * POINT_RADIUS : Int) : ℚ) * |state_get_transform_matrix_det s|)
        1 (i.val : Int) = some (i.val : Int) ↔
      dist_sq d (px - (window.framebuffer_width : ℚ) / 2,
        (window.framebuffer_height : ℚ) / 2 - py) ≤ 400) ∧
    ((∀ j : Fin 20, j < i → ¬ s.hits (s.cursor window px py) j) →
      ∃ s1, state_recompute_selected_point window s px py = some s1 ∧
        (s1.selected_point = (i.val : Int) ↔
          dist_sq d (px - (window.framebuffer_width : ℚ) / 2,
            (window.framebuffer_height : ℚ) / 2 - py) ≤ 400)) := by
  have h400 : (POINT_RADIUS : ℚ) ^ 2 = 400 := by norm_num [POINT_RADIUS]
  have hhit := hits_pan_zoom s k tx ty d
    (px - (window.framebuffer_width : ℚ) / 2, (window.framebuffer_height : ℚ) / 2 - py)
    i hT hk hp
  rw [h400] at hhit
  refine ⟨(recompute_scan_one s _ _ i).trans hhit, ?_⟩
  intro hfirst
  obtain ⟨s1, e, -, -, -, -, h⟩ := state_recompute_selected_point_spec window s px py hc
  refine ⟨s1, e, ?_⟩
  rcases h with ⟨hsel, hall⟩ | ⟨m, hm, -, hm3, hall⟩
  · constructor
    · intro h1
      rw [hsel] at h1
      omega
    · intro h1
      exact absurd (hhit.mpr h1) (hall i hi)
  · constructor
    · intro h1
      have hmi : m = i := Fin.ext (by omega)
      rw [hmi] at hm3
      exact hhit.mp hm3
    · intro h1
      have hmi : m = i := by
        rcases lt_trichotomy m i with hlt | heq | hgt
        · exact absurd hm3 (hfirst m hlt)
        · exact heq
        · exact absurd (hhit.mpr h1) (hall i hgt)
      rw [hm, hmi]

/-! ## The uniform buffer mirrors the state -/

lemma glBufferSubData_size (b : GLBuffer) (o sz : Int) (d : Nat → Cell) :
    (glBufferSubData b o sz d).size = b.size := by
  unfold glBufferSubData
  split_ifs <;> rfl

/-- Words of the buffer after a write of `n` words at word `ow` that fits. -/
lemma glBufferSubData_mem (b : GLBuffer) (o sz : Int) (d : Nat → Cell) (ow n : Nat)
    (ho : o = 4 * (ow : Int)) (hs : sz = 4 * (n : Int)) (h : o + sz ≤ b.size) (w : Nat) :
    (glBufferSubData b o sz d).mem w =
      if ow ≤ w ∧ w < ow + n then d (w - ow) else b.mem w := by
  unfold glBufferSubData
  rw [if_neg (by omega)]
  have e : (o / 4).toNat = ow := by omega
  simp only [e]
  by_cases hw : ow ≤ w ∧ w < ow + n
  · rw [if_pos hw, if_pos (by omega)]
  · rw [if_neg hw, if_neg (by omega)]

/-- A write that does not reach word `w` leaves it as it is. -/
lemma glBufferSubData_mem_outside (b : GLBuffer) (o sz : Int) (d : Nat → Cell) (w : Nat)
    (hw : 4 * (w : Int) < o ∨ o + sz ≤ 4 * (w : Int)) :
    (glBufferSubData b o sz d).mem w = b.mem w := by
  unfold glBufferSubData
  by_cases h1 : o < 0 ∨ sz < 0 ∨ b.size < o + sz
  · rw [if_pos h1]
  · rw [if_neg h1]
    simp only
    rw [if_neg (by omega)]

lemma floats_apply {n : Nat} (a : Fin n → ℚ) (k : Fin n) :
    floats a k.val = Cell.f32 (a k) := by
  simp [floats]

lemma int_at_zero (v : Int) : int_at v 0 = Cell.i32 v := rfl

/-- The mirror relation with the word indices written out. -/
lemma mirrored_iff (s : State) (d : ℚ × ℚ) :
    s.mirrored d ↔
      s.ubo.size = 384 ∧
      (∀ k : Fin 12, s.ubo.mem k.val = Cell.f32 (s.transform_mat k)) ∧
      s.ubo.mem 12 = Cell.f32 d.1 ∧
      s.ubo.mem 13 = Cell.f32 d.2 ∧
      s.ubo.mem 14 = Cell.i32 s.selected_point ∧
      s.ubo.mem 15 = Cell.i32 s.points_count ∧
      (∀ k : Fin 80, ((k : Nat) : Int) < 4 * s.points_count →
        s.ubo.mem (16 + k.val) = Cell.f32 (s.points k)) := by
  have w0 : word TRANSFORM_MATRIX_OFFSET = 0 := rfl
  have w1 : word WINDOW_SIZE_OFFSET = 12 := rfl
  have w2 : word SELECTED_POINT_OFFSET = 14 := rfl
  have w3 : word POINTS_COUNT_OFFSET = 15 := rfl
  have w4 : word POINTS_ARRAY_OFFSET = 16 := rfl
  unfold State.mirrored
  simp only [w0, w1, w2, w3, w4, Nat.zero_add]

/-- After `state_init` the buffer mirrors the state, with the default window
size. -/
lemma mirrored_init : state_init.mirrored ((DEFAULT_WINDOW_WIDTH : ℚ), (DEFAULT_WINDOW_HEIGHT : ℚ)) := by
  rw [mirrored_iff]
  refine ⟨rfl, ?_, ?_, ?_, ?_, ?_, ?_⟩
  · intro k
    show (glBufferSubData (glBufferSubData (glBufferSubData (glBufferSubData
      (glBufferSubData (glBufferData 384) 0 48 (floats IDENTITY_MATRIX)) 48 8 _) 56 4 _)
      60 4 _) 64 0 _).mem k.val = _
    have hk := k.isLt
    rw [glBufferSubData_mem_outside _ _ _ _ _ (by omega),
      glBufferSubData_mem_outside _ _ _ _ _ (by omega),
      glBufferSubData_mem_outside _ _ _ _ _ (by omega),
      glBufferSubData_mem_outside _ _ _ _ _ (by omega),
      glBufferSubData_mem _ 0 48 _ 0 12 (by norm_num) (by norm_num) (by decide),
      if_pos (by omega)]
    exact floats_apply _ k
  · show (glBufferSubData (glBufferSubData (glBufferSubData (glBufferSubData
      (glBufferSubData (glBufferData 384) 0 48 _) 48 8 _) 56 4 _) 60 4 _) 64 0 _).mem 12 = _
    rw [glBufferSubData_mem_outside _ _ _ _ _ (by omega),
      glBufferSubData_mem_outside _ _ _ _ _ (by omega),
      glBufferSubData_mem_outside _ _ _ _ _ (by omega),
      glBufferSubData_mem _ 48 8 _ 12 2 (by norm_num) (by norm_num) (by decide),
      if_pos (by omega)]
    rfl
  · show (glBufferSubData (glBufferSubData (glBufferSubData (glBufferSubData
      (glBufferSubData (glBufferData 384) 0 48 _) 48 8 _) 56 4 _) 60 4 _) 64 0 _).mem 13 = _
    rw [glBufferSubData_mem_outside _ _ _ _ _ (by omega),
      glBufferSubData_mem_outside _ _ _ _ _ (by omega),
      glBufferSubData_mem_outside _ _ _ _ _ (by omega),
      glBufferSubData_mem _ 48 8 _ 12 2 (by norm_num) (by norm_num) (by decide),
      if_pos (by omega)]
    rfl
  · show (glBufferSubData (glBufferSubData (glBufferSubData (glBufferSubData
      (glBufferSubData (glBufferData 384) 0 48 _) 48 8 _) 56 4 _) 60 4 _) 64 0 _).mem 14 = _
    rw [glBufferSubData_mem_outside _ _ _ _ _ (by omega),
      glBufferSubData_mem_outside _ _ _ _ _ (by omega),
      glBufferSubData_mem _ 56 4 _ 14 1 (by norm_num) (by norm_num) (by decide),
      if_pos (by omega)]
    rfl
  · show (glBufferSubData (glBufferSubData (glBufferSubData (glBufferSubData
      (glBufferSubData (glBufferData 384) 0 48 _) 48 8 _) 56 4 _) 60 4 _) 64 0 _).mem 15 = _
    rw [glBufferSubData_mem_outside _ _ _ _ _ (by omega),
      glBufferSubData_mem _ 60 4 _ 15 1 (by norm_num) (by norm_num) (by decide),
      if_pos (by omega)]
    rfl
  · intro k hk
    have h0 : state_init.points_count = 0 := rfl
    rw [h0] at hk
    omega

lemma mirrored_adjust (s : State) (d : ℚ × ℚ) (a1 a2 a3 a4 a5 a6 a7 a8 a9 : ℚ)
    (result : Fin 12 → ℚ) (h : s.mirrored d) :
    (state_adjust_transform_matrix s a1 a2 a3 a4 a5 a6 a7 a8 a9 result).mirrored d := by
  rw [mirrored_iff] at h ⊢
  obtain ⟨hsz, -, hw1, hw2, hsel, hcnt, hpts⟩ := h
  have hubo : (state_adjust_transform_matrix s a1 a2 a3 a4 a5 a6 a7 a8 a9 result).ubo =
      glBufferSubData s.ubo 0 48
        (floats (state_adjust_transform_matrix s a1 a2 a3 a4 a5 a6 a7 a8 a9
          result).transform_mat) := rfl
  have hmem := glBufferSubData_mem s.ubo 0 48
    (floats (state_adjust_transform_matrix s a1 a2 a3 a4 a5 a6 a7 a8 a9 result).transform_mat)
    0 12 (by norm_num) (by norm_num) (by rw [hsz]; decide)
  refine ⟨?_, ?_, ?_, ?_, ?_, ?_, ?_⟩
  · rw [hubo, glBufferSubData_size, hsz]
  · intro k
    have hk := k.isLt
    rw [hubo, hmem, if_pos (by omega)]
    exact floats_apply _ k
  · rw [hubo, hmem, if_neg (by omega)]
    exact hw1
  · rw [hubo, hmem, if_neg (by omega)]
    exact hw2
  · rw [hubo, hmem, if_neg (by omega)]
    exact hsel
  · rw [hubo, hmem, if_neg (by omega)]
    exact hcnt
  · intro k hk
    rw [hubo, hmem, if_neg (by omega)]
    exact hpts k hk

lemma mirrored_resize (s : State) (d : ℚ × ℚ) (width height : Int) (h : s.mirrored d) :
    (on_window_resize s width height).mirrored ((width : ℚ), (height : ℚ)) := by
  rw [mirrored_iff] at h ⊢
  obtain ⟨hsz, ht, -, -, hsel, hcnt, hpts⟩ := h
  have hubo : (on_window_resize s width height).ubo =
      glBufferSubData s.ubo 48 8 (floats ![(width : ℚ), (height : ℚ)]) := rfl
  have hmem := glBufferSubData_mem s.ubo 48 8 (floats ![(width : ℚ), (height : ℚ)])
    12 2 (by norm_num) (by norm_num) (by rw [hsz]; decide)
  refine ⟨?_, ?_, ?_, ?_, ?_, ?_, ?_⟩
  · rw [hubo, glBufferSubData_size, hsz]
  · intro k
    have hk := k.isLt
    rw [hubo, hmem, if_neg (by omega)]
    exact ht k
  · rw [hubo, hmem, if_pos (by omega)]
    rfl
  · rw [hubo, hmem, if_pos (by omega)]
    rfl
  · rw [hubo, hmem, if_neg (by omega)]
    exact hsel
  · rw [hubo, hmem, if_neg (by omega)]
    exact hcnt
  · intro k hk
    rw [hubo, hmem, if_neg (by omega)]
    exact hpts k hk

/-- Publishing a new value of `selected_point` keeps the mirror relation. -/
lemma mirrored_set_selected (s : State) (d : ℚ × ℚ) (r : Int) (h : s.mirrored d) :
    State.mirrored { s with
      selected_point := r
      ubo := glBufferSubData s.ubo SELECTED_POINT_OFFSET 4 (int_at r) } d := by
  rw [mirrored_iff] at h ⊢
  obtain ⟨hsz, ht, hw1, hw2, -, hcnt, hpts⟩ := h
  have hmem := glBufferSubData_mem s.ubo 56 4 (int_at r)
    14 1 (by norm_num) (by norm_num) (by rw [hsz]; decide)
  refine ⟨?_, ?_, ?_, ?_, ?_, ?_, ?_⟩
  · show (glBufferSubData s.ubo 56 4 (int_at r)).size = 384
    rw [glBufferSubData_size, hsz]
  · intro k
    have hk := k.isLt
    show (glBufferSubData s.ubo 56 4 (int_at r)).mem k.val = _
    rw [hmem, if_neg (by omega)]
    exact ht k
  · show (glBufferSubData s.ubo 56 4 (int_at r)).mem 12 = _
    rw [hmem, if_neg (by omega)]
    exact hw1
  · show (glBufferSubData s.ubo 56 4 (int_at r)).mem 13 = _
    rw [hmem, if_neg (by omega)]
    exact hw2
  · show (glBufferSubData s.ubo 56 4 (int_at r)).mem 14 = _
    rw [hmem, if_pos (by omega)]
    rfl
  · show (glBufferSubData s.ubo 56 4 (int_at r)).mem 15 = _
    rw [hmem, if_neg (by omega)]
    exact hcnt
  · intro k hk
    show (glBufferSubData s.ubo 56 4 (int_at r)).mem (16 + k.val) = _
    rw [hmem, if_neg (by omega)]
    exact hpts k hk

/-- Publishing a count lowered by one keeps the mirror relation. -/
lemma mirrored_decrement (s : State) (d : ℚ × ℚ) (h : s.mirrored d) :
    State.mirrored { s with
      points_count := s.points_count - 1
      ubo := glBufferSubData s.ubo POINTS_COUNT_OFFSET 4 (int_at (s.points_count - 1)) } d := by
  rw [mirrored_iff] at h ⊢
  obtain ⟨hsz, ht, hw1, hw2, hsel, -, hpts⟩ := h
  have hmem := glBufferSubData_mem s.ubo 60 4 (int_at (s.points_count - 1))
    15 1 (by norm_num) (by norm_num) (by rw [hsz]; decide)
  refine ⟨?_, ?_, ?_, ?_, ?_, ?_, ?_⟩
  · show (glBufferSubData s.ubo 60 4 _).size = 384
    rw [glBufferSubData_size, hsz]
  · intro k
    have hk := k.isLt
    show (glBufferSubData s.ubo 60 4 _).mem k.val = _
    rw [hmem, if_neg (by omega)]
    exact ht k
  · show (glBufferSubData s.ubo 60 4 _).mem 12 = _
    rw [hmem, if_neg (by omega)]
    exact hw1
  · show (glBufferSubData s.ubo 60 4 _).mem 13 = _
    rw [hmem, if_neg (by omega)]
    exact hw2
  · show (glBufferSubData s.ubo 60 4 _).mem 14 = _
    rw [hmem, if_neg (by omega)]
    exact hsel
  · show (glBufferSubData s.ubo 60 4 _).mem 15 = _
    rw [hmem, if_pos (by omega)]
    rfl
  · intro k hk
    show (glBufferSubData s.ubo 60 4 _).mem (16 + k.val) = _
    rw [hmem, if_neg (by omega)]
    exact hpts k (by
      have : ((k : Nat) : Int) < 4 * (s.points_count - 1) := hk
      omega)

lemma mirrored_pop (s : State) (d : ℚ × ℚ) (h : s.mirrored d) :
    (state_pop_point s).2.mirrored d := by
  unfold state_pop_point
  by_cases hc : s.points_count ≤ 0
  · rw [if_pos hc]
    exact h
  · rw [if_neg hc]
    by_cases hs : s.selected_point ≥ s.points_count - 1
    · simp only [if_pos hs]
      exact mirrored_decrement _ d (mirrored_set_selected s d (-1) h)
    · simp only [if_neg hs]
      exact mirrored_decrement s d h

/-- Words of the buffer after the first `c` points of the array `b` are
published. -/
lemma points_write_mem (ubo : GLBuffer) (hsz : ubo.size = 384) (b : Fin 80 → ℚ) (c : Int)
    (hc0 : 0 ≤ c) (hc : c ≤ 20) (w : Nat) :
    (glBufferSubData ubo POINTS_ARRAY_OFFSET (4 * sizeof_float * c) (floats b)).mem w =
      if 16 ≤ w ∧ w < 16 + (4 * c).toNat then floats b (w - 16) else ubo.mem w := by
  apply glBufferSubData_mem
  · rfl
  · simp only [sizeof_float]
    omega
  · rw [hsz]
    simp only [sizeof_float, POINTS_ARRAY_OFFSET]
    omega

/-- Publishing the array `b` for the present count keeps the mirror relation. -/
lemma mirrored_set_points (s : State) (d : ℚ × ℚ) (b : Fin 80 → ℚ)
    (hc : s.points_count ≤ 20) (h : s.mirrored d) :
    State.mirrored { s with
      points := b
      ubo := glBufferSubData s.ubo POINTS_ARRAY_OFFSET
        (4 * sizeof_float * s.points_count) (floats b) } d := by
  rw [mirrored_iff] at h ⊢
  obtain ⟨hsz, ht, hw1, hw2, hsel, hcnt, hpts⟩ := h
  by_cases hc0 : 0 ≤ s.points_count
  · have hmem := points_write_mem s.ubo hsz b s.points_count hc0 hc
    refine ⟨?_, ?_, ?_, ?_, ?_, ?_, ?_⟩
    · show (glBufferSubData s.ubo _ _ _).size = 384
      rw [glBufferSubData_size, hsz]
    · intro k
      have hk := k.isLt
      show (glBufferSubData s.ubo _ _ _).mem k.val = _
      rw [hmem, if_neg (by omega)]
      exact ht k
    · show (glBufferSubData s.ubo _ _ _).mem 12 = _
      rw [hmem, if_neg (by omega)]
      exact hw1
    · show (glBufferSubData s.ubo _ _ _).mem 13 = _
      rw [hmem, if_neg (by omega)]
      exact hw2
    · show (glBufferSubData s.ubo _ _ _).mem 14 = _
      rw [hmem, if_neg (by omega)]
      exact hsel
    · show (glBufferSubData s.ubo _ _ _).mem 15 = _
      rw [hmem, if_neg (by omega)]
      exact hcnt
    · intro k hk
      have hk2 : ((k : Nat) : Int) < 4 * s.points_count := hk
      show (glBufferSubData s.ubo _ _ _).mem (16 + k.val) = _
      rw [hmem, if_pos (by omega), Nat.add_sub_cancel_left]
      exact floats_apply b k
  · have hubo : glBufferSubData s.ubo POINTS_ARRAY_OFFSET
        (4 * sizeof_float * s.points_count) (floats b) = s.ubo := by
      unfold glBufferSubData
      rw [if_pos (Or.inr (Or.inl (by simp only [sizeof_float]; omega)))]
    rw [hubo]
    refine ⟨hsz, ht, hw1, hw2, hsel, hcnt, ?_⟩
    intro k hk
    have hk2 : ((k : Nat) : Int) < 4 * s.points_count := hk
    omega

/-- Publishing the array `b` and the count `c` keeps the mirror relation. -/
lemma mirrored_set_points_count (s : State) (d : ℚ × ℚ) (b : Fin 80 → ℚ) (c : Int)
    (hc0 : 0 ≤ c) (hc : c ≤ 20) (h : s.mirrored d) :
    State.mirrored { s with
      points := b
      points_count := c
      ubo := glBufferSubData
        (glBufferSubData s.ubo POINTS_ARRAY_OFFSET (4 * sizeof_float * c) (floats b))
        POINTS_COUNT_OFFSET 4 (int_at c) } d := by
  rw [mirrored_iff] at h ⊢
  obtain ⟨hsz, ht, hw1, hw2, hsel, -, -⟩ := h
  have hin := points_write_mem s.ubo hsz b c hc0 hc
  have hout := glBufferSubData_mem
    (glBufferSubData s.ubo POINTS_ARRAY_OFFSET (4 * sizeof_float * c) (floats b))
    60 4 (int_at c) 15 1 (by norm_num) (by norm_num)
    (by rw [glBufferSubData_size, hsz]; decide)
  refine ⟨?_, ?_, ?_, ?_, ?_, ?_, ?_⟩
  · show (glBufferSubData (glBufferSubData s.ubo _ _ _) _ _ _).size = 384
    rw [glBufferSubData_size, glBufferSubData_size, hsz]
  · intro k
    have hk := k.isLt
    show (glBufferSubData (glBufferSubData s.ubo _ _ _) 60 4 _).mem k.val = _
    rw [hout, if_neg (by omega), hin, if_neg (by omega)]
    exact ht k
  · show (glBufferSubData (glBufferSubData s.ubo _ _ _) 60 4 _).mem 12 = _
    rw [hout, if_neg (by omega), hin, if_neg (by omega)]
    exact hw1
  · show (glBufferSubData (glBufferSubData s.ubo _ _ _) 60 4 _).mem 13 = _
    rw [hout, if_neg (by omega), hin, if_neg (by omega)]
    exact hw2
  · show (glBufferSubData (glBufferSubData s.ubo _ _ _) 60 4 _).mem 14 = _
    rw [hout, if_neg (by omega), hin, if_neg (by omega)]
    exact hsel
  · show (glBufferSubData (glBufferSubData s.ubo _ _ _) 60 4 _).mem 15 = _
    rw [hout, if_pos (by omega)]
    rfl
  · intro k hk
    have hk2 : ((k : Nat) : Int) < 4 * c := hk
    show (glBufferSubData (glBufferSubData s.ubo _ _ _) 60 4 _).mem (16 + k.val) = _
    rw [hout, if_neg (by omega), hin, if_pos (by omega), Nat.add_sub_cancel_left]
    exact floats_apply b k

lemma mirrored_push (s : State) (d : ℚ × ℚ) (hv : s.valid) (h : s.mirrored d) :
    ∃ r s1, state_push_point s = some (r, s1) ∧ s1.valid ∧ s1.mirrored d := by
  obtain ⟨h0, h1, h2, h3⟩ := hv
  have hM : s.points_count ≤ 20 := h1
  by_cases hc : s.points_count < MAX_POINTS
  · have hlt : s.points_count < 20 := hc
    obtain ⟨b1, e1, -, -⟩ :=
      store_spec s.points (4 * s.points_count) 0 (by omega) (by push_cast; omega)
    obtain ⟨b2, e2, -, -⟩ :=
      store_spec b1 (4 * s.points_count + 1) 0 (by omega) (by push_cast; omega)
    refine ⟨0, { s with
        points := b2
        points_count := s.points_count + 1
        ubo := glBufferSubData
          (glBufferSubData s.ubo POINTS_ARRAY_OFFSET
            (4 * sizeof_float * (s.points_count + 1)) (floats b2))
          POINTS_COUNT_OFFSET 4 (int_at (s.points_count + 1)) }, ?_, ?_, ?_⟩
    · unfold state_push_point
      rw [if_neg (not_le.mpr hc)]
      simp only [e1, e2, Option.bind_eq_bind, Option.some_bind]
    · refine ⟨?_, ?_, h2, ?_⟩
      · show 0 ≤ s.points_count + 1
        omega
      · show s.points_count + 1 ≤ 20
        omega
      · show s.selected_point < s.points_count + 1
        omega
    · exact mirrored_set_points_count s d b2 (s.points_count + 1) (by omega) (by omega) h
  · exact ⟨1, s, state_push_point_full s (not_lt.mp hc), ⟨h0, h1, h2, h3⟩, h⟩

lemma mirrored_move (s : State) (d : ℚ × ℚ) (idx : Int) (dx dy : ℚ)
    (h0 : 0 ≤ idx) (h1 : idx < MAX_POINTS) (hv : s.valid) (h : s.mirrored d) :
    ∃ s1, state_move_point s idx dx dy = some s1 ∧ s1.valid ∧ s1.mirrored d := by
  have hM : idx < 20 := h1
  have hc : s.points_count ≤ 20 := hv.2.1
  have e0 : (4 * idx) % SIZE_MAX_SUCC = 4 * idx := by
    unfold SIZE_MAX_SUCC
    omega
  have e1 : (4 * idx + 1) % SIZE_MAX_SUCC = 4 * idx + 1 := by
    unfold SIZE_MAX_SUCC
    omega
  obtain ⟨b1, s1, -, -⟩ := store_spec s.points (4 * idx)
    (s.points ⟨(4 * idx).toNat, by omega⟩ + state_map_point s dx dy 0 0)
    (by omega) (by push_cast; omega)
  obtain ⟨b2, s2, -, -⟩ := store_spec b1 (4 * idx + 1)
    (b1 ⟨(4 * idx + 1).toNat, by omega⟩ + state_map_point s dx dy 0 1)
    (by omega) (by push_cast; omega)
  refine ⟨{ s with
      points := b2
      ubo := glBufferSubData s.ubo POINTS_ARRAY_OFFSET
        (4 * sizeof_float * s.points_count) (floats b2) }, ?_, valid_of_fields hv rfl rfl,
    mirrored_set_points s d b2 hc h⟩
  unfold state_move_point
  simp only [e0, e1, load_eq_some s.points (4 * idx) (by omega) (by push_cast; omega),
    load_eq_some b1 (4 * idx + 1) (by omega) (by push_cast; omega), s1, s2,
    Option.bind_eq_bind, Option.some_bind]

lemma mirrored_recompute (window : GLFWwindow) (s : State) (d : ℚ × ℚ) (x y : ℚ)
    (hv : s.valid) (h : s.mirrored d) :
    ∃ s1, state_recompute_selected_point window s x y = some s1 ∧ s1.valid ∧
      s1.mirrored d := by
  obtain ⟨s1, e, v1⟩ := valid_recompute window s x y hv
  refine ⟨s1, e, v1, ?_⟩
  unfold state_recompute_selected_point at e
  simp only [Option.bind_eq_bind, Option.bind_eq_some] at e
  obtain ⟨r, -, hr⟩ := e
  rw [← Option.some.inj hr]
  exact mirrored_set_selected s d r h

/-- One mutator call keeps the state invariant and the mirror relation, the
window size being the one last published. -/
lemma mirrored_apply (s : State) (d : ℚ × ℚ) (m : Mutator) (hm : m.in_array)
    (hv : s.valid) (h : s.mirrored d) :
    ∃ s1, Mutator.apply s m = some s1 ∧ s1.valid ∧
      s1.mirrored (window_size_after d [m]) := by
  cases m with
  | compose a1 a2 a3 a4 a5 a6 a7 a8 a9 r =>
    exact ⟨_, rfl, valid_of_fields hv rfl rfl, mirrored_adjust s d _ _ _ _ _ _ _ _ _ r h⟩
  | push =>
    obtain ⟨r, s1, e, v1, m1⟩ := mirrored_push s d hv h
    exact ⟨s1, by simp only [Mutator.apply, e, Option.map_some'], v1, m1⟩
  | pop => exact ⟨_, rfl, valid_pop s hv, mirrored_pop s d h⟩
  | move idx dx dy => exact mirrored_move s d idx dx dy hm.1 hm.2 hv h
  | recompute w x y => exact mirrored_recompute w s d x y hv h
  | resize w hh => exact ⟨_, rfl, valid_of_fields hv rfl rfl, mirrored_resize s d w hh h⟩

lemma window_size_after_cons (d : ℚ × ℚ) (m : Mutator) (ms : List Mutator) :
    window_size_after d (m :: ms) = window_size_after (window_size_after d [m]) ms := by
  cases m <;> rfl

lemma mirrored_run (ms : List Mutator) (s : State) (d : ℚ × ℚ)
    (hm : ∀ m ∈ ms, m.in_array) (hv : s.valid) (h : s.mirrored d) :
    ∃ s1, run_mutators s ms = some s1 ∧ s1.valid ∧ s1.mirrored (window_size_after d ms) := by
  induction ms generalizing s d with
  | nil => exact ⟨s, rfl, hv, h⟩
  | cons m ms ih =>
    obtain ⟨s1, e1, v1, m1⟩ :=
      mirrored_apply s d m (hm m (List.mem_cons_self m ms)) hv h
    obtain ⟨s2, e2, v2, m2⟩ :=
      ih s1 _ (fun m' hm' => hm m' (List.mem_cons_of_mem m hm')) v1 m1
    refine ⟨s2, ?_, v2, ?_⟩
    · simp only [run_mutators, e1, Option.some_bind, e2]
    · rw [window_size_after_cons]
      exact m2

/-- Claim C14 (mirror invariant): after `state_init` and any sequence of mutator
calls (Compose with any matrix, push, pop, move of an index below `MAX_POINTS`,
which covers every valid index, recompute-selection, resize) every call returns
and the uniform buffer mirrors the state: it has 384 bytes; its transform at
offset 0 is the transform of the state; its window size at offset 48 is that of
the last resize, or 640x480 if there was none; `selected` at offset 56 and the
count at offset 60 are those of the state; and the floats of the points
`0 .. count-1` at offset 64 are those of the state. -/
theorem C14_buffer_mirrors_state (ms : List Mutator) (hm : ∀ m ∈ ms, m.in_array) :
    ∃ s, run_mutators state_init ms = some s ∧
      s.ubo.size = 384 ∧
      (∀ k : Fin 12,
        s.ubo.mem (word TRANSFORM_MATRIX_OFFSET + k) = Cell.f32 (s.transform_mat k)) ∧
      s.ubo.mem (word WINDOW_SIZE_OFFSET) =
        Cell.f32 (window_size_after (640, 480) ms).1 ∧
      s.ubo.mem (word WINDOW_SIZE_OFFSET + 1) =
        Cell.f32 (window_size_after (640, 480) ms).2 ∧
      s.ubo.mem (word SELECTED_POINT_OFFSET) = Cell.i32 s.selected_point ∧
      s.ubo.mem (word POINTS_COUNT_OFFSET) = Cell.i32 s.points_count ∧
      (∀ k : Fin 80, ((k : Nat) : Int) < 4 * s.points_count →
        s.ubo.mem (word POINTS_ARRAY_OFFSET + k) = Cell.f32 (s.points k)) := by
  have h0 : state_init.mirrored (640, 480) := by
    have h := mirrored_init
    norm_num [DEFAULT_WINDOW_WIDTH, DEFAULT_WINDOW_HEIGHT] at h
    exact h
  obtain ⟨s, e, -, m⟩ := mirrored_run ms state_init (640, 480) hm valid_state_init h0
  exact ⟨s, e, m⟩

/-- Witness of C14: a push, a move of point 0, a resize and a pop. -/
theorem C14_buffer_mirrors_state_witness :
    (∀ m ∈ [Mutator.push, Mutator.move 0 3 4, Mutator.resize 800 600, Mutator.pop],
      m.in_array) ∧
    ∃ s, run_mutators state_init
        [Mutator.push, Mutator.move 0 3 4, Mutator.resize 800 600, Mutator.pop] = some s ∧
      s.ubo.size = 384 ∧
      s.ubo.mem (word SELECTED_POINT_OFFSET) = Cell.i32 s.selected_point ∧
      s.ubo.mem (word POINTS_COUNT_OFFSET) = Cell.i32 s.points_count :=
  have hm : ∀ m ∈ [Mutator.push, Mutator.move 0 3 4, Mutator.resize 800 600, Mutator.pop],
      m.in_array := by
    intro m h
    simp only [List.mem_cons, List.mem_singleton, List.not_mem_nil, or_false] at h
    rcases h with h | h | h | h <;> subst h <;> simp [Mutator.in_array, MAX_POINTS]
  have ⟨s, e, hsz, _, _, _, hsel, hcnt, _⟩ := C14_buffer_mirrors_state _ hm
  ⟨hm, s, e, hsz, hsel, hcnt⟩

/-! ## Dragging and panning -/

lemma points_arr_at_cast (u : SharedState) (k : Nat) (h : k < 20) :
    points_arr_at u (k : Int) = Except.ok (u.points_arr ⟨k, h⟩) := by
  unfold points_arr_at
  rw [dif_pos ⟨by omega, by omega⟩]
  simp

/-- The squared length the shader computes is the squared distance. -/
lemma dot_sub_self (p q : ℚ × ℚ) : dot (p - q) (p - q) = dist_sq p q := by
  simp only [dot, dist_sq, Prod.fst_sub, Prod.snd_sub]
  ring

/-- The overlay loop returns at the first index of its range whose anchor is
within the radius, and runs to its end when there is none. -/
lemma overlay_loop_first (u : SharedState) (fc : ℚ × ℚ) (radius_sq : ℚ)
    (n i : Nat) (h : i + n ≤ 20) :
    ∃ r, overlay_loop u fc radius_sq n (i : Int) = Except.ok r ∧
      ((r = none ∧ ∀ j : Fin 20, i ≤ j.val → j.val < i + n →
          ¬ dist_sq fc (u.points_arr j) ≤ radius_sq) ∨
       (∃ k : Fin 20, r = some (k.val : Int) ∧ i ≤ k.val ∧ k.val < i + n ∧
          dist_sq fc (u.points_arr k) ≤ radius_sq ∧
          ∀ j : Fin 20, i ≤ j.val → j.val < k.val →
            ¬ dist_sq fc (u.points_arr j) ≤ radius_sq)) := by
  induction n generalizing i with
  | zero =>
    refine ⟨none, rfl, Or.inl ⟨rfl, ?_⟩⟩
    intro j h1 h2
    omega
  | succ n ih =>
    have hi : i < 20 := by omega
    have e2 : ((i : Int) + 1) = ((i + 1 : Nat) : Int) := by push_cast; ring
    unfold overlay_loop
    rw [points_arr_at_cast u i hi]
    simp only [bind, Except.bind, dot_sub_self]
    by_cases hit : dist_sq fc (u.points_arr ⟨i, hi⟩) ≤ radius_sq
    · rw [if_pos hit]
      refine ⟨some (i : Int), rfl, Or.inr ⟨⟨i, hi⟩, rfl, le_refl _, by simp only; omega, hit, ?_⟩⟩
      intro j h1 h2
      simp only at h2
      omega
    · rw [if_neg hit, e2]
      obtain ⟨r, er, hr⟩ := ih (i + 1) (by omega)
      refine ⟨r, er, ?_⟩
      have first : ∀ j : Fin 20, i ≤ j.val → j.val < i + 1 →
          ¬ dist_sq fc (u.points_arr j) ≤ radius_sq := by
        intro j h1 h2
        have hj : j = ⟨i, hi⟩ := Fin.ext (by simp only; omega)
        rw [hj]
        exact hit
      rcases hr with ⟨hr, hall⟩ | ⟨k, hk, hk1, hk2, hk3, hall⟩
      · refine Or.inl ⟨hr, ?_⟩
        intro j h1 h2
        by_cases hj : j.val < i + 1
        · exact first j h1 hj
        · exact hall j (by omega) (by omega)
      · refine Or.inr ⟨k, hk, by omega, by omega, hk3, ?_⟩
        intro j h1 h2
        by_cases hj : j.val < i + 1
        · exact first j h1 hj
        · exact hall j (by omega) h2

lemma frag_radius_sq_nonneg (u : SharedState) : 0 ≤ frag_radius_sq u := by
  unfold frag_radius_sq
  have h : (0 : ℚ) ≤ ((POINT_RADIUS * POINT_RADIUS : Int) : ℚ) := by
    norm_num [POINT_RADIUS]
  exact mul_nonneg h (abs_nonneg _)

/-- When the overlay loop returns at index `k`, the shader emits the marker
colour of `k`. -/
lemma frag_main_of_overlay (u : SharedState) (fc : ℚ × ℚ) (k : Int)
    (h : overlay_loop u (frag_coord_of u fc) (frag_radius_sq u) u.points_count.toNat 0 =
      Except.ok (some k)) :
    frag_main u fc = Except.ok (marker_color u k) := by
  unfold frag_main
  simp only [h, bind, Except.bind]

/-- A marker colour is grey or white, and neither a root colour nor black. -/
lemma marker_color_cases (u : SharedState) (k : Int) :
    (marker_color u k = (4 / 5, 4 / 5, 4 / 5, 1) ∨ marker_color u k = (1, 1, 1, 1)) ∧
    (∀ j : Int, marker_color u k ≠ root_color u j) ∧
    marker_color u k ≠ (0, 0, 0, 1) := by
  unfold marker_color root_color
  split_ifs
  · refine ⟨Or.inl rfl, ?_, ?_⟩
    · intro j h
      have h1 := congrArg Prod.fst h
      norm_num at h1
    · intro h
      have h1 := congrArg Prod.fst h
      norm_num at h1
  · refine ⟨Or.inr rfl, ?_, ?_⟩
    · intro j h
      have h1 := congrArg Prod.fst h
      norm_num at h1
    · intro h
      have h1 := congrArg Prod.fst h
      norm_num at h1

/-- A pixel that maps onto anchor `a` leaves the shader in the overlay loop, at
the lowest index within the radius. -/
lemma overlay_at_anchor (u : SharedState) (fc : ℚ × ℚ) (a : Fin 20)
    (hc : u.points_count ≤ 20) (ha : (a.val : Int) < u.points_count)
    (hp : frag_coord_of u fc = u.points_arr a) :
    ∃ k : Fin 20, k ≤ a ∧
      overlay_loop u (frag_coord_of u fc) (frag_radius_sq u) u.points_count.toNat 0 =
        Except.ok (some (k.val : Int)) ∧
      dist_sq (frag_coord_of u fc) (u.points_arr k) ≤ frag_radius_sq u ∧
      (∀ j : Fin 20, j < k →
        ¬ dist_sq (frag_coord_of u fc) (u.points_arr j) ≤ frag_radius_sq u) := by
  obtain ⟨r, er, hr⟩ := overlay_loop_first u (frag_coord_of u fc) (frag_radius_sq u)
    u.points_count.toNat 0 (by omega)
  simp only [Nat.cast_zero] at er
  have hit : dist_sq (frag_coord_of u fc) (u.points_arr a) ≤ frag_radius_sq u := by
    rw [hp]
    simp only [dist_sq, sub_self, ne_eq, OfNat.ofNat_ne_zero, not_false_eq_true, zero_pow,
      add_zero]
    exact frag_radius_sq_nonneg u
  rcases hr with ⟨-, hall⟩ | ⟨k, hk, -, -, hk3, hall⟩
  · exact absurd hit (hall a (Nat.zero_le _) (by omega))
  · refine ⟨k, ?_, by rw [er, hk], hk3, fun j hj => hall j (Nat.zero_le _) hj⟩
    by_contra hlt
    exact hall a (Nat.zero_le _) (not_le.mp hlt) hit

/-- The pixel `(270, 240)` of the block `anchors_block` maps to `(-50, 0)`. -/
lemma anchors_block_frag_coord (sel : Int) :
    frag_coord_of (anchors_block sel) (270, 240) = (-50, 0) := by
  simp only [frag_coord_of, anchors_block, Matrix.one_mulVec, Matrix.cons_val_zero,
    Matrix.cons_val_one, Matrix.head_cons, Prod.mk.injEq]
  constructor <;> norm_num

/-- Claim C16: for every transform, window size and point set with at most
`MAX_POINTS` points, a pixel whose mapped coordinate is the position of anchor
`a` leaves the shader in the overlay loop, at the lowest index `k ≤ a` within
the radius; the colour is grey `(0.8,0.8,0.8,1)` if `k` is the selected index and
white `(1,1,1,1)` otherwise, never a root colour or black.  With the identity
transform, window 640x480 and the anchors `(-50,0)`, `(50,0)`, the pixel
mapping to `(-50,0)` gets the marker colour of index 0. -/
theorem C16_anchor_pixel_gets_marker (u : SharedState) (fc : ℚ × ℚ) (a : Fin 20)
    (hc : u.points_count ≤ MAX_POINTS) (ha : (a.val : Int) < u.points_count)
    (hp : frag_coord_of u fc = u.points_arr a) :
    (∃ k : Fin 20, k ≤ a ∧
      dist_sq (frag_coord_of u fc) (u.points_arr k) ≤ frag_radius_sq u ∧
      (∀ j : Fin 20, j < k →
        ¬ dist_sq (frag_coord_of u fc) (u.points_arr j) ≤ frag_radius_sq u) ∧
      frag_main u fc =
        Except.ok (if (k.val : Int) = u.selected_point then (4 / 5, 4 / 5, 4 / 5, 1)
          else (1, 1, 1, 1)) ∧
      (∀ j : Int, frag_main u fc ≠ Except.ok (root_color u j)) ∧
      frag_main u fc ≠ Except.ok (0, 0, 0, 1)) ∧
    (∀ sel : Int,
      frag_coord_of (anchors_block sel) (270, 240) = (-50, 0) ∧
      frag_main (anchors_block sel) (270, 240) =
        Except.ok (if 0 = sel then (4 / 5, 4 / 5, 4 / 5, 1) else (1, 1, 1, 1))) := by
  constructor
  · obtain ⟨k, hka, e, hk, hall⟩ := overlay_at_anchor u fc a hc ha hp
    have hm := frag_main_of_overlay u fc _ e
    obtain ⟨-, hroot, hblack⟩ := marker_color_cases u (k.val : Int)
    refine ⟨k, hka, hk, hall, hm, ?_, ?_⟩
    · intro j hj
      rw [hm] at hj
      exact hroot j (Except.ok.inj hj)
    · intro hj
      rw [hm] at hj
      exact hblack (Except.ok.inj hj)
  · intro sel
    refine ⟨anchors_block_frag_coord sel, ?_⟩
    have hcnt : (anchors_block sel).points_count = 2 := rfl
    obtain ⟨k, hka, e, -, -⟩ := overlay_at_anchor (anchors_block sel) (270, 240) 0
      (by rw [hcnt]; decide) (by rw [hcnt]; decide) (by rw [anchors_block_frag_coord]; rfl)
    have hk0 : k = 0 := le_antisymm hka (Fin.zero_le k)
    rw [hk0] at e
    exact frag_main_of_overlay _ _ _ e

/-- Witness of C16: the anchors `(-50,0)`, `(50,0)`, the first one selected, and
the pixel `(270, 240)`. -/
theorem C16_anchor_pixel_gets_marker_witness :
    (anchors_block 0).points_count ≤ MAX_POINTS ∧
    ((0 : Fin 20).val : Int) < (anchors_block 0).points_count ∧
    frag_coord_of (anchors_block 0) (270, 240) = (anchors_block 0).points_arr 0 ∧
    frag_main (anchors_block 0) (270, 240) = Except.ok (4 / 5, 4 / 5, 4 / 5, 1) :=
  have hp : frag_coord_of (anchors_block 0) (270, 240) = (anchors_block 0).points_arr 0 := by
    rw [anchors_block_frag_coord]; rfl
  ⟨by decide, by decide, hp,
    ((C16_anchor_pixel_gets_marker (anchors_block 0) (270, 240) 0 (by decide) (by decide)
      hp).2 0).2⟩

/-! ## The fragment shader: convergence iteration -/

lemma EPSILON_SQ_pos : 0 < EPSILON_SQ := by
  norm_num [EPSILON_SQ]

lemma vec2_div_ok (site : Fault) (v : ℚ × ℚ) (d : ℚ) (hd : d ≠ 0) :
    vec2_div site v d = Except.ok (v.1 / d, v.2 / d) := by
  unfold vec2_div
  rw [if_neg hd]

/-- If some anchor of the range is within `EPSILON` of `p`, the inner loop
returns at the first such anchor. -/
lemma reciprocal_loop_first (u : SharedState) (p : ℚ × ℚ) (n i : Nat) (acc : ℚ × ℚ)
    (h : i + n ≤ 20) (j : Fin 20) (hj1 : i ≤ j.val) (hj2 : j.val < i + n)
    (hw : dist_sq p (u.points_arr j) ≤ EPSILON_SQ) :
    ∃ k : Fin 20, i ≤ k.val ∧ k ≤ j ∧
      reciprocal_loop u p n (i : Int) acc = Except.ok (Sum.inl (k.val : Int)) ∧
      dist_sq p (u.points_arr k) ≤ EPSILON_SQ ∧
      ∀ m : Fin 20, i ≤ m.val → m < k → ¬ dist_sq p (u.points_arr m) ≤ EPSILON_SQ := by
  induction n generalizing i acc with
  | zero => omega
  | succ n ih =>
    have hi : i < 20 := by omega
    have e2 : ((i : Int) + 1) = ((i + 1 : Nat) : Int) := by push_cast; ring
    unfold reciprocal_loop
    rw [points_arr_at_cast u i hi]
    simp only [bind, Except.bind, dot_sub_self]
    by_cases hit : dist_sq p (u.points_arr ⟨i, hi⟩) ≤ EPSILON_SQ
    · rw [if_pos hit]
      refine ⟨⟨i, hi⟩, le_refl _, hj1, rfl, hit, ?_⟩
      intro m h1 h2
      have h3 : m.val < i := h2
      omega
    · rw [if_neg hit]
      have hne : dist_sq p (u.points_arr ⟨i, hi⟩) ≠ 0 :=
        ne_of_gt (lt_trans EPSILON_SQ_pos (not_le.mp hit))
      rw [vec2_div_ok _ _ _ hne]
      simp only [e2]
      have hji : j.val ≠ i := by
        intro hji
        have : j = ⟨i, hi⟩ := Fin.ext hji
        rw [this] at hw
        exact hit hw
      obtain ⟨k, hk1, hk2, e, hk3, hall⟩ := ih (i + 1) _ (by omega) (by omega) (by omega)
      refine ⟨k, by omega, hk2, e, hk3, ?_⟩
      intro m h1 h2
      by_cases hm : m.val = i
      · have : m = ⟨i, hi⟩ := Fin.ext hm
        rw [this]
        exact hit
      · exact hall m (by omega) h2

/-- A start within `EPSILON` of anchor `j` ends the convergence iteration in its
first round, at the first anchor within `EPSILON`, whatever the number of rounds
left. -/
lemma newton_loop_first_round (u : SharedState) (p : ℚ × ℚ) (j : Fin 20)
    (hc : u.points_count ≤ 20) (hj : (j.val : Int) < u.points_count)
    (hw : dist_sq p (u.points_arr j) ≤ EPSILON_SQ) :
    ∃ k : Fin 20, k ≤ j ∧ dist_sq p (u.points_arr k) ≤ EPSILON_SQ ∧
      (∀ m : Fin 20, m < k → ¬ dist_sq p (u.points_arr m) ≤ EPSILON_SQ) ∧
      reciprocal_loop u p u.points_count.toNat 0 (0, 0) =
        Except.ok (Sum.inl (k.val : Int)) ∧
      ∀ n : Nat, newton_loop u (n + 1) p = Except.ok (root_color u (k.val : Int)) := by
  obtain ⟨k, -, hk2, e, hk3, hall⟩ := reciprocal_loop_first u p u.points_count.toNat 0 (0, 0)
    (by omega) j (Nat.zero_le _) (by omega) hw
  simp only [Nat.cast_zero] at e
  refine ⟨k, hk2, hk3, fun m hm => hall m (Nat.zero_le _) hm, e, ?_⟩
  intro n
  unfold newton_loop
  simp only [e, bind, Except.bind]

/-- Claim C15, as stated, fails: with two anchors at the origin, the start
`(0,0)` is within `EPSILON` of anchor 1, and the iteration emits the root colour
of anchor 0, `(0,0,1/2,1)`, which is not that of anchor 1, `(0,0,1,1)`. -/
theorem C15_lower_index_root_color :
    (1 : Int) < two_points_block.points_count ∧
    dist_sq (0, 0) (two_points_block.points_arr 1) ≤ EPSILON_SQ ∧
    newton_loop two_points_block MAX_ITERS (0, 0) = Except.ok (0, 0, 1 / 2, 1) ∧
    root_color two_points_block 1 = (0, 0, 1, 1) ∧
    ((0, 0, 1 / 2, 1) : ℚ × ℚ × ℚ × ℚ) ≠ (0, 0, 1, 1) := by
  have hw : dist_sq (0, 0) (two_points_block.points_arr 0) ≤ EPSILON_SQ := by
    norm_num [dist_sq, two_points_block, EPSILON_SQ]
  obtain ⟨k, hk, -, -, -, h⟩ := newton_loop_first_round two_points_block (0, 0) 0
    (by decide) (by decide) hw
  have hk0 : k = 0 := le_antisymm hk (Fin.zero_le k)
  refine ⟨by decide, ?_, ?_, ?_, ?_⟩
  · norm_num [dist_sq, two_points_block, EPSILON_SQ]
  · have h99 := h 99
    rw [hk0] at h99
    rw [show MAX_ITERS = 99 + 1 from rfl, h99]
    norm_num [root_color, two_points_block]
  · norm_num [root_color, two_points_block]
  · intro h1
    have h2 := congrArg (fun c : ℚ × ℚ × ℚ × ℚ => c.2.2.1) h1
    norm_num at h2

/-- Claim C15, amended: for every point set of at most `MAX_POINTS` anchors and
every start `p` within `EPSILON` of anchor `j`, the convergence iteration
returns in its first round, before any Newton update, at the lowest index
`k ≤ j` whose anchor is within `EPSILON` of `p`, and emits
`(0,0,(k+1)/count,1)`; `k` is `j` when no anchor before `j` is within `EPSILON`
of `p`. -/
theorem C15_converges_in_first_round (u : SharedState) (p : ℚ × ℚ) (j : Fin 20)
    (hc : u.points_count ≤ MAX_POINTS) (hj : (j.val : Int) < u.points_count)
    (hw : dist_sq p (u.points_arr j) ≤ EPSILON_SQ) :
    ∃ k : Fin 20, k ≤ j ∧ dist_sq p (u.points_arr k) ≤ EPSILON_SQ ∧
      (∀ m : Fin 20, m < k → ¬ dist_sq p (u.points_arr m) ≤ EPSILON_SQ) ∧
      reciprocal_loop u p u.points_count.toNat 0 (0, 0) =
        Except.ok (Sum.inl (k.val : Int)) ∧
      (∀ n : Nat, newton_loop u (n + 1) p =
        Except.ok (0, 0, ((k.val : Int) + 1 : ℚ) / (u.points_count : ℚ), 1)) ∧
      newton_loop u MAX_ITERS p =
        Except.ok (0, 0, ((k.val : Int) + 1 : ℚ) / (u.points_count : ℚ), 1) ∧
      ((∀ m : Fin 20, m < j → ¬ dist_sq p (u.points_arr m) ≤ EPSILON_SQ) → k = j) := by
  obtain ⟨k, hk, hk3, hall, e, h⟩ := newton_loop_first_round u p j hc hj hw
  refine ⟨k, hk, hk3, hall, e, h, h 99, ?_⟩
  intro hfirst
  rcases lt_or_eq_of_le hk with hlt | heq
  · exact absurd hk3 (hfirst k hlt)
  · exact heq

/-- Witness of C15 (amended): two anchors at the origin and the start `(0,0)`,
taken as a start within `EPSILON` of anchor 1. -/
theorem C15_converges_in_first_round_witness :
    two_points_block.points_count ≤ MAX_POINTS ∧
    ((1 : Fin 20).val : Int) < two_points_block.points_count ∧
    dist_sq (0, 0) (two_points_block.points_arr 1) ≤ EPSILON_SQ ∧
    ∃ k : Fin 20, k ≤ 1 ∧
      newton_loop two_points_block MAX_ITERS (0, 0) =
        Except.ok (0, 0, ((k.val : Int) + 1 : ℚ) / (two_points_block.points_count : ℚ), 1) :=
  have hw : dist_sq (0, 0) (two_points_block.points_arr 1) ≤ EPSILON_SQ := by
    norm_num [dist_sq, two_points_block, EPSILON_SQ]
  have ⟨k, hk, _, _, _, _, h, _⟩ :=
    C15_converges_in_first_round two_points_block (0, 0) 1 (by decide) (by decide) hw
  ⟨by decide, by decide, hw, k, hk, h⟩

/-- An array read yields an element or the out-of-range fault. -/
lemma points_arr_at_cases (u : SharedState) (j : Int) :
    (∃ q, points_arr_at u j = Except.ok q) ∨
      points_arr_at u j = Except.error Fault.index_out_of_range := by
  unfold points_arr_at
  by_cases hb : 0 ≤ j ∧ j < 20
  · rw [dif_pos hb]
    exact Or.inl ⟨_, rfl⟩
  · rw [dif_neg hb]
    exact Or.inr rfl

/-- One round of the inner loop after a successful array read. -/
lemma reciprocal_loop_step (u : SharedState) (p : ℚ × ℚ) (n : Nat) (j : Int) (acc q : ℚ × ℚ)
    (hq : points_arr_at u j = Except.ok q) :
    reciprocal_loop u p (n + 1) j acc =
      if dot (p - q) (p - q) ≤ EPSILON_SQ then Except.ok (Sum.inl j)
      else reciprocal_loop u p n (j + 1)
        (acc + ((p - q).1 / dot (p - q) (p - q), (p - q).2 / dot (p - q) (p - q))) := by
  rw [reciprocal_loop, hq]
  simp only [bind, Except.bind]
  by_cases hit : dot (p - q) (p - q) ≤ EPSILON_SQ
  · rw [if_pos hit, if_pos hit]
  · rw [if_neg hit, if_neg hit,
      vec2_div_ok _ _ _ (ne_of_gt (lt_trans EPSILON_SQ_pos (not_le.mp hit)))]

lemma reciprocal_loop_fault (u : SharedState) (p : ℚ × ℚ) (n : Nat) (j : Int) (acc : ℚ × ℚ)
    (e : Fault) (h : reciprocal_loop u p n j acc = Except.error e) :
    e = Fault.index_out_of_range := by
  induction n generalizing j acc with
  | zero => simp [reciprocal_loop] at h
  | succ n ih =>
    rcases points_arr_at_cases u j with ⟨q, hq⟩ | hq
    · rw [reciprocal_loop_step u p n j acc q hq] at h
      by_cases hit : dot (p - q) (p - q) ≤ EPSILON_SQ
      · rw [if_pos hit] at h
        exact absurd h (by simp)
      · rw [if_neg hit] at h
        exact ih _ _ h
    · unfold reciprocal_loop at h
      rw [hq] at h
      simp only [bind, Except.bind] at h
      exact (Except.error.inj h).symm

/-- One round of the convergence iteration, by the result of its inner loop. -/
lemma newton_loop_step (u : SharedState) (n : Nat) (p : ℚ × ℚ) :
    newton_loop u (n + 1) p =
      match reciprocal_loop u p u.points_count.toNat 0 (0, 0) with
      | Except.error e => Except.error e
      | Except.ok (Sum.inl j) => Except.ok (root_color u j)
      | Except.ok (Sum.inr sum) =>
          if dot sum sum = 0 then Except.error Fault.div_zero_reciprocal_sum
          else newton_loop u n (p - (sum.1 / dot sum sum, sum.2 / dot sum sum)) := by
  rw [newton_loop]
  cases reciprocal_loop u p u.points_count.toNat 0 (0, 0) with
  | error e => rfl
  | ok r =>
    cases r with
    | inl j => rfl
    | inr sum =>
      simp only [bind, Except.bind, vec2_div]
      split_ifs <;> rfl

/-- The convergence iteration never divides by a zero squared length. -/
lemma newton_loop_no_length_fault (u : SharedState) (n : Nat) (p : ℚ × ℚ) :
    newton_loop u n p ≠ Except.error Fault.div_zero_length_sq := by
  induction n generalizing p with
  | zero =>
    intro h
    simp [newton_loop] at h
  | succ n ih =>
    rw [newton_loop_step]
    cases hrec : reciprocal_loop u p u.points_count.toNat 0 (0, 0) with
    | error e =>
      have he := reciprocal_loop_fault u p _ _ _ e hrec
      rw [he]
      simp
    | ok r =>
      cases r with
      | inl j => simp
      | inr sum =>
        simp only
        split_ifs
        · simp
        · exact ih _

/-- The overlay loop fails only on an index outside the array. -/
lemma overlay_loop_fault (u : SharedState) (fc : ℚ × ℚ) (radius_sq : ℚ) (n : Nat) (i : Int)
    (e : Fault) (h : overlay_loop u fc radius_sq n i = Except.error e) :
    e = Fault.index_out_of_range := by
  induction n generalizing i with
  | zero => simp [overlay_loop] at h
  | succ n ih =>
    unfold overlay_loop at h
    rcases points_arr_at_cases u i with ⟨q, hq⟩ | hq
    · rw [hq] at h
      simp only [bind, Except.bind] at h
      by_cases hit : dot (fc - q) (fc - q) ≤ radius_sq
      · rw [if_pos hit] at h
        exact absurd h (by simp)
      · rw [if_neg hit] at h
        exact ih _ h
    · rw [hq] at h
      simp only [bind, Except.bind] at h
      exact (Except.error.inj h).symm

/-- The shader, by the result of its overlay loop. -/
lemma frag_main_eq (u : SharedState) (fc : ℚ × ℚ) :
    frag_main u fc =
      match overlay_loop u (frag_coord_of u fc) (frag_radius_sq u) u.points_count.toNat 0 with
      | Except.error e => Except.error e
      | Except.ok (some i) => Except.ok (marker_color u i)
      | Except.ok none => newton_loop u MAX_ITERS (frag_coord_of u fc) := by
  unfold frag_main
  simp only [bind, Except.bind]
  cases overlay_loop u (frag_coord_of u fc) (frag_radius_sq u) u.points_count.toNat 0 with
  | error e => rfl
  | ok r =>
    cases r with
    | some i => rfl
    | none => rfl

/-- The shader never divides by a zero squared length. -/
lemma frag_main_no_length_fault (u : SharedState) (fc : ℚ × ℚ) :
    frag_main u fc ≠ Except.error Fault.div_zero_length_sq := by
  rw [frag_main_eq]
  cases hov : overlay_loop u (frag_coord_of u fc) (frag_radius_sq u) u.points_count.toNat 0 with
  | error e =>
    have he := overlay_loop_fault u _ _ _ _ e hov
    rw [he]
    simp
  | ok r =>
    cases r with
    | some i => simp
    | none => exact newton_loop_no_length_fault u _ _

/-- The pixel `(320, 240)` of the block `anchors_block` maps to `(0, 0)`. -/
lemma anchors_block_centre (sel : Int) :
    frag_coord_of (anchors_block sel) (320, 240) = (0, 0) := by
  simp only [frag_coord_of, anchors_block, Matrix.one_mulVec, Matrix.cons_val_zero,
    Matrix.cons_val_one, Matrix.head_cons, Prod.mk.injEq]
  constructor <;> norm_num

lemma anchors_block_radius_sq (sel : Int) : frag_radius_sq (anchors_block sel) = 400 := by
  norm_num [frag_radius_sq, anchors_block, POINT_RADIUS]

/-- In the block `anchors_block` the overlay loop at `(0,0)` runs to its end. -/
lemma anchors_block_overlay (sel : Int) :
    overlay_loop (anchors_block sel) (0, 0) (frag_radius_sq (anchors_block sel))
      (anchors_block sel).points_count.toNat 0 = Except.ok none := by
  rw [anchors_block_radius_sq]
  norm_num [anchors_block, overlay_loop, points_arr_at, dot, bind, Except.bind]

/-- In the block `anchors_block` the reciprocal sum at `(0,0)` is `(0,0)`. -/
lemma anchors_block_reciprocal (sel : Int) :
    reciprocal_loop (anchors_block sel) (0, 0) (anchors_block sel).points_count.toNat 0
      (0, 0) = Except.ok (Sum.inr (0, 0)) := by
  have hn : (anchors_block sel).points_count.toNat = 1 + 1 := rfl
  have h0 : points_arr_at (anchors_block sel) 0 = Except.ok (-50, 0) :=
    points_arr_at_cast (anchors_block sel) 0 (by omega)
  have h1 : points_arr_at (anchors_block sel) (0 + 1) = Except.ok (50, 0) :=
    points_arr_at_cast (anchors_block sel) 1 (by omega)
  have d0 : dot (((0, 0) : ℚ × ℚ) - (-50, 0)) ((0, 0) - (-50, 0)) = 2500 := by
    norm_num [dot]
  have d1 : dot (((0, 0) : ℚ × ℚ) - (50, 0)) ((0, 0) - (50, 0)) = 2500 := by
    norm_num [dot]
  rw [hn, reciprocal_loop_step _ _ _ _ _ _ h0, d0, if_neg (by norm_num [EPSILON_SQ]),
    reciprocal_loop_step _ _ _ _ _ _ h1, d1, if_neg (by norm_num [EPSILON_SQ]),
    reciprocal_loop]
  norm_num

/-- In the block `anchors_block` the first Newton update at `(0,0)` divides by
zero. -/
lemma anchors_block_newton (sel : Int) :
    newton_loop (anchors_block sel) MAX_ITERS (0, 0) =
      Except.error Fault.div_zero_reciprocal_sum := by
  rw [show MAX_ITERS = 99 + 1 from rfl, newton_loop_step, anchors_block_reciprocal]
  simp [dot]

/-- In the block `anchors_block` no anchor is within `EPSILON` of `(0,0)`. -/
lemma anchors_block_far (sel : Int) (j : Fin 20)
    (hj : (j.val : Int) < (anchors_block sel).points_count) :
    ¬ dist_sq (0, 0) ((anchors_block sel).points_arr j) ≤ EPSILON_SQ := by
  have hj2 : (j.val : Int) < 2 := hj
  have hj3 : j = 0 ∨ j = 1 := by
    rcases j with ⟨v, hv⟩
    have : v = 0 ∨ v = 1 := by
      simp only at hj2
      omega
    rcases this with h | h
    · exact Or.inl (Fin.ext h)
    · exact Or.inr (Fin.ext h)
  rcases hj3 with h | h <;> subst h <;>
    norm_num [dist_sq, anchors_block, EPSILON_SQ]

/-- Claim C20: with the identity transform, the anchors `(-50,0)` and `(50,0)`
(count 2) and the pixel mapping to `(0,0)`, the overlay loop runs to its end,
no anchor is within `EPSILON` of the pixel, the reciprocal sum of the first
round is exactly `(0,0)`, and the Newton update divides by `|s|² = 0` in the
first round.  By contrast no evaluation of the shader divides by a squared
length `|p - point_j|²` that is zero: that division is only reached with a
squared length above `EPSILON² > 0`. -/
theorem C20_newton_update_divides_by_zero :
    (∀ sel : Int,
      2 ≤ (anchors_block sel).points_count ∧
      frag_coord_of (anchors_block sel) (320, 240) = (0, 0) ∧
      overlay_loop (anchors_block sel) (0, 0) (frag_radius_sq (anchors_block sel))
        (anchors_block sel).points_count.toNat 0 = Except.ok none ∧
      (∀ j : Fin 20, (j.val : Int) < (anchors_block sel).points_count →
        ¬ dist_sq (0, 0) ((anchors_block sel).points_arr j) ≤ EPSILON_SQ) ∧
      reciprocal_loop (anchors_block sel) (0, 0) (anchors_block sel).points_count.toNat 0
        (0, 0) = Except.ok (Sum.inr (0, 0)) ∧
      dot ((0, 0) : ℚ × ℚ) (0, 0) = 0 ∧
      newton_loop (anchors_block sel) MAX_ITERS (0, 0) =
        Except.error Fault.div_zero_reciprocal_sum ∧
      frag_main (anchors_block sel) (320, 240) =
        Except.error Fault.div_zero_reciprocal_sum) ∧
    0 < EPSILON_SQ ∧
    (∀ (u : SharedState) (p : ℚ × ℚ) (j : Fin 20),
      ¬ dot (p - u.points_arr j) (p - u.points_arr j) ≤ EPSILON_SQ →
        EPSILON_SQ < dot (p - u.points_arr j) (p - u.points_arr j) ∧
        vec2_div Fault.div_zero_length_sq (p - u.points_arr j)
            (dot (p - u.points_arr j) (p - u.points_arr j)) ≠
          Except.error Fault.div_zero_length_sq) ∧
    (∀ (u : SharedState) (fc : ℚ × ℚ),
      frag_main u fc ≠ Except.error Fault.div_zero_length_sq) := by
  refine ⟨?_, EPSILON_SQ_pos, ?_, frag_main_no_length_fault⟩
  · intro sel
    refine ⟨le_refl _, anchors_block_centre sel, anchors_block_overlay sel,
      anchors_block_far sel, anchors_block_reciprocal sel, by norm_num [dot],
      anchors_block_newton sel, ?_⟩
    rw [frag_main_eq, anchors_block_centre, anchors_block_overlay]
    exact anchors_block_newton sel
  · intro u p j hlt
    have hgt := not_le.mp hlt
    exact ⟨hgt, by rw [vec2_div_ok _ _ _ (ne_of_gt (lt_trans EPSILON_SQ_pos hgt))]; simp⟩

/-! ## The overlay of the shader and the selection -/

lemma dist_sq_comm (p q : ℚ × ℚ) : dist_sq p q = dist_sq q p := by
  unfold dist_sq
  ring

/-- The decoded block is one the shader can read. -/
lemma reads_block (b : GLBuffer) : b.reads b.block := by
  refine ⟨?_, ?_, ?_, ?_, ?_, ?_, ?_⟩
  · intro r c v h
    show (b.mem _).float = v
    rw [h]
    rfl
  · intro v h
    show (b.mem _).float = v
    rw [h]
    rfl
  · intro v h
    show (b.mem _).float = v
    rw [h]
    rfl
  · intro v h
    show (b.mem _).int = v
    rw [h]
    rfl
  · intro v h
    show (b.mem _).int = v
    rw [h]
    rfl
  · intro i v h
    show (b.mem _).float = v
    rw [h]
    rfl
  · intro i v h
    show (b.mem _).float = v
    rw [h]
    rfl

/-- What the shader reads from a buffer that mirrors the state. -/
lemma reads_of_mirrored (s : State) (d : ℚ × ℚ) (u : SharedState)
    (hm : s.mirrored d) (hr : s.ubo.reads u) :
    u.transform_mat = toMatrix s.transform_mat ∧ u.window_size = d ∧
    u.selected_point = s.selected_point ∧ u.points_count = s.points_count ∧
    ∀ i : Fin 20, (i.val : Int) < s.points_count → u.points_arr i = s.point i := by
  obtain ⟨-, ht, hw1, hw2, hsel, hcnt, hpts⟩ := hm
  obtain ⟨rt, rw1, rw2, rsel, rcnt, rp1, rp2⟩ := hr
  refine ⟨?_, ?_, rsel _ hsel, rcnt _ hcnt, ?_⟩
  · ext r c
    fin_cases r <;> fin_cases c
    · exact rt 0 0 _ (ht 0)
    · exact rt 0 1 _ (ht 4)
    · exact rt 0 2 _ (ht 8)
    · exact rt 1 0 _ (ht 1)
    · exact rt 1 1 _ (ht 5)
    · exact rt 1 2 _ (ht 9)
    · exact rt 2 0 _ (ht 2)
    · exact rt 2 1 _ (ht 6)
    · exact rt 2 2 _ (ht 10)
  · exact Prod.ext (rw1 _ hw1) (rw2 _ hw2)
  · intro i hi
    have hi2 := i.isLt
    have h1 := hpts ⟨4 * i.val, by omega⟩ (by simp only; omega)
    have h2 := hpts ⟨4 * i.val + 1, by omega⟩ (by simp only; omega)
    have h3 : s.ubo.mem (word POINTS_ARRAY_OFFSET + 4 * i.val + 1) =
        Cell.f32 (s.points ⟨4 * i.val + 1, by omega⟩) := by
      rw [Nat.add_assoc]
      exact h2
    exact Prod.ext (rp1 i _ h1) (rp2 i _ h3)

/-- The determinant of the matrix of a transform, written out. -/
lemma toMatrix_det (t : Fin 12 → ℚ) :
    Matrix.det (toMatrix t) =
      t 0 * t 5 * t 10 + t 4 * t 9 * t 2 + t 8 * t 1 * t 6 -
        t 8 * t 5 * t 2 - t 4 * t 1 * t 10 - t 0 * t 9 * t 6 := by
  have e00 : toMatrix t 0 0 = t 0 := rfl
  have e01 : toMatrix t 0 1 = t 4 := rfl
  have e02 : toMatrix t 0 2 = t 8 := rfl
  have e10 : toMatrix t 1 0 = t 1 := rfl
  have e11 : toMatrix t 1 1 = t 5 := rfl
  have e12 : toMatrix t 1 2 = t 9 := rfl
  have e20 : toMatrix t 2 0 = t 2 := rfl
  have e21 : toMatrix t 2 1 = t 6 := rfl
  have e22 : toMatrix t 2 2 = t 10 := rfl
  rw [Matrix.det_fin_three, e00, e01, e02, e10, e11, e12, e20, e21, e22]
  ring

/-- The radius of the shader is the hit radius of the selection. -/
lemma frag_radius_sq_eq (s : State) (u : SharedState)
    (ht : u.transform_mat = toMatrix s.transform_mat) :
    frag_radius_sq u = s.hit_radius_sq := by
  unfold frag_radius_sq
  rw [← hit_radius_sq_eq, ht, toMatrix_det]
  rfl

/-- The mapped pixel of the shader is `MapPoint` of its device offset. -/
lemma frag_coord_of_eq (s : State) (u : SharedState) (fc : ℚ × ℚ)
    (ht : u.transform_mat = toMatrix s.transform_mat) :
    frag_coord_of u fc =
      s.map_xy (fc.1 - u.window_size.1 / 2) (fc.2 - u.window_size.2 / 2) 1 := by
  unfold frag_coord_of State.map_xy state_map_point
  rw [ht]
  simp [toMatrix, Matrix.mulVec, Matrix.dotProduct, Fin.sum_univ_three]

/-- On the same points, position and threshold, the selection scan and the
overlay loop stop at the same index, or both run to their end. -/
lemma scan_overlay_agree (s : State) (u : SharedState) (adj_pos : Fin 3 → ℚ) (rad : ℚ)
    (n : Nat) (hn : n ≤ 20)
    (hpts : ∀ j : Fin 20, j.val < n → u.points_arr j = s.point j) :
    ∃ r ro, recompute_scan s.points adj_pos rad n 0 = some r ∧
      overlay_loop u (adj_pos 0, adj_pos 1) rad n 0 = Except.ok ro ∧
      (∀ i : Int, 0 ≤ i → (r = i ↔ ro = some i)) ∧ (r = -1 ↔ ro = none) := by
  obtain ⟨r, er, hr⟩ := recompute_scan_first s.points adj_pos rad n 0 (by omega)
  obtain ⟨ro, eo, ho⟩ := overlay_loop_first u (adj_pos 0, adj_pos 1) rad n 0 (by omega)
  simp only [Nat.cast_zero] at er eo
  have hTW : ∀ j : Fin 20, j.val < n →
      (dist_sq (adj_pos 0, adj_pos 1) (u.points_arr j) ≤ rad ↔
        dist_sq (s.points ⟨4 * j.val, by omega⟩, s.points ⟨4 * j.val + 1, by omega⟩)
          (adj_pos 0, adj_pos 1) ≤ rad) := by
    intro j hj
    rw [hpts j hj, dist_sq_comm]
    rfl
  refine ⟨r, ro, er, eo, ?_⟩
  rcases hr with ⟨hr, hall⟩ | ⟨k, hk, -, hk2, hk3, hall⟩
  · rcases ho with ⟨hro, -⟩ | ⟨k', -, -, hk2', hk3', -⟩
    · rw [hr, hro]
      refine ⟨fun i hi => ⟨fun h => by omega, fun h => by simp at h⟩, by simp⟩
    · exact absurd ((hTW k' (by omega)).mp hk3') (hall k' (Nat.zero_le _) (by omega))
  · rcases ho with ⟨-, hallo⟩ | ⟨k', hk', -, hk2', hk3', hallo⟩
    · exact absurd ((hTW k (by omega)).mpr hk3) (hallo k (Nat.zero_le _) (by omega))
    · have hkk : k = k' := by
        rcases lt_trichotomy k.val k'.val with hlt | heq | hgt
        · exact absurd ((hTW k (by omega)).mpr hk3) (hallo k (Nat.zero_le _) hlt)
        · exact Fin.ext heq
        · exact absurd ((hTW k' (by omega)).mp hk3') (hall k' (Nat.zero_le _) hgt)
      rw [hk, hk', hkk]
      refine ⟨fun i hi => ⟨fun h => by rw [h], fun h => Option.some.inj h⟩, ?_⟩
      constructor
      · intro h
        omega
      · intro h
        simp at h

/-- Claim C17: let the buffer mirror a state with at most `MAX_POINTS` points and
let the shader read its block from that buffer.  For a cursor and a pixel with
the same device offset `(du, dv)`, both map to `p = MapPoint(du, dv, 1)`, both
tests use the threshold `POINT_RADIUS² · |det(T)|`, and
`state_recompute_selected_point` selects the index `i ≥ 0` if and only if the
overlay loop of the shader stops at `i`; it selects `-1` if and only if the
overlay loop runs to its end, and then the shader goes on with the convergence
iteration. -/
theorem C17_overlay_matches_selection (window : GLFWwindow) (s : State) (d : ℚ × ℚ)
    (u : SharedState) (x y : ℚ) (fc : ℚ × ℚ) (du dv : ℚ)
    (hm : s.mirrored d) (hr : s.ubo.reads u) (hc : s.points_count ≤ MAX_POINTS)
    (hx : x - (window.framebuffer_width : ℚ) / 2 = du)
    (hy : (window.framebuffer_height : ℚ) / 2 - y = dv)
    (hfx : fc.1 - u.window_size.1 / 2 = du)
    (hfy : fc.2 - u.window_size.2 / 2 = dv) :
    ∃ s1 ro, state_recompute_selected_point window s x y = some s1 ∧
      overlay_loop u (frag_coord_of u fc) (frag_radius_sq u) u.points_count.toNat 0 =
        Except.ok ro ∧
      s.cursor window x y = s.map_xy du dv 1 ∧
      frag_coord_of u fc = s.map_xy du dv 1 ∧
      frag_radius_sq u = (POINT_RADIUS : ℚ) ^ 2 * |state_get_transform_matrix_det s| ∧
      (∀ i : Int, 0 ≤ i → (s1.selected_point = i ↔ ro = some i)) ∧
      (s1.selected_point = -1 ↔ ro = none) ∧
      (ro = none → frag_main u fc = newton_loop u MAX_ITERS (frag_coord_of u fc)) := by
  have hM : s.points_count ≤ 20 := hc
  obtain ⟨ht, -, -, hcnt, hpts⟩ := reads_of_mirrored s d u hm hr
  have hfc : frag_coord_of u fc = s.map_xy du dv 1 := by
    rw [frag_coord_of_eq s u fc ht, hfx, hfy]
  have hcur : s.cursor window x y = s.map_xy du dv 1 := by
    unfold State.cursor
    rw [hx, hy]
  have hrad : frag_radius_sq u = s.hit_radius_sq := frag_radius_sq_eq s u ht
  obtain ⟨r, ro, er, eo, hi, hnone⟩ := scan_overlay_agree s u (state_map_point s du dv 1)
    s.hit_radius_sq s.points_count.toNat (by omega)
    (fun j hj => hpts j (by omega))
  refine ⟨{ s with
      selected_point := r
      ubo := glBufferSubData s.ubo SELECTED_POINT_OFFSET 4 (int_at r) }, ro, ?_, ?_,
    hcur, hfc, hrad, hi, hnone, ?_⟩
  · have er2 : recompute_scan s.points
        (state_map_point s (x - (window.framebuffer_width : ℚ) / 2)
          ((window.framebuffer_height : ℚ) / 2 - y) 1)
        (((POINT_RADIUS * POINT_RADIUS : Int) : ℚ) * |state_get_transform_matrix_det s|)
        s.points_count.toNat 0 = some r := by
      rw [hx, hy, hit_radius_sq_eq]
      exact er
    unfold state_recompute_selected_point
    simp only [er2, Option.bind_eq_bind, Option.some_bind]
  · rw [hfc, hrad, hcnt]
    exact eo
  · intro hro
    rw [hro] at eo
    rw [frag_main_eq, hfc, hrad, hcnt]
    have eo2 : overlay_loop u (s.map_xy du dv 1) s.hit_radius_sq s.points_count.toNat 0 =
        Except.ok none := eo
    rw [eo2]

/-! ## Binary32 rounding of powers of two -/

lemma round_half_even_intCast (n : Int) : round_half_even (n : ℚ) = n := by
  unfold round_half_even
  simp

lemma round_half_even_small (x : ℚ) (h0 : 0 ≤ x) (h1 : x < 1 / 2) : round_half_even x = 0 := by
  have hf : ⌊x⌋ = 0 := by
    rw [Int.floor_eq_iff]
    constructor
    · simpa using h0
    · have : x < 1 := lt_trans h1 (by norm_num)
      simpa using this
  unfold round_half_even
  simp only [hf, Int.cast_zero, sub_zero]
  rw [if_pos h1]

lemma fp_exponent_two_zpow (emin z : Int) : fp_exponent emin ((2 : ℚ) ^ z) = max z emin := by
  unfold fp_exponent
  have hpos : (0 : ℚ) < 2 ^ z := zpow_pos (by norm_num) z
  rw [abs_of_pos hpos]
  have h := Int.log_zpow (R := ℚ) (b := 2) (by norm_num) z
  simp only [Nat.cast_ofNat] at h
  rw [h]

lemma fp_round_zero (prec : Nat) (emin emax : Int) : fp_round prec emin emax 0 = some 0 := by
  unfold fp_round
  have h0 : round_half_even 0 = 0 := round_half_even_intCast 0
  simp only [zero_div, h0, Int.cast_zero, zero_mul, abs_zero]
  rw [if_pos (zpow_pos (by norm_num) _)]

/-- A power of two inside the range of the format is kept by the rounding. -/
lemma fp_round_two_zpow (prec : Nat) (emin emax z : Int)
    (h1 : emin - ((prec : Int) - 1) ≤ z) (h2 : z ≤ emax) (hp : 1 ≤ prec) :
    fp_round prec emin emax ((2 : ℚ) ^ z) = some ((2 : ℚ) ^ z) := by
  unfold fp_round
  rw [fp_exponent_two_zpow]
  have hn : 0 ≤ z - (max z emin - ((prec : Int) - 1)) := by
    rcases le_total z emin with h | h
    · rw [max_eq_right h]
      omega
    · rw [max_eq_left h]
      omega
  have hdiv : (2 : ℚ) ^ z / 2 ^ (max z emin - ((prec : Int) - 1)) =
      (((2 : Int) ^ (z - (max z emin - ((prec : Int) - 1))).toNat : Int) : ℚ) := by
    rw [← zpow_sub₀ (by norm_num : (2 : ℚ) ≠ 0)]
    push_cast
    rw [← zpow_natCast, Int.toNat_of_nonneg hn]
  simp only [hdiv, round_half_even_intCast]
  have hmul : (((2 : Int) ^ (z - (max z emin - ((prec : Int) - 1))).toNat : Int) : ℚ) *
      2 ^ (max z emin - ((prec : Int) - 1)) = 2 ^ z := by
    rw [← hdiv]
    exact div_mul_cancel₀ _ (ne_of_gt (zpow_pos (by norm_num) _))
  rw [hmul, abs_of_pos (zpow_pos (by norm_num) z),
    if_pos (zpow_lt_zpow_right₀ (by norm_num) (by omega))]

/-- A power of two below half of the least positive number of the format is
rounded to zero. -/
lemma fp_round_tiny (prec : Nat) (emin emax z : Int) (h : z ≤ emin - (prec : Int) - 1) :
    fp_round prec emin emax ((2 : ℚ) ^ z) = some 0 := by
  unfold fp_round
  rw [fp_exponent_two_zpow, max_eq_right (by omega)]
  have hdiv : (2 : ℚ) ^ z / 2 ^ (emin - ((prec : Int) - 1)) =
      2 ^ (z - (emin - ((prec : Int) - 1))) := by
    rw [← zpow_sub₀ (by norm_num : (2 : ℚ) ≠ 0)]
  have hle : (2 : ℚ) ^ (z - (emin - ((prec : Int) - 1))) ≤ 2 ^ (-2 : Int) :=
    zpow_le_zpow_right₀ (by norm_num) (by omega)
  have hsmall : (2 : ℚ) ^ (z - (emin - ((prec : Int) - 1))) < 1 / 2 :=
    lt_of_le_of_lt hle (by norm_num)
  have hr := round_half_even_small _ (le_of_lt (zpow_pos (by norm_num) _)) hsmall
  simp only [hdiv, hr, Int.cast_zero, zero_mul, abs_zero]
  rw [if_pos (zpow_pos (by norm_num) _)]

lemma f32_round_zero : f32_round 0 = some 0 := fp_round_zero 24 (-126) 127

lemma f64_round_zero : f64_round 0 = some 0 := fp_round_zero 53 (-1022) 1023

/-- Binary32 holds the powers of two from `2^-149` to `2^127`. -/
lemma f32_round_two_zpow (z : Int) (h1 : -149 ≤ z) (h2 : z ≤ 127) :
    f32_round ((2 : ℚ) ^ z) = some ((2 : ℚ) ^ z) :=
  fp_round_two_zpow 24 (-126) 127 z (by push_cast; omega) h2 (by norm_num)

/-- In binary32 the powers of two up to `2^-151` underflow to zero. -/
lemma f32_round_underflow (z : Int) (h : z ≤ -151) : f32_round ((2 : ℚ) ^ z) = some 0 :=
  fp_round_tiny 24 (-126) 127 z (by push_cast; omega)

lemma f32_round_one : f32_round 1 = some 1 := by
  have h := f32_round_two_zpow 0 (by norm_num) (by norm_num)
  simpa using h

/-! ## Binary32: a zoom step from the identity -/

lemma f32_dot3_100 (a b c : ℚ) (ha : f32_round a = some a) :
    f32_dot3 1 a 0 b 0 c = some a := by
  simp [f32_dot3, f32_mul, f32_add, ha, f32_round_zero]

lemma f32_dot3_010 (a b c : ℚ) (hb : f32_round b = some b) :
    f32_dot3 0 a 1 b 0 c = some b := by
  simp [f32_dot3, f32_mul, f32_add, hb, f32_round_zero]

lemma f32_dot3_001 (a b c : ℚ) (hc : f32_round c = some c) :
    f32_dot3 0 a 0 b 1 c = some c := by
  simp [f32_dot3, f32_mul, f32_add, hc, f32_round_zero]

lemma f32_mul3_zero_left (y z : ℚ) : f32_mul3 0 y z = some 0 := by
  simp [f32_mul3, f32_mul, f32_round_zero]

/-- In binary32, composing the identity with a matrix of binary32 numbers gives
that matrix. -/
lemma adjust_f32_identity (s : State) (hI : s.transform_mat = IDENTITY_MATRIX)
    (a1 a2 a3 a4 a5 a6 a7 a8 a9 : ℚ) (result : Fin 12 → ℚ)
    (h1 : f32_round a1 = some a1) (h2 : f32_round a2 = some a2)
    (h3 : f32_round a3 = some a3) (h4 : f32_round a4 = some a4)
    (h5 : f32_round a5 = some a5) (h6 : f32_round a6 = some a6)
    (h7 : f32_round a7 = some a7) (h8 : f32_round a8 = some a8)
    (h9 : f32_round a9 = some a9) :
    ∃ s1, state_adjust_transform_matrix_f32 s a1 a2 a3 a4 a5 a6 a7 a8 a9 result = some s1 ∧
      s1.transform_mat 0 = a1 ∧ s1.transform_mat 1 = a4 ∧ s1.transform_mat 2 = a7 ∧
      s1.transform_mat 4 = a2 ∧ s1.transform_mat 5 = a5 ∧ s1.transform_mat 6 = a8 ∧
      s1.transform_mat 8 = a3 ∧ s1.transform_mat 9 = a6 ∧ s1.transform_mat 10 = a9 := by
  unfold state_adjust_transform_matrix_f32
  simp only [hI, identity_mat_0, identity_mat_1, identity_mat_2, identity_mat_4,
    identity_mat_5, identity_mat_6, identity_mat_8, identity_mat_9, identity_mat_10,
    f32_dot3_100 _ _ _ h1, f32_dot3_100 _ _ _ h2, f32_dot3_100 _ _ _ h3,
    f32_dot3_010 _ _ _ h4, f32_dot3_010 _ _ _ h5, f32_dot3_010 _ _ _ h6,
    f32_dot3_001 _ _ _ h7, f32_dot3_001 _ _ _ h8, f32_dot3_001 _ _ _ h9,
    Option.bind_eq_bind, Option.some_bind]
  refine ⟨_, rfl, ?_, ?_, ?_, ?_, ?_, ?_, ?_, ?_, ?_⟩ <;> simp [Function.update]

/-- In binary32 the determinant of `diag(k, k, 1)` is zero when `k * k`
underflows. -/
lemma det_f32_diag_underflow (s : State) (k : ℚ)
    (h0 : s.transform_mat 0 = k) (h1 : s.transform_mat 1 = 0) (h2 : s.transform_mat 2 = 0)
    (h4 : s.transform_mat 4 = 0) (h5 : s.transform_mat 5 = k) (h6 : s.transform_mat 6 = 0)
    (h8 : s.transform_mat 8 = 0) (h9 : s.transform_mat 9 = 0) (h10 : s.transform_mat 10 = 1)
    (hkk : f32_round (k * k) = some 0) :
    state_get_transform_matrix_det_f32 s = some 0 := by
  unfold state_get_transform_matrix_det_f32
  simp [h0, h1, h2, h4, h5, h6, h8, h9, h10, f32_mul3, f32_mul, f32_add, f32_sub, hkk,
    f32_round_zero]

/-- In binary32 the determinant of the identity is 1. -/
lemma det_f32_identity (s : State) (hI : s.transform_mat = IDENTITY_MATRIX) :
    state_get_transform_matrix_det_f32 s = some 1 := by
  unfold state_get_transform_matrix_det_f32
  simp [hI, f32_mul3, f32_mul, f32_add, f32_sub, f32_round_zero, f32_round_one]

/-- In binary32, the zoom step `diag(2^-80, 2^-80, 1)` applied to the identity
leaves a transform whose determinant is computed as zero. -/
lemma zoom_f32_det_underflow (s : State) (hI : s.transform_mat = IDENTITY_MATRIX)
    (result : Fin 12 → ℚ) :
    (state_adjust_transform_matrix_f32 s (2 ^ (-80 : Int)) 0 0 0 (2 ^ (-80 : Int)) 0 0 0 1
      result).bind state_get_transform_matrix_det_f32 = some 0 := by
  have hk : f32_round ((2 : ℚ) ^ (-80 : Int)) = some ((2 : ℚ) ^ (-80 : Int)) :=
    f32_round_two_zpow (-80) (by norm_num) (by norm_num)
  have hkk : f32_round ((2 : ℚ) ^ (-80 : Int) * (2 : ℚ) ^ (-80 : Int)) = some 0 := by
    rw [← zpow_add₀ (by norm_num : (2 : ℚ) ≠ 0)]
    exact f32_round_underflow _ (by norm_num)
  obtain ⟨s1, e, t0, t1, t2, t4, t5, t6, t8, t9, t10⟩ :=
    adjust_f32_identity s hI (2 ^ (-80 : Int)) 0 0 0 (2 ^ (-80 : Int)) 0 0 0 1 result
      hk f32_round_zero f32_round_zero f32_round_zero hk f32_round_zero f32_round_zero
      f32_round_zero f32_round_one
  rw [e, Option.some_bind]
  exact det_f32_diag_underflow s1 _ t0 t1 t2 t4 t5 t6 t8 t9 t10 hkk

/-! ## Binary32: the hit test far zoomed out -/

/-- In binary32, with one point at `(p, 0)`, the cursor mapped to the origin and
a zoom `diag(k, k, 1)` whose `k * k` underflows, the threshold is zero and the
point is not selected, as long as `p * p` does not underflow. -/
lemma recompute_f32_one_point_miss (window : GLFWwindow) (s : State) (x y k p : ℚ)
    (hc : s.points_count = 1)
    (h0 : s.transform_mat 0 = k) (h1 : s.transform_mat 1 = 0) (h2 : s.transform_mat 2 = 0)
    (h4 : s.transform_mat 4 = 0) (h5 : s.transform_mat 5 = k) (h6 : s.transform_mat 6 = 0)
    (h8 : s.transform_mat 8 = 0) (h9 : s.transform_mat 9 = 0) (h10 : s.transform_mat 10 = 1)
    (hp0 : load s.points 0 = some p) (hp1 : load s.points 1 = some 0)
    (hx : x - (window.framebuffer_width : ℚ) / 2 = 0)
    (hy : (window.framebuffer_height : ℚ) / 2 - y = 0)
    (hkk : f32_round (k * k) = some 0)
    (hp : f32_round p = some p) (hpp : f32_round (p * p) = some (p * p))
    (hpos : 0 < p * p) :
    (state_recompute_selected_point_f32 window s x y).map State.selected_point =
      some (-1) := by
  have hdet := det_f32_diag_underflow s k h0 h1 h2 h4 h5 h6 h8 h9 h10 hkk
  have hmap : state_map_point_f32 s 0 0 1 = some ![0, 0, 1] := by
    unfold state_map_point_f32
    simp [h0, h1, h2, h4, h5, h6, h8, h9, h10, f32_dot3, f32_mul, f32_add, f32_round_zero,
      f32_round_one]
  have hscan : recompute_scan_f32 s.points ![0, 0, 1] 0 1 0 = some (-1) := by
    unfold recompute_scan_f32
    simp [hp0, hp1, f32_sub, f32_mul, f32_add, hp, hpp, f32_round_zero, not_le.mpr hpos,
      recompute_scan_f32]
  unfold state_recompute_selected_point_f32
  simp [hx, hy, f64_round_zero, f32_round_zero, hmap, hdet, hc, hscan]

/-- In binary32, under the zoom `diag(k, k, 1)` the device offset `(x, 0)` maps
to `(k * x, 0)` when that product is a binary32 number. -/
lemma map_point_f32_diag (s : State) (k x : ℚ)
    (h0 : s.transform_mat 0 = k) (h1 : s.transform_mat 1 = 0) (h2 : s.transform_mat 2 = 0)
    (h4 : s.transform_mat 4 = 0) (h5 : s.transform_mat 5 = k) (h6 : s.transform_mat 6 = 0)
    (h8 : s.transform_mat 8 = 0) (h9 : s.transform_mat 9 = 0) (h10 : s.transform_mat 10 = 1)
    (hkx : f32_round (k * x) = some (k * x)) :
    state_map_point_f32 s x 0 1 = some ![k * x, 0, 1] := by
  unfold state_map_point_f32
  simp [h0, h1, h2, h4, h5, h6, h8, h9, h10, f32_dot3, f32_mul, f32_add, hkx, f32_round_zero,
    f32_round_one]

/-- Entries of the transform of `zoomed_out_state`. -/
lemma zoomed_out_state_transform :
    zoomed_out_state.transform_mat 0 = (2 : ℚ) ^ (-76 : Int) ∧
    zoomed_out_state.transform_mat 1 = 0 ∧ zoomed_out_state.transform_mat 2 = 0 ∧
    zoomed_out_state.transform_mat 4 = 0 ∧
    zoomed_out_state.transform_mat 5 = (2 : ℚ) ^ (-76 : Int) ∧
    zoomed_out_state.transform_mat 6 = 0 ∧ zoomed_out_state.transform_mat 8 = 0 ∧
    zoomed_out_state.transform_mat 9 = 0 ∧ zoomed_out_state.transform_mat 10 = 1 := by
  refine ⟨?_, ?_, ?_, ?_, ?_, ?_, ?_, ?_, ?_⟩ <;> simp [zoomed_out_state]

/-- Point 0 of `zoomed_out_state`. -/
lemma zoomed_out_state_point :
    zoomed_out_state.point 0 = ((2 : ℚ) ^ (-76 : Int) * 16, 0) := by
  have h16 : (2 : ℚ) ^ (-76 : Int) * 16 = (2 : ℚ) ^ (-72 : Int) := by
    rw [show (16 : ℚ) = 2 ^ (4 : Int) by norm_num, ← zpow_add₀ (by norm_num : (2 : ℚ) ≠ 0)]
    norm_num
  rw [h16]
  simp [State.point, zoomed_out_state]

/-- The state `zoomed_out_state` in binary32: `MapPoint` of the device offset
`(16, 0)` is its point 0. -/
lemma zoomed_out_state_map_f32 :
    state_map_point_f32 zoomed_out_state 16 0 1 =
      some ![(zoomed_out_state.point 0).1, (zoomed_out_state.point 0).2, 1] := by
  obtain ⟨t0, t1, t2, t4, t5, t6, t8, t9, t10⟩ := zoomed_out_state_transform
  have hp : f32_round ((2 : ℚ) ^ (-76 : Int) * 16) = some ((2 : ℚ) ^ (-76 : Int) * 16) := by
    have h16 : (2 : ℚ) ^ (-76 : Int) * 16 = (2 : ℚ) ^ (-72 : Int) := by
      rw [show (16 : ℚ) = 2 ^ (4 : Int) by norm_num, ← zpow_add₀ (by norm_num : (2 : ℚ) ≠ 0)]
      norm_num
    rw [h16]
    exact f32_round_two_zpow (-72) (by norm_num) (by norm_num)
  rw [zoomed_out_state_point]
  exact map_point_f32_diag zoomed_out_state _ 16 t0 t1 t2 t4 t5 t6 t8 t9 t10 hp

/-- The state `zoomed_out_state` in binary32: the cursor at the centre of the
framebuffer, 16 device pixels from point 0, selects nothing. -/
lemma zoomed_out_state_miss_f32 :
    (state_recompute_selected_point_f32 default_window zoomed_out_state 320 240).map
      State.selected_point = some (-1) := by
  obtain ⟨t0, t1, t2, t4, t5, t6, t8, t9, t10⟩ := zoomed_out_state_transform
  have hp : f32_round ((2 : ℚ) ^ (-72 : Int)) = some ((2 : ℚ) ^ (-72 : Int)) :=
    f32_round_two_zpow (-72) (by norm_num) (by norm_num)
  have hkk : f32_round ((2 : ℚ) ^ (-76 : Int) * (2 : ℚ) ^ (-76 : Int)) = some 0 := by
    rw [← zpow_add₀ (by norm_num : (2 : ℚ) ≠ 0)]
    exact f32_round_underflow _ (by norm_num)
  have hpp : f32_round ((2 : ℚ) ^ (-72 : Int) * (2 : ℚ) ^ (-72 : Int)) =
      some ((2 : ℚ) ^ (-72 : Int) * (2 : ℚ) ^ (-72 : Int)) := by
    rw [← zpow_add₀ (by norm_num : (2 : ℚ) ≠ 0)]
    exact f32_round_two_zpow _ (by norm_num) (by norm_num)
  exact recompute_f32_one_point_miss default_window zoomed_out_state 320 240
    (2 ^ (-76 : Int)) (2 ^ (-72 : Int)) rfl t0 t1 t2 t4 t5 t6 t8 t9 t10
    (by simp [load, zoomed_out_state]) (by simp [load, zoomed_out_state])
    (by norm_num [default_window]) (by norm_num [default_window]) hkk hp hpp
    (by positivity)

/-! ## The mirror relation along the callbacks -/

lemma mirrored_on_keyboard_input (s : State) (d : ℚ × ℚ) (key scancode action mods : Int)
    (hv : s.valid) (h : s.mirrored d) :
    ∃ s1, on_keyboard_input s key scancode action mods = some s1 ∧ s1.valid ∧
      s1.mirrored d := by
  unfold on_keyboard_input
  split_ifs
  · obtain ⟨r, s1, e, v, m⟩ := mirrored_push s d hv h
    exact ⟨s1, by rw [e]; rfl, v, m⟩
  · exact ⟨_, rfl, valid_pop s hv, mirrored_pop s d h⟩
  · exact ⟨s, rfl, hv, h⟩
  · exact ⟨s, rfl, hv, h⟩

lemma mirrored_on_mouse_move (window : GLFWwindow) (s : State) (d : ℚ × ℚ) (x y : ℚ)
    (result : Fin 12 → ℚ) (hv : s.valid) (h : s.mirrored d) :
    ∃ s1, on_mouse_move window s x y result = some s1 ∧ s1.valid ∧ s1.mirrored d := by
  unfold on_mouse_move
  split_ifs with hp hsel
  · obtain ⟨h0, h1, h2, h3⟩ := hv
    have hM : s.points_count ≤ 20 := h1
    have hidx : to_size_t s.selected_point = s.selected_point := by
      unfold to_size_t SIZE_MAX_SUCC
      omega
    obtain ⟨s1, e, v, m⟩ := mirrored_move s d (to_size_t s.selected_point)
      (-(s.prev_mouse_pos 0 - x)) (-(y - s.prev_mouse_pos 1))
      (by rw [hidx]; omega) (by rw [hidx]; show s.selected_point < 20; omega)
      ⟨h0, h1, h2, h3⟩ h
    refine ⟨{ s1 with prev_mouse_pos := ![x, y] }, ?_, valid_of_fields v rfl rfl, m⟩
    simp only [e, Option.bind_eq_bind, Option.some_bind]
  · exact ⟨_, rfl, valid_of_fields hv rfl rfl, mirrored_adjust s d _ _ _ _ _ _ _ _ _ result h⟩
  · obtain ⟨s1, e, v, m⟩ := mirrored_recompute window s d x y hv h
    refine ⟨{ s1 with prev_mouse_pos := ![x, y] }, ?_, valid_of_fields v rfl rfl, m⟩
    simp only [e, Option.bind_eq_bind, Option.some_bind]

lemma mirrored_handle (pow : ℚ → ℚ → ℚ) (s : State) (d : ℚ × ℚ) (e : Event)
    (hv : s.valid) (h : s.mirrored d) :
    ∃ s1, Event.handle pow s e = some s1 ∧ s1.valid ∧
      s1.mirrored (window_size_after_events d [e]) := by
  cases e with
  | key k sc a m => exact mirrored_on_keyboard_input s d k sc a m hv h
  | mouse_move w x y r => exact mirrored_on_mouse_move w s d x y r hv h
  | mouse_scroll x y r =>
    exact ⟨_, rfl, valid_of_fields hv rfl rfl, mirrored_adjust s d _ _ _ _ _ _ _ _ _ r h⟩
  | resize w hh => exact ⟨_, rfl, valid_of_fields hv rfl rfl, mirrored_resize s d w hh h⟩

lemma window_size_after_events_cons (d : ℚ × ℚ) (e : Event) (es : List Event) :
    window_size_after_events d (e :: es) =
      window_size_after_events (window_size_after_events d [e]) es := by
  cases e <;> rfl

/-- Along every sequence of callback events the buffer keeps mirroring the
state. -/
lemma mirrored_run_events (pow : ℚ → ℚ → ℚ) (events : List Event) (s : State) (d : ℚ × ℚ)
    (hv : s.valid) (h : s.mirrored d) :
    ∃ s1, run_events pow s events = some s1 ∧ s1.valid ∧
      s1.mirrored (window_size_after_events d events) := by
  induction events generalizing s d with
  | nil => exact ⟨s, rfl, hv, h⟩
  | cons e es ih =>
    obtain ⟨s1, e1, v1, m1⟩ := mirrored_handle pow s d e hv h
    obtain ⟨s2, e2, v2, m2⟩ := ih s1 _ v1 m1
    refine ⟨s2, ?_, v2, ?_⟩
    · simp only [run_events, e1, Option.some_bind, e2]
    · rw [window_size_after_events_cons]
      exact m2

/-- The buffer of the state with two points mirrors it. -/
lemma two_points_state_mirrored : two_points_state.mirrored (640, 480) := by
  have h0 : state_init.mirrored (640, 480) := by
    have h := mirrored_init
    norm_num [DEFAULT_WINDOW_WIDTH, DEFAULT_WINDOW_HEIGHT] at h
    exact h
  obtain ⟨s1, e, -, m⟩ := mirrored_run_events (fun _ _ => 1) two_points_session state_init
    (640, 480) valid_state_init h0
  have hs : two_points_state = s1 := by
    unfold two_points_state
    rw [e]
    rfl
  rw [hs]
  exact m

/-- In the state with two points the cursor at the centre of the framebuffer
selects point 0. -/
lemma two_points_state_recompute :
    (state_recompute_selected_point default_window two_points_state 320 240).map
      State.selected_point = some 0 := by
  obtain ⟨c, -, p, t⟩ := two_points_state_fields
  norm_num [state_recompute_selected_point, recompute_scan, load, state_map_point,
    state_get_transform_matrix_det, c, p, t, default_window, POINT_RADIUS]

/-! ## Binary32 against the claims on the determinant -/

/-- Claim C4, as stated, fails on the binary32 arithmetic of the code: from the
identity, whose determinant is computed as 1, the zoom step
`diag(2^-80, 2^-80, 1)` leaves a transform whose determinant is computed as 0,
because `2^-80 * 2^-80` underflows; `k² · |det(T)| = 2^-160` is not 0. -/
theorem C4_det_underflows_in_binary32 :
    state_get_transform_matrix_det_f32 state_init = some 1 ∧
    (state_adjust_transform_matrix_f32 state_init (2 ^ (-80 : Int)) 0 0 0
      (2 ^ (-80 : Int)) 0 0 0 1 (fun _ => 0)).bind state_get_transform_matrix_det_f32 =
        some 0 ∧
    |(0 : ℚ)| ≠ ((2 : ℚ) ^ (-80 : Int)) ^ 2 * |(1 : ℚ)| := by
  refine ⟨det_f32_identity state_init rfl, zoom_f32_det_underflow state_init rfl _, ?_⟩
  have hpos : (0 : ℚ) < ((2 : ℚ) ^ (-80 : Int)) ^ 2 * |(1 : ℚ)| := by positivity
  rw [abs_zero]
  exact ne_of_lt hpos

/-- Claim C5, as stated, fails on the binary32 arithmetic of the code: the
single zoom step with the non-zero factor `2^-80`, applied to the identity
transform, leaves a transform whose determinant is computed as exactly 0. -/
theorem C5_det_zero_in_binary32 :
    state_init.transform_mat = IDENTITY_MATRIX ∧
    (PanZoom.zoom (2 ^ (-80 : Int)) (fun _ => 0)).factor ≠ 0 ∧
    (run_pan_zoom_f32 state_init [PanZoom.zoom (2 ^ (-80 : Int)) (fun _ => 0)]).bind
      state_get_transform_matrix_det_f32 = some 0 := by
  refine ⟨rfl, ?_, ?_⟩
  · show (2 : ℚ) ^ (-80 : Int) ≠ 0
    exact ne_of_gt (zpow_pos (by norm_num) _)
  · have h := zoom_f32_det_underflow state_init rfl (fun _ => 0)
    cases hs : state_adjust_transform_matrix_f32 state_init (2 ^ (-80 : Int)) 0 0 0
        (2 ^ (-80 : Int)) 0 0 0 1 (fun _ => 0) with
    | none =>
      rw [hs] at h
      exact absurd h (by simp)
    | some s1 =>
      rw [hs] at h
      simp only [run_pan_zoom_f32, PanZoom.apply_f32, hs, Option.some_bind]
      exact h

/-- Claim C13, as stated, fails on the binary32 arithmetic of the code: under
the pan/zoom transform `diag(2^-76, 2^-76, 1)`, whose scale is not 0, the point
located at `MapPoint(16, 0, 1)` is 16 device pixels from the cursor at the
centre of the framebuffer, so `|d - c|² = 256 ≤ 400`, and it is not selected:
the determinant `2^-152` underflows and the threshold is computed as 0. -/
theorem C13_hit_test_fails_in_binary32 :
    is_pan_zoom zoomed_out_state.transform_mat (2 ^ (-76 : Int)) 0 0 ∧
    (2 : ℚ) ^ (-76 : Int) ≠ 0 ∧
    zoomed_out_state.points_count = 1 ∧
    state_map_point_f32 zoomed_out_state 16 0 1 =
      some ![(zoomed_out_state.point 0).1, (zoomed_out_state.point 0).2, 1] ∧
    dist_sq ((16 : ℚ), (0 : ℚ)) (320 - (default_window.framebuffer_width : ℚ) / 2,
      (default_window.framebuffer_height : ℚ) / 2 - 240) ≤ 400 ∧
    (state_recompute_selected_point_f32 default_window zoomed_out_state 320 240).map
      State.selected_point = some (-1) := by
  obtain ⟨t0, t1, t2, t4, t5, t6, t8, t9, t10⟩ := zoomed_out_state_transform
  refine ⟨⟨t0, t4, t8, t1, t5, t9, t2, t6, t10⟩, ne_of_gt (zpow_pos (by norm_num) _), rfl,
    zoomed_out_state_map_f32, ?_, zoomed_out_state_miss_f32⟩
  norm_num [dist_sq, default_window]

/-- Entries of the transform of `pan_zoom_state`. -/
lemma pan_zoom_state_transform : is_pan_zoom pan_zoom_state.transform_mat 2 3 5 := by
  refine ⟨?_, ?_, ?_, ?_, ?_, ?_, ?_, ?_, ?_⟩ <;> simp [pan_zoom_state]

/-- Point 0 of `pan_zoom_state` is `MapPoint(10, 0, 1)`. -/
lemma pan_zoom_state_point : pan_zoom_state.point 0 = pan_zoom_state.map_xy 10 0 1 := by
  obtain ⟨h0, h4, h8, h1, h5, h9, -, -, -⟩ := pan_zoom_state_transform
  have hpt : pan_zoom_state.point 0 = (23, 5) := by
    simp [State.point, pan_zoom_state]
  rw [hpt]
  simp only [State.map_xy, state_map_point, h0, h4, h8, h1, h5, h9, Matrix.cons_val_zero,
    Matrix.cons_val_one, Matrix.head_cons, Prod.mk.injEq]
  constructor <;> norm_num

/-- Witness of C13 (amended): the transform `[[2,0,3],[0,2,5],[0,0,1]]`, point 0
at `MapPoint(10, 0, 1) = (23, 5)` and the cursor `(325, 236)` of a 640x480
framebuffer, whose device offset is `(5, 4)`. -/
theorem C13_hit_radius_constant_in_device_pixels_witness :
    is_pan_zoom pan_zoom_state.transform_mat 2 3 5 ∧ (2 : ℚ) ≠ 0 ∧
    pan_zoom_state.points_count ≤ MAX_POINTS ∧
    ((0 : Fin 20).val : Int) < pan_zoom_state.points_count ∧
    pan_zoom_state.point 0 = pan_zoom_state.map_xy 10 0 1 ∧
    (recompute_scan pan_zoom_state.points
        (state_map_point pan_zoom_state
          (325 - (default_window.framebuffer_width : ℚ) / 2)
          ((default_window.framebuffer_height : ℚ) / 2 - 236) 1)
        (((POINT_RADIUS * POINT_RADIUS : Int) : ℚ) *
          |state_get_transform_matrix_det pan_zoom_state|)
        1 ((0 : Fin 20).val : Int) = some ((0 : Fin 20).val : Int) ↔
      dist_sq ((10 : ℚ), (0 : ℚ)) (325 - (default_window.framebuffer_width : ℚ) / 2,
        (default_window.framebuffer_height : ℚ) / 2 - 236) ≤ 400) ∧
    ∃ s1, state_recompute_selected_point default_window pan_zoom_state 325 236 = some s1 ∧
      (s1.selected_point = ((0 : Fin 20).val : Int) ↔
        dist_sq ((10 : ℚ), (0 : ℚ)) (325 - (default_window.framebuffer_width : ℚ) / 2,
          (default_window.framebuffer_height : ℚ) / 2 - 236) ≤ 400) :=
  have hT : is_pan_zoom pan_zoom_state.transform_mat 2 3 5 := pan_zoom_state_transform
  have hc : pan_zoom_state.points_count ≤ MAX_POINTS := by decide
  have hi : ((0 : Fin 20).val : Int) < pan_zoom_state.points_count := by decide
  have hp : pan_zoom_state.point 0 = pan_zoom_state.map_xy ((10 : ℚ), (0 : ℚ)).1
      ((10 : ℚ), (0 : ℚ)).2 1 := pan_zoom_state_point
  have h := C13_hit_radius_constant_in_device_pixels default_window pan_zoom_state 2 3 5
    325 236 ((10 : ℚ), (0 : ℚ)) 0 hT two_ne_zero hc hi hp
  ⟨hT, two_ne_zero, hc, hi, hp, h.1, h.2 (fun j hj => absurd hj (Fin.not_lt_zero j))⟩

/-- Witness of C17: the state with two points at the origin, reached by two
pushes and a pointer move, the block decoded from its buffer, and the cursor
and the pixel at the centre of the 640x480 window: the selection is point 0 and
the overlay loop of the shader stops at index 0. -/
theorem C17_overlay_matches_selection_witness :
    two_points_state.mirrored (640, 480) ∧
    two_points_state.ubo.reads two_points_state.ubo.block ∧
    two_points_state.points_count ≤ MAX_POINTS ∧
    ∃ s1 ro, state_recompute_selected_point default_window two_points_state 320 240 =
        some s1 ∧
      overlay_loop two_points_state.ubo.block
        (frag_coord_of two_points_state.ubo.block (320, 240))
        (frag_radius_sq two_points_state.ubo.block)
        two_points_state.ubo.block.points_count.toNat 0 = Except.ok ro ∧
      (s1.selected_point = 0 ↔ ro = some 0) ∧
      s1.selected_point = 0 ∧ ro = some 0 :=
  have hm := two_points_state_mirrored
  have hr := reads_block two_points_state.ubo
  have hc : two_points_state.points_count ≤ MAX_POINTS := by
    rw [two_points_state_fields.1]; decide
  have hw : two_points_state.ubo.block.window_size = (640, 480) :=
    (reads_of_mirrored two_points_state (640, 480) _ hm hr).2.1
  have ⟨s1, ro, e1, e2, _, _, _, hi, _, _⟩ :=
    C17_overlay_matches_selection default_window two_points_state (640, 480)
      two_points_state.ubo.block 320 240 (320, 240) 0 0 hm hr hc
      (by norm_num [default_window]) (by norm_num [default_window])
      (by rw [hw]; norm_num) (by rw [hw]; norm_num)
  have hsel : s1.selected_point = 0 := by
    have h := two_points_state_recompute
    rw [e1] at h
    exact Option.some.inj h
  ⟨hm, hr, hc, s1, ro, e1, e2, hi 0 (le_refl _), hsel, (hi 0 (le_refl _)).mp hsel⟩

end NFractal
